import Mathlib

/-!
Switch-complex CPLD drivers: a shallow embedding.

The development follows the CPLD hub (`swc-cpld-fw.c`) and its GPIO, register
and I2C-mux front ends.  C arrays are lists of their declared length; an access
outside the declared bounds, a dereference of a null pointer and a second
acquisition of a held mutex are faults of the execution, reported through
`Except Fault`.  Machine integers are `Nat`/`Int`; a cast to `u8` is `% 256`.
-/

namespace Swc

/-! ## Common definitions -/

/-- Ways in which an execution of the C code leaves defined behaviour. -/
inductive Fault
  | out_of_bounds
  | null_deref
  | deadlock
  deriving DecidableEq, Repr

deriving instance DecidableEq for Except

/-- Kernel `BIT(n)`: the word with only bit `n` set. -/
def BIT (n : Nat) : Nat := 1 <<< n

/-- Errno value `ENODEV`. -/
def ENODEV : Int := 19

/-- Errno value `EINVAL`. -/
def EINVAL : Int := 22

/-- Read of element `i` of a C array; outside the declared length it is a fault. -/
def array_get (a : List Nat) (i : Nat) : Except Fault Nat :=
  match a[i]? with
  | some v => .ok v
  | none => .error .out_of_bounds

/-- Store into element `i` of a C array; outside the declared length it is a fault. -/
def array_set (a : List Nat) (i : Nat) (v : Nat) : Except Fault (List Nat) :=
  if i < a.length then .ok (a.set i v) else .error .out_of_bounds

/-- Kernel `hweight8`: the number of set bits of an 8-bit word. -/
def hweight8 (w : Nat) : Nat :=
  ((List.range 8).filter (fun b => w.testBit b)).length

/-! ## GPIO front end (`swc-cpld-gpio-fw.c`) -/

/-- Value of `SWC_CPLD_GPIO_MAX_OFFSETS`. -/
def SWC_CPLD_GPIO_MAX_OFFSETS : Nat := 8

/-- The property-derived fields of `struct swc_cpld_gpio_data`. -/
structure swc_cpld_gpio_data where
  num_offsets : Nat
  num_gpios : Nat
  offsets : List Nat
  valid_masks : List Nat
  direction_masks : List Nat
  deriving DecidableEq, Repr

/-- The arrays have their declared length `SWC_CPLD_GPIO_MAX_OFFSETS` and `num_offsets`
is within it, as `swc_cpld_get_property` enforces at probe. -/
def swc_cpld_gpio_data.wf (data : swc_cpld_gpio_data) : Prop :=
  data.offsets.length = SWC_CPLD_GPIO_MAX_OFFSETS ∧
  data.valid_masks.length = SWC_CPLD_GPIO_MAX_OFFSETS ∧
  data.direction_masks.length = SWC_CPLD_GPIO_MAX_OFFSETS ∧
  data.num_offsets ≤ SWC_CPLD_GPIO_MAX_OFFSETS

instance (data : swc_cpld_gpio_data) : Decidable data.wf := by
  unfold swc_cpld_gpio_data.wf
  exact inferInstance

/-- The `for` loop of `gpio_to_offsets_bit`: `n` iterations remain, the loop variable is
`idx` and `count` valid bits have been passed. -/
def gpio_to_offsets_bit_loop (data : swc_cpld_gpio_data) (offset : Nat) :
    Nat → Nat → Nat → Except Fault Int
  | 0, _, _ => .ok (-ENODEV)
  | n + 1, idx, count => do
    let m ← array_get data.valid_masks (idx / 8)
    if m &&& BIT (idx % 8) ≠ 0 then
      if count = offset then
        .ok (idx : Int)
      else
        gpio_to_offsets_bit_loop data offset n (idx + 1) (count + 1)
    else
      gpio_to_offsets_bit_loop data offset n (idx + 1) count

/-- Embedding of `gpio_to_offsets_bit`: the position of logical pin `offset`, or `-ENODEV`. -/
def gpio_to_offsets_bit (data : swc_cpld_gpio_data) (offset : Nat) : Except Fault Int :=
  gpio_to_offsets_bit_loop data offset (data.num_offsets * 8) 0 0

/-- The loop of `swc_cpld_gpio_probe` that accumulates `num_gpios`: `n` iterations remain,
the loop variable is `num`. -/
def swc_cpld_gpio_probe_count_loop (data : swc_cpld_gpio_data) :
    Nat → Nat → Nat → Except Fault Nat
  | 0, _, num_gpios => .ok num_gpios
  | n + 1, num, num_gpios => do
    let m ← array_get data.valid_masks num
    swc_cpld_gpio_probe_count_loop data n (num + 1) (num_gpios + hweight8 m)

/-- The pin count `num_gpios` (later `chip.ngpio`) that `swc_cpld_gpio_probe` computes,
starting from the zeroed allocation. -/
def swc_cpld_gpio_probe_num_gpios (data : swc_cpld_gpio_data) : Except Fault Nat :=
  swc_cpld_gpio_probe_count_loop data data.num_offsets 0 0

/-- Bit `idx % 8` of `valid_masks[idx / 8]` is set. -/
def valid_position (data : swc_cpld_gpio_data) (idx : Nat) : Bool :=
  (data.valid_masks.getD (idx / 8) 0).testBit (idx % 8)

/-- The total number of set bits in `valid_masks[0 .. num_offsets)`. -/
def total_valid_bits (data : swc_cpld_gpio_data) : Nat :=
  ((List.range data.num_offsets).map (fun i => hweight8 (data.valid_masks.getD i 0))).sum

/-- The number of valid positions smaller than `idx`. -/
def valid_positions_below (data : swc_cpld_gpio_data) (idx : Nat) : Nat :=
  ((List.range idx).filter (valid_position data)).length

/-- The valid positions below `8 * num_offsets`, ascending. -/
def valid_positions (data : swc_cpld_gpio_data) : List Nat :=
  (List.range (data.num_offsets * 8)).filter (valid_position data)

/-- Entry `k` of an ascending list of positions as a C `int`, `-ENODEV` past its end. -/
def pick (l : List Nat) (k : Nat) : Int :=
  match l[k]? with
  | some i => (i : Int)
  | none => -ENODEV

/-! ## CPLD hub (`swc-cpld-fw.c`, `linux/swc/cpld.h`) -/

/-- Value of `SWC_CPLD_REG_MAX`. -/
def SWC_CPLD_REG_MAX : Nat := 0xff

/-- Permission bit `SWC_CPLD_READABLE`. -/
def SWC_CPLD_READABLE : Nat := BIT 0

/-- Permission bit `SWC_CPLD_WRITEABLE`. -/
def SWC_CPLD_WRITEABLE : Nat := BIT 1

/-- Permission bit `SWC_CPLD_VOLATILE`. -/
def SWC_CPLD_VOLATILE : Nat := BIT 2

/-- Cache kinds of the register map; the hub only ever asks for the flat cache. -/
inductive regcache_type
  | REGCACHE_NONE
  | REGCACHE_FLAT
  deriving DecidableEq, Repr

/-- The fields of `struct regmap_config` that `swc_cpld_set_regprops` fills in;
`hub_predicates` says that the three callbacks are the hub's `swc_cpld_writeable_reg`,
`swc_cpld_readable_reg` and `swc_cpld_volatile_reg`. -/
structure regmap_config where
  max_register : Nat
  hub_predicates : Bool
  cache_type : regcache_type
  deriving DecidableEq, Repr

/-- Calls on the hub mutex and on the register map, in program order. -/
inductive hub_event
  | mutex_lock
  | mutex_unlock
  | regmap_reinit_cache (config : regmap_config)
  | regmap_read (reg : Nat)
  | regmap_write (reg val : Nat)
  | regmap_update_bits (reg mask val : Nat)
  deriving DecidableEq, Repr

/-- The register map is external to the drivers: what a read, a write or an update-bits
request answers is given by the transport, as a function of the calls made before it. -/
structure regmap where
  read : List hub_event → Nat → Int × Nat
  write : List hub_event → Nat → Nat → Int
  update_bits : List hub_event → Nat → Nat → Nat → Int

/-- The fields of `struct swc_cpld_data` other than the map pointer: `regmap_mutex` is
`true` while the mutex is held, `register_props` is the array `u8 register_props[SWC_CPLD_REG_MAX]`. -/
structure swc_cpld_data where
  regmap_mutex : Bool
  max_reg : Nat
  register_props : List Nat
  deriving DecidableEq, Repr

/-- The permission table has its declared length. -/
def swc_cpld_data.wf (data : swc_cpld_data) : Prop :=
  data.register_props.length = SWC_CPLD_REG_MAX

instance (data : swc_cpld_data) : Decidable data.wf := by
  unfold swc_cpld_data.wf
  exact inferInstance

/-- The CPLD device: its driver data (`dev_get_drvdata`), the map that
`dev_get_regmap(dev, NULL)` finds, and the calls made so far. -/
structure device where
  drvdata : Option swc_cpld_data
  regmap : Option regmap
  log : List hub_event

/-- The hub mutex is held. -/
def device.lock_held (dev : device) : Bool :=
  match dev.drvdata with
  | some data => data.regmap_mutex
  | none => false

/-- Kernel `mutex_lock` on `data->regmap_mutex`; taking a held mutex never returns. -/
def mutex_lock (dev : device) (data : swc_cpld_data) : Except Fault (device × swc_cpld_data) :=
  if data.regmap_mutex then
    .error .deadlock
  else
    let data := { data with regmap_mutex := true }
    .ok ({ dev with drvdata := some data, log := dev.log ++ [.mutex_lock] }, data)

/-- Kernel `mutex_unlock` on `data->regmap_mutex`. -/
def mutex_unlock (dev : device) (data : swc_cpld_data) : device :=
  { dev with drvdata := some { data with regmap_mutex := false },
             log := dev.log ++ [.mutex_unlock] }

/-- Kernel `regmap_reinit_cache`; its result is ignored by the hub. -/
def regmap_reinit_cache (dev : device) (config : regmap_config) : device :=
  { dev with log := dev.log ++ [.regmap_reinit_cache config] }

/-- Kernel `regmap_read`: the error code and the value handed back. -/
def regmap_read (dev : device) (map : regmap) (reg : Nat) : device × Int × Nat :=
  ({ dev with log := dev.log ++ [.regmap_read reg] }, map.read dev.log reg)

/-- Kernel `regmap_write`. -/
def regmap_write (dev : device) (map : regmap) (reg val : Nat) : device × Int :=
  ({ dev with log := dev.log ++ [.regmap_write reg val] }, map.write dev.log reg val)

/-- Kernel `regmap_update_bits`. -/
def regmap_update_bits (dev : device) (map : regmap) (reg mask val : Nat) : device × Int :=
  ({ dev with log := dev.log ++ [.regmap_update_bits reg mask val] },
    map.update_bits dev.log reg mask val)

/-- Common body of the three register predicates of the hub, for permission bit `flag`. -/
def swc_cpld_reg_has (dev : device) (reg flag : Nat) : Except Fault Bool :=
  match dev.drvdata with
  | none => .ok false
  | some data =>
    if reg > SWC_CPLD_REG_MAX then
      .ok false
    else do
      let p ← array_get data.register_props reg
      .ok (decide (p &&& flag ≠ 0))

/-- Embedding of `swc_cpld_writeable_reg`. -/
def swc_cpld_writeable_reg (dev : device) (reg : Nat) : Except Fault Bool :=
  swc_cpld_reg_has dev reg SWC_CPLD_WRITEABLE

/-- Embedding of `swc_cpld_readable_reg`. -/
def swc_cpld_readable_reg (dev : device) (reg : Nat) : Except Fault Bool :=
  swc_cpld_reg_has dev reg SWC_CPLD_READABLE

/-- Embedding of `swc_cpld_volatile_reg`. -/
def swc_cpld_volatile_reg (dev : device) (reg : Nat) : Except Fault Bool :=
  swc_cpld_reg_has dev reg SWC_CPLD_VOLATILE

/-- The configuration that `swc_cpld_set_regprops` fills in for a given `max_reg`: the
hub's three predicates and the flat cache. -/
def hub_config (max_reg : Nat) : regmap_config :=
  { max_register := max_reg, hub_predicates := true, cache_type := .REGCACHE_FLAT }

/-- Embedding of `swc_cpld_set_regprops`: the device afterwards and the value returned. -/
def swc_cpld_set_regprops (dev : device) (reg props : Nat) : Except Fault (device × Int) :=
  match dev.drvdata with
  | none => .ok (dev, -ENODEV)
  | some data =>
    if reg > SWC_CPLD_REG_MAX then
      .ok (dev, -EINVAL)
    else do
      let (dev, data) ← mutex_lock dev data
      let cur ← array_get data.register_props reg
      if props = cur ∧ reg < data.max_reg then
        .ok (mutex_unlock dev data, 0)
      else do
        let max_reg := if reg > data.max_reg then reg else data.max_reg
        let register_props ← array_set data.register_props reg props
        let data := { data with max_reg := max_reg, register_props := register_props }
        let dev := { dev with drvdata := some data }
        let config := hub_config data.max_reg
        match dev.regmap with
        | some _ => .ok (mutex_unlock (regmap_reinit_cache dev config) data, 0)
        | none => .ok (mutex_unlock dev data, -ENODEV)

/-- Embedding of `swc_cpld_get_regmap`: the map, with the mutex held, or no map. -/
def swc_cpld_get_regmap (dev : device) : Except Fault (device × Option regmap) :=
  match dev.drvdata with
  | none => .error .null_deref
  | some data => do
    let (dev, data) ← mutex_lock dev data
    match dev.regmap with
    | some map => .ok (dev, some map)
    | none => .ok (mutex_unlock dev data, none)

/-- Embedding of `swc_cpld_put_regmap`; a foreign map is only logged by the driver. -/
def swc_cpld_put_regmap (dev : device) (_map : regmap) : Except Fault device :=
  match dev.drvdata with
  | none => .error .null_deref
  | some data => .ok (mutex_unlock dev data)

/-! ## Name transliteration (`swc-fw-util.c`) -/

/-- The value of `len - 1` for a `size_t len`. -/
def size_t_pred (len : Nat) : Nat := (len + 2 ^ 64 - 1) % 2 ^ 64

/-- Embedding of `swc_fw_util_sysfs_to_property`: the characters stored into `dst`
before the terminating NUL, and the value returned. Strings are the characters before
their NUL. -/
def swc_fw_util_sysfs_to_property (src : List Char) (len : Nat) : List Char × Nat :=
  let n := min src.length (size_t_pred len)
  ((src.take n).map (fun c => if c = '_' then '-' else c), n)

/-- Embedding of `swc_fw_util_property_to_sysfs`, as for the other direction. -/
def swc_fw_util_property_to_sysfs (src : List Char) (len : Nat) : List Char × Nat :=
  let n := min src.length (size_t_pred len)
  ((src.take n).map (fun c => if c = '-' then '_' else c), n)

/-! ## Register front end (`swc-cpld-register-fw.c`) -/

/-- Value of `SWC_CPLD_REGISTER_MAX_OFFSETS`. -/
def SWC_CPLD_REGISTER_MAX_OFFSETS : Nat := 8

/-- The property-derived fields of `struct swc_cpld_register_data`; `names` holds the
entries of the pointer array that the probe has set. -/
structure swc_cpld_register_data where
  num_offsets : Nat
  offsets : List Nat
  valid_masks : List Nat
  direction_masks : List Nat
  readable_masks : List Nat
  writable_masks : List Nat
  volatile_masks : List Nat
  names : List (List Char)
  deriving DecidableEq, Repr

/-- The arrays have their declared length, `num_offsets` is within it and every offset
index has its name. -/
def swc_cpld_register_data.wf (data : swc_cpld_register_data) : Prop :=
  data.offsets.length = SWC_CPLD_REGISTER_MAX_OFFSETS ∧
  data.valid_masks.length = SWC_CPLD_REGISTER_MAX_OFFSETS ∧
  data.direction_masks.length = SWC_CPLD_REGISTER_MAX_OFFSETS ∧
  data.readable_masks.length = SWC_CPLD_REGISTER_MAX_OFFSETS ∧
  data.writable_masks.length = SWC_CPLD_REGISTER_MAX_OFFSETS ∧
  data.volatile_masks.length = SWC_CPLD_REGISTER_MAX_OFFSETS ∧
  data.num_offsets ≤ SWC_CPLD_REGISTER_MAX_OFFSETS ∧
  data.names.length = data.num_offsets

instance (data : swc_cpld_register_data) : Decidable data.wf := by
  unfold swc_cpld_register_data.wf
  exact inferInstance

/-- Read of entry `i` of the `names` pointer array; an entry never set is a null pointer. -/
def names_get (names : List (List Char)) (i : Nat) : Except Fault (List Char) :=
  match names[i]? with
  | some v => .ok v
  | none => .error .null_deref

/-- The text that `sprintf(buf, "0x%x\n", val)` produces. -/
def sprintf_hex (val : Nat) : List Char :=
  ['0', 'x'] ++ Nat.toDigits 16 val ++ ['\n']

/-- The `for` loop of `register_show`: `n` iterations remain, the loop variable is `reg`.
The result is the device afterwards, the value returned and the text left in `buf`. -/
def register_show_loop (data : swc_cpld_register_data) (cpld : device)
    (property_name : List Char) : Nat → Nat → Except Fault (device × Int × Option (List Char))
  | 0, _ => .ok (cpld, -ENODEV, none)
  | n + 1, reg => do
    let name ← names_get data.names reg
    if property_name ≠ name then
      register_show_loop data cpld property_name n (reg + 1)
    else do
      let (cpld, regmap) ← swc_cpld_get_regmap cpld
      match regmap with
      | none => .ok (cpld, -ENODEV, none)
      | some regmap => do
        let offset ← array_get data.offsets reg
        let (cpld, err, val) := regmap_read cpld regmap offset
        let cpld ← swc_cpld_put_regmap cpld regmap
        if err ≠ 0 then
          .ok (cpld, err, none)
        else do
          let mask ← array_get data.valid_masks reg
          let val := val &&& mask
          .ok (cpld, ((sprintf_hex val).length : Int), some (sprintf_hex val))

/-- Embedding of `register_show` for the attribute called `attr_name`. -/
def register_show (data : swc_cpld_register_data) (cpld : device) (attr_name : List Char) :
    Except Fault (device × Int × Option (List Char)) :=
  let property_name := (swc_fw_util_sysfs_to_property attr_name 128).1
  register_show_loop data cpld property_name data.num_offsets 0

/-- Embedding of `swc_cpld_register_get`: the device afterwards, the value returned and
the value stored through `out`, if any. -/
def swc_cpld_register_get (data : swc_cpld_register_data) (cpld : device) (reg : Nat) :
    Except Fault (device × Int × Option Nat) := do
  let (cpld, regmap) ← swc_cpld_get_regmap cpld
  match regmap with
  | none => .ok (cpld, -ENODEV, none)
  | some regmap => do
    let offset ← array_get data.offsets reg
    let (cpld, err, val) := regmap_read cpld regmap offset
    let cpld ← swc_cpld_put_regmap cpld regmap
    if err ≠ 0 then
      .ok (cpld, err, none)
    else do
      let mask ← array_get data.valid_masks reg
      .ok (cpld, 0, some (val &&& mask))

/-- The C expression `val & mask` for an `int val` and a `u8 mask`. -/
def int_and_u8 (val : Int) (mask : Nat) : Nat :=
  (val % 2 ^ 32).toNat &&& mask

/-- Embedding of `swc_cpld_register_set`. -/
def swc_cpld_register_set (data : swc_cpld_register_data) (cpld : device) (reg : Nat)
    (val : Int) : Except Fault (device × Int) := do
  let writable ← array_get data.writable_masks reg
  if writable ≠ 0xff then
    .ok (cpld, -EINVAL)
  else do
    let (cpld, regmap) ← swc_cpld_get_regmap cpld
    match regmap with
    | none => .ok (cpld, -ENODEV)
    | some regmap => do
      let offset ← array_get data.offsets reg
      let mask ← array_get data.valid_masks reg
      let (cpld, err) := regmap_write cpld regmap offset (int_and_u8 val mask)
      let cpld ← swc_cpld_put_regmap cpld regmap
      if err ≠ 0 then
        .ok (cpld, err)
      else
        .ok (cpld, 0)

/-! ## GPIO operations (`swc-cpld-gpio-fw.c`) -/

/-- Embedding of `swc_cpld_gpio_get`. -/
def swc_cpld_gpio_get (data : swc_cpld_gpio_data) (cpld : device) (offset : Nat) :
    Except Fault (device × Int) := do
  let offset_bit ← gpio_to_offsets_bit data offset
  if offset_bit < 0 then
    .ok (cpld, -EINVAL)
  else do
    let (cpld, regmap) ← swc_cpld_get_regmap cpld
    match regmap with
    | none => .ok (cpld, -ENODEV)
    | some regmap => do
      let reg ← array_get data.offsets (offset_bit.toNat / 8)
      let (cpld, err, val) := regmap_read cpld regmap reg
      let cpld ← swc_cpld_put_regmap cpld regmap
      if err ≠ 0 then
        .ok (cpld, err)
      else
        .ok (cpld, if val &&& BIT (offset_bit.toNat % 8) ≠ 0 then 1 else 0)

/-- Embedding of `swc_cpld_gpio_set`, a function without result. -/
def swc_cpld_gpio_set (data : swc_cpld_gpio_data) (cpld : device) (offset : Nat) (val : Int) :
    Except Fault device := do
  let offset_bit ← gpio_to_offsets_bit data offset
  if offset_bit < 0 then
    .ok cpld
  else do
    let (cpld, regmap) ← swc_cpld_get_regmap cpld
    match regmap with
    | none => .ok cpld
    | some regmap => do
      let reg ← array_get data.offsets (offset_bit.toNat / 8)
      let (cpld, _) := regmap_update_bits cpld regmap reg (BIT (offset_bit.toNat % 8))
        (if val ≠ 0 then BIT (offset_bit.toNat % 8) else 0)
      swc_cpld_put_regmap cpld regmap

/-- Kernel constant `GPIOF_DIR_OUT`. -/
def GPIOF_DIR_OUT : Int := 0

/-- Kernel constant `GPIOF_DIR_IN`. -/
def GPIOF_DIR_IN : Int := 1

/-- Embedding of `swc_cpld_gpio_get_dir`; the function never touches the CPLD, which is
handed back as it was. -/
def swc_cpld_gpio_get_dir (data : swc_cpld_gpio_data) (cpld : device) (offset : Nat) :
    Except Fault (device × Int) := do
  let offset_bit ← gpio_to_offsets_bit data offset
  if offset_bit < 0 then
    .ok (cpld, -EINVAL)
  else do
    let m ← array_get data.direction_masks (offset_bit.toNat / 8)
    if m &&& BIT (offset_bit.toNat % 8) ≠ 0 then
      .ok (cpld, GPIOF_DIR_OUT)
    else
      .ok (cpld, GPIOF_DIR_IN)

/-- Embedding of `swc_cpld_gpio_dir_input`. -/
def swc_cpld_gpio_dir_input (data : swc_cpld_gpio_data) (cpld : device) (offset : Nat) :
    Except Fault (device × Int) := do
  let (cpld, dir) ← swc_cpld_gpio_get_dir data cpld offset
  if dir = GPIOF_DIR_IN then
    .ok (cpld, 0)
  else
    .ok (cpld, -EINVAL)

/-- Embedding of `swc_cpld_gpio_dir_output`. -/
def swc_cpld_gpio_dir_output (data : swc_cpld_gpio_data) (cpld : device) (offset : Nat)
    (val : Int) : Except Fault (device × Int) := do
  let (cpld, dir) ← swc_cpld_gpio_get_dir data cpld offset
  if dir = GPIOF_DIR_IN then
    .ok (cpld, -EINVAL)
  else do
    let cpld ← swc_cpld_gpio_set data cpld offset val
    .ok (cpld, 0)

/-- Kernel constant `I2C_SMBUS_WRITE`. -/
def I2C_SMBUS_WRITE : Nat := 0

/-- Kernel constant `I2C_SMBUS_BYTE`. -/
def I2C_SMBUS_BYTE : Nat := 1

/-- The fields of `struct i2c_msg` that the mux write fills in. -/
structure i2c_msg where
  addr : Nat
  flags : Nat
  len : Nat
  buf : List Nat
  deriving DecidableEq, Repr

/-- Transfers requested from the adapter of the CPLD, in program order. -/
inductive i2c_event
  | master_xfer (msg : i2c_msg)
  | smbus_xfer (addr flags read_write command size byte : Nat)
  deriving DecidableEq, Repr

/-- The transfer functions of `adapter->algo`; `master_xfer` may be absent. What a
transfer returns is given by the adapter, as a function of the transfers before it. -/
structure i2c_algorithm where
  master_xfer : Option (List i2c_event → i2c_msg → Int)
  smbus_xfer : List i2c_event → Nat → Nat → Nat → Nat → Nat → Nat → Int

/-- The CPLD seen as an I2C client: address, flags and the algorithm of its adapter. -/
structure i2c_client where
  addr : Nat
  flags : Nat
  algo : i2c_algorithm

/-- The fields of `struct swc_cpld_i2c_mux_data` that the channel operations use. -/
structure swc_cpld_i2c_mux_data where
  cpld : Option i2c_client
  offset : Nat
  deselect_value : Nat
  deselect_on_exit : Bool
  last_chan : Nat

/-- Embedding of `swc_cpld_i2c_mux_write`: the transfers afterwards and the value returned. -/
def swc_cpld_i2c_mux_write (client : i2c_client) (bus : List i2c_event) (reg val : Nat) :
    List i2c_event × Int :=
  match client.algo.master_xfer with
  | some master_xfer =>
    let msg : i2c_msg := { addr := client.addr, flags := 0, len := 2, buf := [reg, val] }
    (bus ++ [.master_xfer msg], master_xfer bus msg)
  | none =>
    (bus ++ [.smbus_xfer client.addr client.flags I2C_SMBUS_WRITE reg I2C_SMBUS_BYTE val],
      client.algo.smbus_xfer bus client.addr client.flags I2C_SMBUS_WRITE reg I2C_SMBUS_BYTE val)

/-- Embedding of `swc_cpld_i2c_mux_select_chan`: the mux data and the transfers afterwards,
and the value returned. -/
def swc_cpld_i2c_mux_select_chan (mux : Option swc_cpld_i2c_mux_data) (bus : List i2c_event)
    (chan : Nat) : Option swc_cpld_i2c_mux_data × List i2c_event × Int :=
  match mux with
  | none => (none, bus, -ENODEV)
  | some data =>
    match data.cpld with
    | none => (some data, bus, -ENODEV)
    | some cpld =>
      let reg := data.offset
      let val := chan % 256
      let (data, bus, err) :=
        if data.last_chan ≠ val then
          let data := { data with last_chan := val }
          let (bus, err) := swc_cpld_i2c_mux_write cpld bus reg val
          (data, bus, err)
        else
          (data, bus, (0 : Int))
      let data := if err ≠ 0 then { data with last_chan := data.deselect_value } else data
      (some data, bus, err)

/-- Embedding of `swc_cpld_i2c_mux_deselect`. -/
def swc_cpld_i2c_mux_deselect (mux : Option swc_cpld_i2c_mux_data) (bus : List i2c_event)
    (_chan : Nat) : Option swc_cpld_i2c_mux_data × List i2c_event × Int :=
  match mux with
  | none => (none, bus, -ENODEV)
  | some data =>
    match data.cpld with
    | none => (some data, bus, -ENODEV)
    | some cpld =>
      let reg := data.offset
      let val := data.deselect_value
      let data := { data with last_chan := val }
      let (bus, err) := swc_cpld_i2c_mux_write cpld bus reg val
      (some data, bus, err)

/-- Kernel constant `I2C_SMBUS_BYTE_DATA`, the size of an SMBus transaction that carries a
command byte and one data byte (write byte). With size `I2C_SMBUS_BYTE` a write
transaction is a send-byte: the command byte alone goes out and the data is not used. -/
def I2C_SMBUS_BYTE_DATA : Nat := 2

/-- The transfer `e` is a write of the value `val` to register `reg` of the device at
address `addr`: a message of the two bytes `reg`, `val` to `addr` in the write direction,
or an SMBus write-byte transaction (size `I2C_SMBUS_BYTE_DATA`) to `addr` with command `reg`
and data byte `val`. -/
def i2c_event.writes (e : i2c_event) (addr reg val : Nat) : Prop :=
  match e with
  | .master_xfer msg => msg.addr = addr ∧ msg.flags = 0 ∧ msg.len = 2 ∧ msg.buf = [reg, val]
  | .smbus_xfer a _ read_write command size byte =>
    a = addr ∧ read_write = I2C_SMBUS_WRITE ∧ command = reg ∧ size = I2C_SMBUS_BYTE_DATA ∧
      byte = val

/-! ## Fan PWM conversion (`swc-fan.c`) -/

/-- Embedding of `pwm_to_state`; `/` on `int` truncates. The products stay far below the
range of `int` for arguments up to 255. -/
def pwm_to_state (min max pwm : Int) : Int :=
  let state := Int.tdiv (pwm * max) 255
  if state < min then min else state

/-- Embedding of `state_to_pwm`. -/
def state_to_pwm (_min max state : Int) : Int :=
  Int.tdiv (255 * state) max

/-! ## Device properties (`swc_cpld_get_property`, `swc_cpld_get_property_n`) -/

/-- Errno value `ENOMEM`. -/
def ENOMEM : Int := 12

/-- Errno value `EOVERFLOW`. -/
def EOVERFLOW : Int := 75

/-- Errno value `EPROBE_DEFER`. -/
def EPROBE_DEFER : Int := 517

/-- Kernel `device_property_read_u8_array` with a null buffer: the number of elements of the
property, `-EINVAL` for a property that is absent. -/
def device_property_count_u8 (prop : Option (List Nat)) : Int :=
  match prop with
  | none => -EINVAL
  | some l => (l.length : Int)

/-- Kernel `device_property_read_u8_array` into a buffer of `nval` elements: the error code
and the elements read. -/
def device_property_read_u8_array (prop : Option (List Nat)) (nval : Nat) : Int × List Nat :=
  match prop with
  | none => (-EINVAL, [])
  | some l => if l.length < nval then (-EOVERFLOW, []) else (0, l.take nval)

/-- Embedding of `swc_cpld_get_property`: the value returned and the array afterwards. -/
def swc_cpld_get_property (prop : Option (List Nat)) (arr : List Nat) (arr_size : Nat) :
    Int × List Nat :=
  let num := device_property_count_u8 prop
  if num < 1 then
    (num, arr)
  else if num.toNat > arr_size then
    (-EINVAL, arr)
  else
    let (err, vals) := device_property_read_u8_array prop num.toNat
    if err ≠ 0 then
      (err, arr)
    else
      (num, vals ++ arr.drop num.toNat)

/-- Embedding of `swc_cpld_get_property_n`: the value returned and the array afterwards. -/
def swc_cpld_get_property_n (prop : Option (List Nat)) (arr : List Nat) (num : Nat) :
    Int × List Nat :=
  let (err, vals) := device_property_read_u8_array prop num
  if err ≠ 0 then
    (err, arr)
  else
    (0, vals ++ arr.drop num)

/-! ## Register front end: probe (`swc_cpld_register_probe`) -/

/-- The properties of a register device node; `none` is a property that is absent. -/
structure register_properties where
  offsets : Option (List Nat)
  valid_masks : Option (List Nat)
  readable_masks : Option (List Nat)
  writable_masks : Option (List Nat)
  volatile_masks : Option (List Nat)
  names : Option (List (List Char))
  deriving DecidableEq, Repr

/-- What the allocator and sysfs answer during the probe: whether the allocation of the
driver data and of the attribute name of each index succeeds, and what `sysfs_create_file`
returns for each index. -/
structure register_probe_env where
  data_alloc_ok : Bool
  name_alloc_ok : Nat → Bool
  sysfs_create_file : Nat → Int

/-- The state the registration loop works on: the hub, the `attr.name` of each entry of
`attrs`, the files of the device in sysfs, and the `swc_cpld_set_regprops` calls made so far
as `(reg, props)`. -/
structure register_probe_state where
  cpld : device
  attrs : List (Option (List Char))
  files : List (List Char)
  registered : List (Nat × Nat)

/-- The driver data as `devm_kzalloc` hands it out. -/
def swc_cpld_register_data_zero : swc_cpld_register_data :=
  { num_offsets := 0,
    offsets := List.replicate SWC_CPLD_REGISTER_MAX_OFFSETS 0,
    valid_masks := List.replicate SWC_CPLD_REGISTER_MAX_OFFSETS 0,
    direction_masks := List.replicate SWC_CPLD_REGISTER_MAX_OFFSETS 0,
    readable_masks := List.replicate SWC_CPLD_REGISTER_MAX_OFFSETS 0,
    writable_masks := List.replicate SWC_CPLD_REGISTER_MAX_OFFSETS 0,
    volatile_masks := List.replicate SWC_CPLD_REGISTER_MAX_OFFSETS 0,
    names := [] }

/-- The part of `swc_cpld_register_probe` that fills the driver data from the properties:
the error it returns with, or 0 and the data when the probe goes on. -/
def swc_cpld_register_probe_data (props : register_properties) :
    Int × swc_cpld_register_data :=
  let data := swc_cpld_register_data_zero
  let (num, offsets) :=
    swc_cpld_get_property props.offsets data.offsets SWC_CPLD_REGISTER_MAX_OFFSETS
  if num < 0 then
    (num, data)
  else
    let data := { data with offsets := offsets, num_offsets := num.toNat }
    let (err, valid_masks) :=
      swc_cpld_get_property_n props.valid_masks data.valid_masks num.toNat
    if err ≠ 0 then
      (err, data)
    else
      let data := { data with valid_masks := valid_masks }
      let data :=
        { data with readable_masks := List.replicate SWC_CPLD_REGISTER_MAX_OFFSETS 0xff }
      let (err, readable_masks) :=
        if props.readable_masks.isSome then
          swc_cpld_get_property_n props.readable_masks data.readable_masks num.toNat
        else
          (0, data.readable_masks)
      if err ≠ 0 then
        (err, data)
      else
        let data := { data with readable_masks := readable_masks }
        let (err, writable_masks) :=
          if props.writable_masks.isSome then
            swc_cpld_get_property_n props.writable_masks data.writable_masks num.toNat
          else
            (0, data.writable_masks)
        if err ≠ 0 then
          (err, data)
        else
          let data := { data with writable_masks := writable_masks }
          let data :=
            { data with volatile_masks := List.replicate SWC_CPLD_REGISTER_MAX_OFFSETS 0xff }
          let (err, volatile_masks) :=
            if props.volatile_masks.isSome then
              swc_cpld_get_property_n props.volatile_masks data.volatile_masks num.toNat
            else
              (0, data.volatile_masks)
          if err ≠ 0 then
            (err, data)
          else
            let data := { data with volatile_masks := volatile_masks }
            match props.names with
            | none => (-EINVAL, data)
            | some names =>
              if names.length = data.num_offsets then
                (0, { data with names := names })
              else
                (-EINVAL, data)

/-- The access properties that the registration loop of `swc_cpld_register_probe` computes
for offset index `num`. -/
def swc_cpld_register_regprops (data : swc_cpld_register_data) (num : Nat) :
    Except Fault Nat := do
  let props := 0
  let valid ← array_get data.valid_masks num
  let props := if valid ≠ 0 then props ||| SWC_CPLD_READABLE else props
  let writable ← array_get data.writable_masks num
  let props := if writable ≠ 0 then props ||| SWC_CPLD_WRITEABLE else props
  let vol ← array_get data.volatile_masks num
  let props := if vol ≠ 0 then props ||| SWC_CPLD_VOLATILE else props
  .ok props

/-- The registration loop of `swc_cpld_register_probe`: `n` iterations remain, the loop
variable is `num`. The value returned with the state is 0 when the loop has run to its end
and the error with which it leaves for `fail_attrs` otherwise. -/
def swc_cpld_register_probe_loop (env : register_probe_env) (data : swc_cpld_register_data) :
    Nat → Nat → register_probe_state → Except Fault (register_probe_state × Int)
  | 0, _, st => .ok (st, 0)
  | n + 1, num, st => do
    let props ← swc_cpld_register_regprops data num
    let offset ← array_get data.offsets num
    let (cpld, err) ← swc_cpld_set_regprops st.cpld offset props
    let st := { st with cpld := cpld, registered := st.registered ++ [(offset, props)] }
    if err ≠ 0 then
      .ok (st, err)
    else do
      let name ← names_get data.names num
      let sysfs_name_size := name.length + 1
      if ¬ env.name_alloc_ok num then
        .ok (st, -ENOMEM)
      else
        let sysfs_name := (swc_fw_util_property_to_sysfs name sysfs_name_size).1
        let st := { st with attrs := st.attrs.set num (some sysfs_name) }
        let err := env.sysfs_create_file num
        if err ≠ 0 then
          .ok ({ st with attrs := st.attrs.set num none }, err)
        else
          swc_cpld_register_probe_loop env data n (num + 1)
            { st with files := st.files ++ [sysfs_name] }

/-- The loop after the label `fail_attrs`: the files of the attributes that have a name are
removed, up to the first entry without one. -/
def swc_cpld_register_probe_fail_attrs (attrs : List (Option (List Char))) :
    Nat → Nat → List (List Char) → List (List Char)
  | 0, _, files => files
  | n + 1, num, files =>
    match attrs.getD num none with
    | some name => swc_cpld_register_probe_fail_attrs attrs n (num + 1) (files.erase name)
    | none => files

/-- The outcome of `swc_cpld_register_probe`: the value returned and, once the probe has
reached the registration loop, the driver data and the final state. -/
structure register_probe_result where
  ret : Int
  bound : Option (swc_cpld_register_data × register_probe_state)

/-- The registration loop with what follows it: success, or the clean-up at `fail_attrs`. -/
def swc_cpld_register_probe_body (env : register_probe_env) (data : swc_cpld_register_data)
    (st : register_probe_state) : Except Fault (register_probe_state × Int) := do
  let (st, err) ← swc_cpld_register_probe_loop env data data.num_offsets 0 st
  if err = 0 then
    .ok (st, 0)
  else
    .ok ({ st with files :=
            swc_cpld_register_probe_fail_attrs st.attrs data.num_offsets 0 st.files }, err)

/-- Embedding of `swc_cpld_register_probe`; `pdata` is the hub handed over as platform data
and `files` are the sysfs files of the device before the probe. -/
def swc_cpld_register_probe (env : register_probe_env) (props : register_properties)
    (pdata : Option device) (files : List (List Char)) : Except Fault register_probe_result :=
  match pdata with
  | none => .ok { ret := -ENODEV, bound := none }
  | some cpld =>
    if ¬ env.data_alloc_ok then
      .ok { ret := -ENOMEM, bound := none }
    else
      let (err, data) := swc_cpld_register_probe_data props
      if err ≠ 0 then
        .ok { ret := err, bound := none }
      else do
        let (st, ret) ← swc_cpld_register_probe_body env data
          { cpld := cpld, attrs := List.replicate SWC_CPLD_REGISTER_MAX_OFFSETS none,
            files := files, registered := [] }
        .ok { ret := ret, bound := some (data, st) }

/-! ## GPIO front end: registration loop of `swc_cpld_gpio_probe` -/

/-- The access properties that the registration loop of `swc_cpld_gpio_probe` computes for
offset index `num`. -/
def swc_cpld_gpio_regprops (data : swc_cpld_gpio_data) (num : Nat) : Except Fault Nat := do
  let props := 0
  let valid ← array_get data.valid_masks num
  let props := if valid ≠ 0 then props ||| SWC_CPLD_READABLE else props
  let direction ← array_get data.direction_masks num
  let props := if direction ≠ 0 then props ||| SWC_CPLD_WRITEABLE else props
  .ok props

/-- The registration loop of `swc_cpld_gpio_probe`: `n` iterations remain, the loop variable
is `num`; the state is the hub and the `swc_cpld_set_regprops` calls made so far. The loop
returns the first error of a call, or 0 at its end. -/
def swc_cpld_gpio_probe_register_loop (data : swc_cpld_gpio_data) :
    Nat → Nat → device × List (Nat × Nat) → Except Fault ((device × List (Nat × Nat)) × Int)
  | 0, _, st => .ok (st, 0)
  | n + 1, num, st => do
    let props ← swc_cpld_gpio_regprops data num
    let offset ← array_get data.offsets num
    let (cpld, err) ← swc_cpld_set_regprops st.1 offset props
    let st := (cpld, st.2 ++ [(offset, props)])
    if err ≠ 0 then
      .ok (st, err)
    else
      swc_cpld_gpio_probe_register_loop data n (num + 1) st

/-! ## I2C mux front end: probe (`swc_cpld_i2c_mux_probe`) -/

/-- The properties of a mux device node; `none` is a property that is absent. -/
structure mux_properties where
  offset : Option Nat
  encoding : Option (List Char)
  deselect_value : Option Nat
  deriving DecidableEq, Repr

/-- What the surroundings answer during the mux probe: whether the driver data can be
allocated, what the look-up of the `i2c-parent` reference returns, whether
`acpi_find_i2c_adapter` and `i2c_get_adapter` find an adapter, the CPLD that `get_device`
hands back, and for each child node whether its address can be read and whether its
virtual adapter can be added. -/
structure mux_probe_env where
  data_alloc_ok : Bool
  i2c_parent_ref : Int
  acpi_adapter_found : Bool
  parent_adap_found : Bool
  cpld : Option i2c_client
  children : List (Bool × Bool)

/-- Kernel `device_property_read_u8` and `device_property_read_string`: the error code,
`-EINVAL` for a property that is absent. -/
def device_property_read_err {α : Type} (prop : Option α) : Int :=
  match prop with
  | none => -EINVAL
  | some _ => 0

/-- The outcome of `swc_cpld_i2c_mux_probe`: the value returned, the mux data once it is
set up, the transfers made, the hub afterwards and the number of child buses registered. -/
structure mux_probe_result where
  ret : Int
  data : Option swc_cpld_i2c_mux_data
  bus : List i2c_event
  hub : Option device
  count : Nat

/-- Embedding of `swc_cpld_i2c_mux_probe`; `pdata` is the CPLD handed over as platform
data, seen through the hub interface, and `bus` the transfers made before the probe. -/
def swc_cpld_i2c_mux_probe (env : mux_probe_env) (props : mux_properties)
    (pdata : Option device) (bus : List i2c_event) : Except Fault mux_probe_result :=
  match pdata with
  | none => .ok { ret := -ENODEV, data := none, bus := bus, hub := none, count := 0 }
  | some hub =>
    if ¬ env.data_alloc_ok then
      .ok { ret := -ENOMEM, data := none, bus := bus, hub := some hub, count := 0 }
    else
      let err := device_property_read_err props.offset
      if err ≠ 0 then
        .ok { ret := err, data := none, bus := bus, hub := some hub, count := 0 }
      else
        let offset := props.offset.getD 0
        let err := device_property_read_err props.encoding
        if err ≠ 0 then
          .ok { ret := err, data := none, bus := bus, hub := some hub, count := 0 }
        else if props.encoding.getD [] ≠ ['i', 'n', 'd', 'e', 'x'] then
          .ok { ret := err, data := none, bus := bus, hub := some hub, count := 0 }
        else
          let err := env.i2c_parent_ref
          if err ≠ 0 then
            .ok { ret := err, data := none, bus := bus, hub := some hub, count := 0 }
          else if ¬ env.acpi_adapter_found then
            .error .null_deref
          else if ¬ env.parent_adap_found then
            .ok { ret := -EPROBE_DEFER, data := none, bus := bus, hub := some hub, count := 0 }
          else
            let data : swc_cpld_i2c_mux_data :=
              { cpld := none, offset := offset, deselect_value := 0,
                deselect_on_exit := false, last_chan := 0 }
            let data :=
              match props.deselect_value with
              | none => { data with last_chan := 0 }
              | some val => { data with last_chan := val, deselect_value := val }
            let data := { data with deselect_on_exit := false }
            let data := { data with cpld := env.cpld }
            match data.cpld with
            | none => .ok { ret := -ENODEV, data := none, bus := bus, hub := some hub, count := 0 }
            | some _ => do
              let (mux, bus, _) := swc_cpld_i2c_mux_deselect (some data) bus 0
              let count := (env.children.filter (fun c => c.1 && c.2)).length
              let (hub, _) ← swc_cpld_set_regprops hub data.offset
                (SWC_CPLD_READABLE ||| SWC_CPLD_WRITEABLE)
              .ok { ret := 0, data := mux, bus := bus, hub := some hub, count := count }

/-! ## Harness for the statements -/

/-- A sequence of `swc_cpld_set_regprops` calls, each given as `(reg, props)`; the values
returned are dropped. -/
def swc_cpld_set_regprops_seq (dev : device) : List (Nat × Nat) → Except Fault device
  | [] => .ok dev
  | c :: rest => do
    let (dev, _) ← swc_cpld_set_regprops dev c.1 c.2
    swc_cpld_set_regprops_seq dev rest

/-- The props of the latest call on offset `o` in a sequence of calls, `init` if there is
none. -/
def last_props (calls : List (Nat × Nat)) (o : Nat) (init : Nat) : Nat :=
  calls.foldl (fun acc c => if c.1 = o then c.2 else acc) init

/-- A two-register GPIO block: pins on bits 0..3 of register 0x10 and on bits 5 and 7 of
register 0x11. -/
def gpio_example : swc_cpld_gpio_data :=
  { num_offsets := 2, num_gpios := 6,
    offsets := [0x10, 0x11, 0, 0, 0, 0, 0, 0],
    valid_masks := [0x0f, 0xa0, 0, 0, 0, 0, 0, 0],
    direction_masks := [0x0c, 0x80, 0, 0, 0, 0, 0, 0] }

/-- The GPIO block of the scenario: four pins on bits 0..3 of register 0x10, bits 2 and 3
wired as outputs. -/
def gpio_scenario : swc_cpld_gpio_data :=
  { num_offsets := 1, num_gpios := 4,
    offsets := [0x10, 0, 0, 0, 0, 0, 0, 0],
    valid_masks := [0x0f, 0, 0, 0, 0, 0, 0, 0],
    direction_masks := [0x0c, 0, 0, 0, 0, 0, 0, 0] }

/-- A transport on which every request succeeds and every read gives 0x5a. -/
def regmap_ok : regmap :=
  { read := fun _ _ => (0, 0x5a), write := fun _ _ _ => 0, update_bits := fun _ _ _ _ => 0 }

/-- The hub data as the probe leaves it: zeroed table, `max_reg = 0`, mutex free. -/
def hub_fresh_data : swc_cpld_data :=
  { regmap_mutex := false, max_reg := 0, register_props := List.replicate 255 0 }

/-- The hub after a successful probe, with its map attached. -/
def hub_fresh : device :=
  { drvdata := some hub_fresh_data, regmap := some regmap_ok, log := [] }

/-- Hub data with registers up to 0x40 declared readable. -/
def hub_used_data : swc_cpld_data :=
  { regmap_mutex := false, max_reg := 0x40, register_props := List.replicate 255 1 }

/-- A hub whose map cannot be fetched. -/
def hub_no_map : device :=
  { drvdata := some hub_used_data, regmap := none, log := [] }

/-- A register front end with two named registers, the second fully writable. -/
def register_example : swc_cpld_register_data :=
  { num_offsets := 2,
    offsets := [0x30, 0x31, 0, 0, 0, 0, 0, 0],
    valid_masks := [0x0f, 0xff, 0, 0, 0, 0, 0, 0],
    direction_masks := [0, 0, 0, 0, 0, 0, 0, 0],
    readable_masks := [0xff, 0xff, 0xff, 0xff, 0xff, 0xff, 0xff, 0xff],
    writable_masks := [0, 0xff, 0, 0, 0, 0, 0, 0],
    volatile_masks := [0xff, 0xff, 0xff, 0xff, 0xff, 0xff, 0xff, 0xff],
    names := [['b', 'o', 'a', 'r', 'd', '-', 'r', 'e', 'v'], ['l', 'e', 'd', '-', 'c', 't', 'l']] }

/-- The attribute name of the second register of `register_example`. -/
def led_ctl_attr : List Char := ['l', 'e', 'd', '_', 'c', 't', 'l']

/-- An SMBus-only adapter on which every transfer succeeds. -/
def algo_ok : i2c_algorithm :=
  { master_xfer := none, smbus_xfer := fun _ _ _ _ _ _ _ => 0 }

/-- An SMBus-only adapter on which every transfer fails with `-EIO`. -/
def algo_failing : i2c_algorithm :=
  { master_xfer := none, smbus_xfer := fun _ _ _ _ _ _ _ => -5 }

/-- The mux of the scenario: register 0x20, deselect value 0xff, nothing selected. -/
def mux_example : swc_cpld_i2c_mux_data :=
  { cpld := some { addr := 0x33, flags := 0, algo := algo_ok },
    offset := 0x20, deselect_value := 0xff, deselect_on_exit := false, last_chan := 0xff }

/-- The same mux with channel 1 selected, behind an adapter whose transfers fail. -/
def mux_failing : swc_cpld_i2c_mux_data :=
  { cpld := some { addr := 0x33, flags := 0, algo := algo_failing },
    offset := 0x20, deselect_value := 0xff, deselect_on_exit := false, last_chan := 1 }

/-- An adapter with `master_xfer` on which every transfer succeeds: by the kernel contract
of `i2c_algorithm.master_xfer` the value returned is the number of messages transferred,
1 for the single message of the mux write, and a negative errno on failure. -/
def algo_master_ok : i2c_algorithm :=
  { master_xfer := some (fun _ _ => 1), smbus_xfer := fun _ _ _ _ _ _ _ => 0 }

/-- The mux of the scenario behind the adapter with `master_xfer`. -/
def mux_master : swc_cpld_i2c_mux_data :=
  { cpld := some { addr := 0x33, flags := 0, algo := algo_master_ok },
    offset := 0x20, deselect_value := 0xff, deselect_on_exit := false, last_chan := 0xff }

/-- A register front end whose only register carries an underscore in its name. -/
def register_underscore : swc_cpld_register_data :=
  { num_offsets := 1,
    offsets := [0x30, 0, 0, 0, 0, 0, 0, 0],
    valid_masks := [0xff, 0, 0, 0, 0, 0, 0, 0],
    direction_masks := [0, 0, 0, 0, 0, 0, 0, 0],
    readable_masks := [0xff, 0xff, 0xff, 0xff, 0xff, 0xff, 0xff, 0xff],
    writable_masks := [0, 0, 0, 0, 0, 0, 0, 0],
    volatile_masks := [0xff, 0xff, 0xff, 0xff, 0xff, 0xff, 0xff, 0xff],
    names := [['l', 'e', 'd', '_', 'c', 't', 'l']] }

/-- The hub is ready for a call: it has its driver data, the mutex is free and the
permission table has its declared length. -/
def device.ready (dev : device) : Prop :=
  ∃ data, dev.drvdata = some data ∧ data.regmap_mutex = false ∧ data.wf

/-- The entry of the permission table of the hub for offset `o`. -/
def device.entry (dev : device) (o : Nat) : Nat :=
  match dev.drvdata with
  | some data => data.register_props.getD o 0
  | none => 0

/-- The access properties of offset index `i` of a register front end, as a value. -/
def register_regprops_value (data : swc_cpld_register_data) (i : Nat) : Nat :=
  let props := 0
  let props := if data.valid_masks.getD i 0 ≠ 0 then props ||| SWC_CPLD_READABLE else props
  let props := if data.writable_masks.getD i 0 ≠ 0 then props ||| SWC_CPLD_WRITEABLE else props
  if data.volatile_masks.getD i 0 ≠ 0 then props ||| SWC_CPLD_VOLATILE else props

/-- The access properties of offset index `i` of a GPIO front end, as a value. -/
def gpio_regprops_value (data : swc_cpld_gpio_data) (i : Nat) : Nat :=
  let props := 0
  let props := if data.valid_masks.getD i 0 ≠ 0 then props ||| SWC_CPLD_READABLE else props
  if data.direction_masks.getD i 0 ≠ 0 then props ||| SWC_CPLD_WRITEABLE else props

/-- The `swc_cpld_set_regprops` calls of the first `k` offset indexes from `num` on of a
register front end. -/
def register_calls (data : swc_cpld_register_data) (num k : Nat) : List (Nat × Nat) :=
  (List.range' num k).map (fun i => (data.offsets.getD i 0, register_regprops_value data i))

/-- The `swc_cpld_set_regprops` calls of the first `k` offset indexes from `num` on of a GPIO
front end. -/
def gpio_calls (data : swc_cpld_gpio_data) (num k : Nat) : List (Nat × Nat) :=
  (List.range' num k).map (fun i => (data.offsets.getD i 0, gpio_regprops_value data i))

/-- The properties of a register device with two registers: `board-rev` at 0x30, read-only,
and `led-ctl` at 0x31, fully writable; no readable or volatile masks are given. -/
def register_props_example : register_properties :=
  { offsets := some [0x30, 0x31],
    valid_masks := some [0x0f, 0xff],
    readable_masks := none,
    writable_masks := some [0, 0xff],
    volatile_masks := none,
    names := some [['b', 'o', 'a', 'r', 'd', '-', 'r', 'e', 'v'],
      ['l', 'e', 'd', '-', 'c', 't', 'l']] }

/-- Surroundings in which every allocation and every sysfs call of the probe succeeds. -/
def probe_env_ok : register_probe_env :=
  { data_alloc_ok := true, name_alloc_ok := fun _ => true, sysfs_create_file := fun _ => 0 }

/-- Surroundings in which the attribute names cannot be allocated. -/
def probe_env_no_names : register_probe_env :=
  { data_alloc_ok := true, name_alloc_ok := fun _ => false, sysfs_create_file := fun _ => 0 }

/-- The max register of the hub. -/
def device.max_reg (dev : device) : Nat :=
  match dev.drvdata with
  | some data => data.max_reg
  | none => 0

/-- The max register after a sequence of calls that started from `init`: a call on an
offset that is accepted raises it to that offset. -/
def max_reg_after (calls : List (Nat × Nat)) (init : Nat) : Nat :=
  calls.foldl (fun m c => if c.1 > SWC_CPLD_REG_MAX then m else max m c.1) init

/-- The state in which the probe of the example register device ends on the freshly probed
hub when no attribute name can be allocated: offset 0x30 alone has been registered. -/
def register_probe_no_names_state : register_probe_state :=
  { cpld :=
      { drvdata := some
          { regmap_mutex := false
            max_reg := 0x30
            register_props := hub_fresh_data.register_props.set 0x30 5 }
        regmap := hub_fresh.regmap
        log := [.mutex_lock, .regmap_reinit_cache (hub_config 0x30), .mutex_unlock] }
    attrs := List.replicate SWC_CPLD_REGISTER_MAX_OFFSETS none
    files := []
    registered := [(0x30, 5)] }

/-- The name of the sysfs attribute that the probe creates for offset index `i` of a
register front end. -/
def register_attr_name (data : swc_cpld_register_data) (i : Nat) : List Char :=
  (swc_fw_util_property_to_sysfs (data.names.getD i []) ((data.names.getD i []).length + 1)).1

/-- The names of the sysfs attributes of the `m` offset indexes from `num` on. -/
def register_attr_names (data : swc_cpld_register_data) (num m : Nat) : List (List Char) :=
  (List.range' num m).map (register_attr_name data)

/-- Surroundings in which the name of the first attribute alone can be allocated. -/
def probe_env_one_name : register_probe_env :=
  { data_alloc_ok := true, name_alloc_ok := fun i => decide (i = 0),
    sysfs_create_file := fun _ => 0 }

/-- The property name under which `register_show` looks up the attribute created for the
declared name `n`: `n` with every underscore replaced by a hyphen. -/
def attr_lookup_name (n : List Char) : List Char :=
  n.map (fun c => if c = '_' then '-' else c)

/-- A register front end with the names `a_b` and `a-b`, in this order. -/
def register_clash : swc_cpld_register_data :=
  { num_offsets := 2,
    offsets := [0x30, 0x31, 0, 0, 0, 0, 0, 0],
    valid_masks := [0xff, 0xff, 0, 0, 0, 0, 0, 0],
    direction_masks := [0, 0, 0, 0, 0, 0, 0, 0],
    readable_masks := [0xff, 0xff, 0xff, 0xff, 0xff, 0xff, 0xff, 0xff],
    writable_masks := [0, 0, 0, 0, 0, 0, 0, 0],
    volatile_masks := [0xff, 0xff, 0xff, 0xff, 0xff, 0xff, 0xff, 0xff],
    names := [['a', '_', 'b'], ['a', '-', 'b']] }

/-- Surroundings in which every step of the mux probe succeeds; the mux has two children. -/
def mux_probe_env_ok : mux_probe_env :=
  { data_alloc_ok := true, i2c_parent_ref := 0, acpi_adapter_found := true,
    parent_adap_found := true,
    cpld := some { addr := 0x33, flags := 0, algo := algo_ok },
    children := [(true, true), (true, true)] }

/-- The properties of a mux node whose encoding is `bitmask`. -/
def mux_props_bitmask : mux_properties :=
  { offset := some 0x20, encoding := some ['b', 'i', 't', 'm', 'a', 's', 'k'],
    deselect_value := some 0xff }

/-- A hub on which every register below 255 is registered as Readable and Volatile. -/
def hub_volatile : device :=
  { drvdata := some { regmap_mutex := false, max_reg := 0x40,
                      register_props := List.replicate 255 5 },
    regmap := some regmap_ok, log := [] }


/-! ## Pin resolution -/

theorem and_BIT_ne_zero (m k : Nat) : (m &&& BIT k ≠ 0) ↔ m.testBit k = true := by
  unfold BIT
  rw [Nat.one_shiftLeft, Nat.and_two_pow]
  cases h : m.testBit k <;> simp

theorem array_get_of_lt (a : List Nat) (i : Nat) (h : i < a.length) :
    array_get a i = .ok (a.getD i 0) := by
  unfold array_get
  simp [List.getElem?_eq_getElem h, List.getD_eq_getElem _ _ h]

theorem array_get_of_ge (a : List Nat) (i : Nat) (h : a.length ≤ i) :
    array_get a i = .error .out_of_bounds := by
  unfold array_get
  simp [List.getElem?_eq_none h]

theorem gpio_to_offsets_bit_loop_eq (data : swc_cpld_gpio_data) (offset : Nat) :
    ∀ n idx count, idx + n ≤ 8 * data.valid_masks.length → count ≤ offset →
      gpio_to_offsets_bit_loop data offset n idx count =
        .ok (pick ((List.range' idx n).filter (valid_position data)) (offset - count)) := by
  intro n
  induction n with
  | zero => intro idx count _ _; simp [gpio_to_offsets_bit_loop, pick]
  | succ n ih =>
    intro idx count hb hc
    have hlt : idx / 8 < data.valid_masks.length := by omega
    rw [gpio_to_offsets_bit_loop, array_get_of_lt _ _ hlt]
    simp only [Except.bind, bind]
    rw [List.range'_succ]
    by_cases hv : data.valid_masks.getD (idx / 8) 0 &&& BIT (idx % 8) ≠ 0
    · have hvp : valid_position data idx = true := (and_BIT_ne_zero _ _).mp hv
      rw [if_pos hv, List.filter_cons_of_pos hvp]
      by_cases he : count = offset
      · subst he; simp [pick]
      · rw [if_neg he, ih (idx + 1) (count + 1) (by omega) (by omega)]
        have : offset - count = (offset - (count + 1)) + 1 := by omega
        rw [this]
        simp [pick]
    · have hvp : ¬ valid_position data idx = true := fun hc => hv ((and_BIT_ne_zero _ _).mpr hc)
      rw [if_neg hv, List.filter_cons_of_neg hvp]
      exact ih (idx + 1) count (by omega) hc

theorem gpio_to_offsets_bit_eq (data : swc_cpld_gpio_data) (hwf : data.wf) (offset : Nat) :
    gpio_to_offsets_bit data offset = .ok (pick (valid_positions data) offset) := by
  obtain ⟨_, hv, _, hn⟩ := hwf
  unfold gpio_to_offsets_bit valid_positions
  rw [gpio_to_offsets_bit_loop_eq data offset _ 0 0
    (by simp [SWC_CPLD_GPIO_MAX_OFFSETS] at *; omega) (by omega)]
  simp [List.range_eq_range']

theorem mem_valid_positions (data : swc_cpld_gpio_data) (idx : Nat) :
    idx ∈ valid_positions data ↔
      idx < data.num_offsets * 8 ∧ valid_position data idx = true := by
  simp [valid_positions, List.mem_filter]

theorem valid_positions_nodup (data : swc_cpld_gpio_data) : (valid_positions data).Nodup :=
  (List.nodup_range _).filter _

/-- The valid positions below a member of the ascending list are those listed before it. -/
theorem filter_range_index (f : Nat → Bool) (M p idx : Nat)
    (h : ((List.range M).filter f)[p]? = some idx) :
    ((List.range idx).filter f).length = p := by
  have hmem : idx ∈ (List.range M).filter f := List.getElem?_mem h
  rw [List.mem_filter, List.mem_range] at hmem
  obtain ⟨hlt, hf⟩ := hmem
  have hsplit : List.range M =
      List.range idx ++ idx :: List.range' (idx + 1) (M - (idx + 1)) := by
    have h1 : M = ((M - (idx + 1)) + 1) + idx := by omega
    have h2 := List.range'_append_1 0 idx ((M - (idx + 1)) + 1)
    rw [← h1, Nat.zero_add, List.range'_succ] at h2
    rw [List.range_eq_range', List.range_eq_range', h2]
  have hV : (List.range M).filter f =
      (List.range idx).filter f ++
        idx :: (List.range' (idx + 1) (M - (idx + 1))).filter f := by
    rw [hsplit, List.filter_append, List.filter_cons_of_pos hf]
  have hnd : ((List.range M).filter f).Nodup := (List.nodup_range _).filter _
  have hat : ((List.range M).filter f)[((List.range idx).filter f).length]? = some idx := by
    rw [hV, List.getElem?_append_right (Nat.le_refl _)]; simp
  have hp : p < ((List.range M).filter f).length := by
    by_contra hc
    rw [List.getElem?_eq_none (by omega)] at h
    exact Option.noConfusion h
  have hq : ((List.range idx).filter f).length < ((List.range M).filter f).length := by
    rw [hV]; simp
  rw [List.getElem?_eq_getElem hp] at h
  rw [List.getElem?_eq_getElem hq] at hat
  have := (List.Nodup.getElem_inj_iff hnd).mp
    ((Option.some.inj h).trans (Option.some.inj hat).symm)
  exact this.symm

theorem hweight8_eq (data : swc_cpld_gpio_data) (i : Nat) :
    hweight8 (data.valid_masks.getD i 0) =
      (((List.range 8).map (fun b => i * 8 + b)).filter (valid_position data)).length := by
  unfold hweight8
  rw [List.filter_map, List.length_map]
  congr 1
  apply List.filter_congr
  intro b hb
  rw [List.mem_range] at hb
  have h1 : (i * 8 + b) / 8 = i := by omega
  have h2 : (i * 8 + b) % 8 = b := by omega
  simp only [Function.comp, valid_position, h1, h2]

theorem valid_count_range (data : swc_cpld_gpio_data) (n : Nat) :
    ((List.range (n * 8)).filter (valid_position data)).length =
      ((List.range n).map (fun i => hweight8 (data.valid_masks.getD i 0))).sum := by
  induction n with
  | zero => simp
  | succ n ih =>
    have h1 : (n + 1) * 8 = n * 8 + 8 := by ring
    rw [h1, List.range_add, List.filter_append, List.length_append, ih, List.range_succ n,
      List.map_append, List.sum_append]
    simp only [List.map_cons, List.map_nil, List.sum_cons, List.sum_nil, Nat.add_zero]
    rw [hweight8_eq]

theorem valid_positions_length (data : swc_cpld_gpio_data) :
    (valid_positions data).length = total_valid_bits data :=
  valid_count_range data data.num_offsets

theorem swc_cpld_gpio_probe_count_loop_eq (data : swc_cpld_gpio_data) :
    ∀ n num acc, num + n ≤ data.valid_masks.length →
      swc_cpld_gpio_probe_count_loop data n num acc =
        .ok (acc +
          ((List.range' num n).map (fun i => hweight8 (data.valid_masks.getD i 0))).sum) := by
  intro n
  induction n with
  | zero => intro num acc _; simp [swc_cpld_gpio_probe_count_loop]
  | succ n ih =>
    intro num acc hb
    rw [swc_cpld_gpio_probe_count_loop, array_get_of_lt _ _ (by omega)]
    simp only [Except.bind, bind]
    rw [ih (num + 1) _ (by omega), List.range'_succ]
    simp [Nat.add_assoc]

theorem swc_cpld_gpio_probe_num_gpios_eq (data : swc_cpld_gpio_data) (hwf : data.wf) :
    swc_cpld_gpio_probe_num_gpios data = .ok (total_valid_bits data) := by
  obtain ⟨_, hv, _, hn⟩ := hwf
  unfold swc_cpld_gpio_probe_num_gpios total_valid_bits
  rw [swc_cpld_gpio_probe_count_loop_eq data _ 0 0
    (by simp [SWC_CPLD_GPIO_MAX_OFFSETS] at *; omega)]
  simp [List.range_eq_range']

theorem pick_of_lt (l : List Nat) (k : Nat) (h : k < l.length) :
    pick l k = ((l.get ⟨k, h⟩ : Nat) : Int) := by
  unfold pick
  simp [List.getElem?_eq_getElem h]

/-- C1: for every pin index `p` below the number of set bits of
`valid_masks[0 .. num_offsets)`, `gpio_to_offsets_bit` returns a position `idx` below
`8 * num_offsets` whose bit `idx % 8` of `valid_masks[idx / 8]` is set and below which
exactly `p` valid positions lie. -/
theorem gpio_to_offsets_bit_numbering (data : swc_cpld_gpio_data) (hwf : data.wf) (p : Nat)
    (hp : p < total_valid_bits data) :
    ∃ idx : Nat, gpio_to_offsets_bit data p = .ok (idx : Int) ∧
      idx < data.num_offsets * 8 ∧
      array_get data.valid_masks (idx / 8) = .ok (data.valid_masks.getD (idx / 8) 0) ∧
      (data.valid_masks.getD (idx / 8) 0).testBit (idx % 8) = true ∧
      valid_positions_below data idx = p := by
  have hlen : p < (valid_positions data).length := by
    rw [valid_positions_length]; exact hp
  have hget : (valid_positions data)[p]? = some ((valid_positions data).get ⟨p, hlen⟩) := by
    simp [List.getElem?_eq_getElem hlen]
  have hmem : (valid_positions data).get ⟨p, hlen⟩ ∈ valid_positions data :=
    List.get_mem _ _ _
  rw [mem_valid_positions] at hmem
  refine ⟨(valid_positions data).get ⟨p, hlen⟩, ?_, hmem.1, ?_, hmem.2, ?_⟩
  · rw [gpio_to_offsets_bit_eq data hwf, pick_of_lt _ _ hlen]
  · apply array_get_of_lt
    obtain ⟨_, hv, _, hn⟩ := hwf
    simp only [SWC_CPLD_GPIO_MAX_OFFSETS] at hv hn
    omega
  · exact filter_range_index _ _ _ _ hget

/-- Witness for C1 on the example block: pin 5 exists. -/
theorem gpio_to_offsets_bit_numbering_witness :
    ∃ idx : Nat, gpio_to_offsets_bit gpio_example 5 = .ok (idx : Int) ∧
      idx < gpio_example.num_offsets * 8 ∧
      array_get gpio_example.valid_masks (idx / 8) =
        .ok (gpio_example.valid_masks.getD (idx / 8) 0) ∧
      (gpio_example.valid_masks.getD (idx / 8) 0).testBit (idx % 8) = true ∧
      valid_positions_below gpio_example idx = 5 :=
  gpio_to_offsets_bit_numbering gpio_example (by decide) 5 (by decide)

/-- C2: with `N` the sum of `hweight8 (valid_masks[i])` over `i < num_offsets`, which is
the pin count the probe computes, `gpio_to_offsets_bit` is injective on `[0, N)` and its
image there is exactly the set of positions below `8 * num_offsets` whose valid bit is
set. -/
theorem gpio_to_offsets_bit_bijection (data : swc_cpld_gpio_data) (hwf : data.wf) :
    swc_cpld_gpio_probe_num_gpios data = .ok (total_valid_bits data) ∧
    (∀ p q : Nat, p < total_valid_bits data → q < total_valid_bits data →
      gpio_to_offsets_bit data p = gpio_to_offsets_bit data q → p = q) ∧
    (∀ idx : Nat,
      (idx < data.num_offsets * 8 ∧
        (data.valid_masks.getD (idx / 8) 0).testBit (idx % 8) = true) ↔
      ∃ p : Nat, p < total_valid_bits data ∧
        gpio_to_offsets_bit data p = .ok (idx : Int)) := by
  refine ⟨swc_cpld_gpio_probe_num_gpios_eq data hwf, ?_, ?_⟩
  · intro p q hp hq heq
    rw [← valid_positions_length] at hp hq
    rw [gpio_to_offsets_bit_eq data hwf, gpio_to_offsets_bit_eq data hwf,
      pick_of_lt _ _ hp, pick_of_lt _ _ hq] at heq
    have h1 : (valid_positions data).get ⟨p, hp⟩ = (valid_positions data).get ⟨q, hq⟩ :=
      Int.ofNat.inj (Except.ok.inj heq)
    exact (List.Nodup.getElem_inj_iff (valid_positions_nodup data)).mp h1
  · intro idx
    constructor
    · intro h
      have hmem : idx ∈ valid_positions data := (mem_valid_positions data idx).mpr h
      obtain ⟨p, hp, hpe⟩ := List.getElem_of_mem hmem
      refine ⟨p, ?_, ?_⟩
      · rw [← valid_positions_length]; exact hp
      · rw [gpio_to_offsets_bit_eq data hwf, pick_of_lt _ _ hp]
        simp only [List.get_eq_getElem, hpe]
    · rintro ⟨p, hp, hpe⟩
      rw [← valid_positions_length] at hp
      rw [gpio_to_offsets_bit_eq data hwf, pick_of_lt _ _ hp] at hpe
      have h1 : (valid_positions data).get ⟨p, hp⟩ = idx := Int.ofNat.inj (Except.ok.inj hpe)
      rw [← h1]
      exact (mem_valid_positions data _).mp (List.get_mem _ _ _)

/-- Witness for C2 on the example block. -/
theorem gpio_to_offsets_bit_bijection_witness :
    swc_cpld_gpio_probe_num_gpios gpio_example = .ok (total_valid_bits gpio_example) ∧
    (∀ p q : Nat, p < total_valid_bits gpio_example → q < total_valid_bits gpio_example →
      gpio_to_offsets_bit gpio_example p = gpio_to_offsets_bit gpio_example q → p = q) ∧
    (∀ idx : Nat,
      (idx < gpio_example.num_offsets * 8 ∧
        (gpio_example.valid_masks.getD (idx / 8) 0).testBit (idx % 8) = true) ↔
      ∃ p : Nat, p < total_valid_bits gpio_example ∧
        gpio_to_offsets_bit gpio_example p = .ok (idx : Int)) :=
  gpio_to_offsets_bit_bijection gpio_example (by decide)

/-! ## The hub: `swc_cpld_set_regprops` -/

theorem swc_cpld_set_regprops_fast (dev : device) (data : swc_cpld_data) (reg props : Nat)
    (hd : dev.drvdata = some data) (hfree : data.regmap_mutex = false)
    (hreg : reg < data.register_props.length) (hmax : reg ≤ SWC_CPLD_REG_MAX)
    (hfast : props = data.register_props.getD reg 0 ∧ reg < data.max_reg) :
    swc_cpld_set_regprops dev reg props =
      .ok ({ drvdata := some data, regmap := dev.regmap,
             log := dev.log ++ [.mutex_lock, .mutex_unlock] }, 0) := by
  obtain ⟨rm, mx, tbl⟩ := data
  simp only at hfree hreg hfast
  subst hfree
  unfold swc_cpld_set_regprops
  rw [hd]
  simp only [if_neg (Nat.not_lt.mpr hmax), mutex_lock, Bool.false_eq_true, if_false,
    bind, Except.bind, array_get_of_lt _ _ hreg, hfast.1, hfast.2, and_self, if_true,
    mutex_unlock, List.append_assoc, List.singleton_append]

theorem swc_cpld_set_regprops_slow (dev : device) (data : swc_cpld_data) (reg props : Nat)
    (hd : dev.drvdata = some data) (hfree : data.regmap_mutex = false)
    (hreg : reg < data.register_props.length) (hmax : reg ≤ SWC_CPLD_REG_MAX)
    (hslow : ¬ (props = data.register_props.getD reg 0 ∧ reg < data.max_reg)) :
    swc_cpld_set_regprops dev reg props =
      .ok ({ drvdata := some { regmap_mutex := false, max_reg := max data.max_reg reg,
                               register_props := data.register_props.set reg props },
             regmap := dev.regmap,
             log := dev.log ++ (match dev.regmap with
               | some _ => [.mutex_lock, .regmap_reinit_cache (hub_config (max data.max_reg reg)),
                            .mutex_unlock]
               | none => [.mutex_lock, .mutex_unlock]) },
           match dev.regmap with
           | some _ => 0
           | none => -ENODEV) := by
  obtain ⟨rm, mx, tbl⟩ := data
  obtain ⟨dd, dm, dl⟩ := dev
  simp only at hfree hreg hslow hd
  subst hfree
  subst hd
  have hmx : (if reg > mx then reg else mx) = max mx reg := by
    by_cases h : reg > mx
    · rw [if_pos h]; omega
    · rw [if_neg h]; omega
  unfold swc_cpld_set_regprops
  simp only [if_neg (Nat.not_lt.mpr hmax), mutex_lock, Bool.false_eq_true, if_false,
    bind, Except.bind, array_get_of_lt _ _ hreg, if_neg hslow, array_set, if_pos hreg, hmx]
  cases dm <;>
    simp [mutex_unlock, regmap_reinit_cache, hub_config]

theorem swc_cpld_set_regprops_oob (dev : device) (data : swc_cpld_data) (reg props : Nat)
    (hd : dev.drvdata = some data) (hfree : data.regmap_mutex = false)
    (hreg : data.register_props.length ≤ reg) (hmax : reg ≤ SWC_CPLD_REG_MAX) :
    swc_cpld_set_regprops dev reg props = .error .out_of_bounds := by
  obtain ⟨rm, mx, tbl⟩ := data
  simp only at hfree hreg
  subst hfree
  unfold swc_cpld_set_regprops
  rw [hd]
  simp only [if_neg (Nat.not_lt.mpr hmax), mutex_lock, Bool.false_eq_true, if_false,
    bind, Except.bind, array_get_of_ge _ _ hreg]

theorem hub_fresh_data_wf : hub_fresh_data.wf := List.length_replicate _ _

theorem hub_used_data_wf : hub_used_data.wf := List.length_replicate _ _

theorem swc_cpld_reg_has_of_lt (dev : device) (data : swc_cpld_data) (reg flag : Nat)
    (hd : dev.drvdata = some data) (hreg : reg < data.register_props.length)
    (hmax : reg ≤ SWC_CPLD_REG_MAX) :
    swc_cpld_reg_has dev reg flag =
      .ok (decide (data.register_props.getD reg 0 &&& flag ≠ 0)) := by
  unfold swc_cpld_reg_has
  rw [hd]
  simp only [if_neg (Nat.not_lt.mpr hmax), bind, Except.bind, array_get_of_lt _ _ hreg]

theorem getD_set_self (l : List Nat) (i v : Nat) (h : i < l.length) :
    (l.set i v).getD i 0 = v := by
  rw [List.getD_eq_getElem _ _ (by simpa using h)]
  simp

theorem getD_set_other (l : List Nat) (i j v : Nat) (h : i ≠ j) :
    (l.set i v).getD j 0 = l.getD j 0 := by
  simp [List.getD_eq_getElem?_getD, List.getElem?_set_ne h]

theorem swc_cpld_reg_has_oob (dev : device) (data : swc_cpld_data) (reg flag : Nat)
    (hd : dev.drvdata = some data) (hreg : data.register_props.length ≤ reg)
    (hmax : reg ≤ SWC_CPLD_REG_MAX) :
    swc_cpld_reg_has dev reg flag = .error .out_of_bounds := by
  unfold swc_cpld_reg_has
  rw [hd]
  simp only [if_neg (Nat.not_lt.mpr hmax), bind, Except.bind, array_get_of_ge _ _ hreg]

/-- For offsets that have a table entry, whichever path the call takes, afterwards the
three predicates answer with the bits of `props`. -/
theorem swc_cpld_set_regprops_predicates (dev : device) (data : swc_cpld_data)
    (reg props : Nat) (hd : dev.drvdata = some data) (hfree : data.regmap_mutex = false)
    (hwf : data.wf) (hreg : reg < SWC_CPLD_REG_MAX) :
    ∃ dev1 r, swc_cpld_set_regprops dev reg props = .ok (dev1, r) ∧
      swc_cpld_readable_reg dev1 reg = .ok (decide (props &&& SWC_CPLD_READABLE ≠ 0)) ∧
      swc_cpld_writeable_reg dev1 reg = .ok (decide (props &&& SWC_CPLD_WRITEABLE ≠ 0)) ∧
      swc_cpld_volatile_reg dev1 reg = .ok (decide (props &&& SWC_CPLD_VOLATILE ≠ 0)) := by
  have hlen : reg < data.register_props.length := by rw [hwf]; exact hreg
  have hmax : reg ≤ SWC_CPLD_REG_MAX := Nat.le_of_lt hreg
  by_cases hfast : props = data.register_props.getD reg 0 ∧ reg < data.max_reg
  · refine ⟨_, _, swc_cpld_set_regprops_fast dev data reg props hd hfree hlen hmax hfast, ?_⟩
    unfold swc_cpld_readable_reg swc_cpld_writeable_reg swc_cpld_volatile_reg
    rw [swc_cpld_reg_has_of_lt _ data _ _ rfl hlen hmax,
      swc_cpld_reg_has_of_lt _ data _ _ rfl hlen hmax,
      swc_cpld_reg_has_of_lt _ data _ _ rfl hlen hmax, ← hfast.1]
    exact ⟨rfl, rfl, rfl⟩
  · refine ⟨_, _, swc_cpld_set_regprops_slow dev data reg props hd hfree hlen hmax hfast, ?_⟩
    have hlen2 : reg < (data.register_props.set reg props).length := by simpa using hlen
    unfold swc_cpld_readable_reg swc_cpld_writeable_reg swc_cpld_volatile_reg
    rw [swc_cpld_reg_has_of_lt _ _ _ _ rfl hlen2 hmax,
      swc_cpld_reg_has_of_lt _ _ _ _ rfl hlen2 hmax,
      swc_cpld_reg_has_of_lt _ _ _ _ rfl hlen2 hmax, getD_set_self _ _ _ hlen]
    exact ⟨rfl, rfl, rfl⟩

/-- C3 (defect): the guard of `swc_cpld_set_regprops` admits offset 255, but the table
`register_props[SWC_CPLD_REG_MAX]` has entries 0..254 only: on the freshly probed hub the
call for offset 255 and the readable predicate at 255 both access the table out of bounds. -/
theorem swc_cpld_set_regprops_no_entry_255 :
    hub_fresh_data.wf ∧
    ¬ (255 > SWC_CPLD_REG_MAX) ∧
    array_get hub_fresh_data.register_props 255 = .error .out_of_bounds ∧
    swc_cpld_set_regprops hub_fresh 255 SWC_CPLD_READABLE = .error .out_of_bounds ∧
    swc_cpld_readable_reg hub_fresh 255 = .error .out_of_bounds := by
  have hlen : hub_fresh_data.register_props.length ≤ 255 :=
    Nat.le_of_eq (List.length_replicate _ _)
  refine ⟨hub_fresh_data_wf, by decide, array_get_of_ge _ _ hlen, ?_, ?_⟩
  · exact swc_cpld_set_regprops_oob hub_fresh hub_fresh_data 255 _ rfl rfl hlen (by decide)
  · exact swc_cpld_reg_has_oob hub_fresh hub_fresh_data 255 _ rfl hlen (by decide)

/-- C4 (as stated, refuted): on the freshly probed hub, the second of two identical calls
for offset 5 invokes `regmap_reinit_cache` again. -/
theorem swc_cpld_set_regprops_repeat_reconfigures :
    ∃ d1 d2 : device,
      swc_cpld_set_regprops hub_fresh 5 SWC_CPLD_READABLE = .ok (d1, 0) ∧
      swc_cpld_set_regprops d1 5 SWC_CPLD_READABLE = .ok (d2, 0) ∧
      d2.log = d1.log ++
        [.mutex_lock, .regmap_reinit_cache (hub_config 5), .mutex_unlock] := by
  have hlen : 5 < hub_fresh_data.register_props.length := by
    rw [hub_fresh_data_wf]; decide
  have hlen2 : 5 < (hub_fresh_data.register_props.set 5 SWC_CPLD_READABLE).length := by
    simpa using hlen
  exact ⟨_, _,
    swc_cpld_set_regprops_slow hub_fresh hub_fresh_data 5 _ rfl rfl hlen (by decide)
      (fun h => absurd h.2 (by decide)),
    swc_cpld_set_regprops_slow _ _ 5 _ rfl rfl hlen2 (by decide)
      (fun h => absurd h.2 (by decide)),
    rfl⟩

/-- C4 (amended): with a map attached and an offset that has a table entry (at most 254),
two identical calls in a row leave, after the second, the permission table and the max
register as after the first; the second call does not reconfigure the map when the offset is
below the max register tracked before the first call, and reconfigures it again, with the same
`max_register`, when the offset is at or above that max. -/
theorem swc_cpld_set_regprops_idempotent (dev : device) (data : swc_cpld_data) (map : regmap)
    (reg props : Nat) (hd : dev.drvdata = some data) (hfree : data.regmap_mutex = false)
    (hwf : data.wf) (hmap : dev.regmap = some map) (hreg : reg < SWC_CPLD_REG_MAX) :
    ∃ d1 r1 d2 r2, swc_cpld_set_regprops dev reg props = .ok (d1, r1) ∧
      swc_cpld_set_regprops d1 reg props = .ok (d2, r2) ∧
      d2.drvdata = d1.drvdata ∧
      (reg < data.max_reg → d2.log = d1.log ++ [.mutex_lock, .mutex_unlock]) ∧
      (data.max_reg ≤ reg → d2.log = d1.log ++
        [.mutex_lock, .regmap_reinit_cache (hub_config reg), .mutex_unlock]) := by
  have hlen : reg < data.register_props.length := by rw [hwf]; exact hreg
  have hmax : reg ≤ SWC_CPLD_REG_MAX := Nat.le_of_lt hreg
  have hlen2 : reg < (data.register_props.set reg props).length := by simpa using hlen
  by_cases hfast : props = data.register_props.getD reg 0 ∧ reg < data.max_reg
  · refine ⟨_, _, _, _, swc_cpld_set_regprops_fast dev data reg props hd hfree hlen hmax hfast,
      swc_cpld_set_regprops_fast _ data reg props rfl hfree hlen hmax hfast, rfl,
      fun _ => rfl, fun h => absurd hfast.2 (Nat.not_lt.mpr h)⟩
  · by_cases hlt : reg < data.max_reg
    · have hmx : max data.max_reg reg = data.max_reg := by omega
      refine ⟨_, _, _, _,
        swc_cpld_set_regprops_slow dev data reg props hd hfree hlen hmax hfast,
        swc_cpld_set_regprops_fast _ _ reg props rfl rfl hlen2 hmax
          ⟨(getD_set_self _ _ _ hlen).symm, by simp only [hmx]; exact hlt⟩,
        rfl, fun _ => rfl, fun h => absurd hlt (Nat.not_lt.mpr h)⟩
    · have hmx : max data.max_reg reg = reg := by omega
      have hslow2 : ¬ (props = (data.register_props.set reg props).getD reg 0 ∧
          reg < max data.max_reg reg) := by
        rw [hmx]; intro h; exact Nat.lt_irrefl _ h.2
      refine ⟨_, _, _, _,
        swc_cpld_set_regprops_slow dev data reg props hd hfree hlen hmax hfast,
        swc_cpld_set_regprops_slow _ _ reg props rfl rfl hlen2 hmax hslow2, ?_,
        fun h => absurd h hlt, fun _ => ?_⟩
      · simp [hmx]
      · simp [hmap, hmx]

/-- Witness for the amended C4: offset 0x41 on the freshly probed hub. -/
theorem swc_cpld_set_regprops_idempotent_witness :
    ∃ d1 r1 d2 r2, swc_cpld_set_regprops hub_fresh 0x41 3 = .ok (d1, r1) ∧
      swc_cpld_set_regprops d1 0x41 3 = .ok (d2, r2) ∧
      d2.drvdata = d1.drvdata ∧
      (0x41 < hub_fresh_data.max_reg → d2.log = d1.log ++ [.mutex_lock, .mutex_unlock]) ∧
      (hub_fresh_data.max_reg ≤ 0x41 → d2.log = d1.log ++
        [.mutex_lock, .regmap_reinit_cache (hub_config 0x41), .mutex_unlock]) :=
  swc_cpld_set_regprops_idempotent hub_fresh hub_fresh_data regmap_ok 0x41 3 rfl rfl
    hub_fresh_data_wf rfl (by decide)

/-- C5 (as stated, refuted): on the freshly probed hub, offset 5 is registered readable and
volatile and then readable only; the volatile bit recorded by the first call is gone after
the second. -/
theorem swc_cpld_set_regprops_drops_bits :
    ∃ d1 d2 : device,
      swc_cpld_set_regprops hub_fresh 5 (SWC_CPLD_READABLE ||| SWC_CPLD_VOLATILE) =
        .ok (d1, 0) ∧
      swc_cpld_volatile_reg d1 5 = .ok true ∧
      swc_cpld_set_regprops d1 5 SWC_CPLD_READABLE = .ok (d2, 0) ∧
      swc_cpld_volatile_reg d2 5 = .ok false := by
  have hlen : 5 < hub_fresh_data.register_props.length := by
    rw [hub_fresh_data_wf]; decide
  have hlen2 : 5 < (hub_fresh_data.register_props.set 5
      (SWC_CPLD_READABLE ||| SWC_CPLD_VOLATILE)).length := by
    simpa using hlen
  have hlen3 : 5 < ((hub_fresh_data.register_props.set 5
      (SWC_CPLD_READABLE ||| SWC_CPLD_VOLATILE)).set 5 SWC_CPLD_READABLE).length := by
    simpa using hlen
  refine ⟨_, _,
    swc_cpld_set_regprops_slow hub_fresh hub_fresh_data 5 _ rfl rfl hlen (by decide)
      (fun h => absurd h.2 (by decide)), ?_,
    swc_cpld_set_regprops_slow _ _ 5 _ rfl rfl hlen2 (by decide)
      (fun h => absurd h.2 (by decide)), ?_⟩
  · unfold swc_cpld_volatile_reg
    rw [swc_cpld_reg_has_of_lt _ _ _ _ rfl hlen2 (by decide), getD_set_self _ _ _ hlen]
    decide
  · unfold swc_cpld_volatile_reg
    rw [swc_cpld_reg_has_of_lt _ _ _ _ rfl hlen3 (by decide), getD_set_self _ _ _ hlen2]
    decide

/-- One call on an offset other than 255, from a hub with the mutex free: the call
returns, the mutex is free again, and the entry of every offset `o` is the call's props if
the call was on `o` and is unchanged otherwise. -/
theorem swc_cpld_set_regprops_entry (dev : device) (data : swc_cpld_data) (reg props : Nat)
    (hd : dev.drvdata = some data) (hfree : data.regmap_mutex = false) (hwf : data.wf)
    (hreg : reg ≠ SWC_CPLD_REG_MAX) :
    ∃ dev1 data1 r, swc_cpld_set_regprops dev reg props = .ok (dev1, r) ∧
      dev1.drvdata = some data1 ∧ data1.regmap_mutex = false ∧ data1.wf ∧
      dev1.regmap = dev.regmap ∧
      ∀ o, o < SWC_CPLD_REG_MAX →
        data1.register_props.getD o 0 =
          if reg = o then props else data.register_props.getD o 0 := by
  by_cases hbig : reg > SWC_CPLD_REG_MAX
  · refine ⟨dev, data, -EINVAL, ?_, hd, hfree, hwf, rfl, ?_⟩
    · unfold swc_cpld_set_regprops
      rw [hd]
      simp only [if_pos hbig]
    · intro o ho
      rw [if_neg (by omega)]
  · have hlt : reg < SWC_CPLD_REG_MAX := by omega
    have hlen : reg < data.register_props.length := by rw [hwf]; exact hlt
    have hmax : reg ≤ SWC_CPLD_REG_MAX := Nat.le_of_lt hlt
    by_cases hfast : props = data.register_props.getD reg 0 ∧ reg < data.max_reg
    · refine ⟨_, data, _,
        swc_cpld_set_regprops_fast dev data reg props hd hfree hlen hmax hfast,
        rfl, hfree, hwf, rfl, ?_⟩
      intro o _
      by_cases he : reg = o
      · rw [if_pos he, ← he]; exact hfast.1.symm
      · rw [if_neg he]
    · refine ⟨_, _, _,
        swc_cpld_set_regprops_slow dev data reg props hd hfree hlen hmax hfast,
        rfl, rfl, ?_, rfl, ?_⟩
      · show (data.register_props.set reg props).length = SWC_CPLD_REG_MAX
        rw [List.length_set]; exact hwf
      · intro o _
        by_cases he : reg = o
        · rw [if_pos he, ← he]; exact getD_set_self _ _ _ hlen
        · rw [if_neg he]; exact getD_set_other _ _ _ _ he

/-- C5 (amended): after any sequence of calls on offsets other than 255, the table entry
of each offset below 255 is the props of the latest call on that offset, or its initial
value if no call was on it. Bits recorded for an offset thus survive every later call on
other offsets, and a later call on the same offset replaces the entry by its props. -/
theorem swc_cpld_set_regprops_seq_last_wins (calls : List (Nat × Nat)) (dev : device)
    (data : swc_cpld_data) (o : Nat) (hd : dev.drvdata = some data)
    (hfree : data.regmap_mutex = false) (hwf : data.wf)
    (hcalls : ∀ c ∈ calls, c.1 ≠ SWC_CPLD_REG_MAX) (ho : o < SWC_CPLD_REG_MAX) :
    ∃ dev1 data1, swc_cpld_set_regprops_seq dev calls = .ok dev1 ∧
      dev1.drvdata = some data1 ∧
      data1.register_props.getD o 0 = last_props calls o (data.register_props.getD o 0) := by
  induction calls generalizing dev data with
  | nil => exact ⟨dev, data, rfl, hd, rfl⟩
  | cons c rest ih =>
    obtain ⟨dev1, data1, r, hcall, hd1, hfree1, hwf1, _, hent⟩ :=
      swc_cpld_set_regprops_entry dev data c.1 c.2 hd hfree hwf
        (hcalls c (List.mem_cons_self _ _))
    obtain ⟨dev2, data2, hseq, hd2, hlast⟩ :=
      ih dev1 data1 hd1 hfree1 hwf1 (fun c' hc' => hcalls c' (List.mem_cons_of_mem _ hc'))
    refine ⟨dev2, data2, ?_, hd2, ?_⟩
    · simp only [swc_cpld_set_regprops_seq, hcall, bind, Except.bind]
      exact hseq
    · rw [hlast, hent o ho]
      simp only [last_props, List.foldl_cons]

/-- Witness for the amended C5: three calls on the freshly probed hub, the last two on
offset 5. -/
theorem swc_cpld_set_regprops_seq_last_wins_witness :
    ∃ dev1 data1,
      swc_cpld_set_regprops_seq hub_fresh [(7, 3), (5, 5), (5, 1)] = .ok dev1 ∧
      dev1.drvdata = some data1 ∧
      data1.register_props.getD 5 0 =
        last_props [(7, 3), (5, 5), (5, 1)] 5 (hub_fresh_data.register_props.getD 5 0) :=
  swc_cpld_set_regprops_seq_last_wins [(7, 3), (5, 5), (5, 1)] hub_fresh hub_fresh_data 5
    rfl rfl hub_fresh_data_wf (by decide) (by decide)

/-- C6: for an offset above 255 the call returns `-EINVAL` and leaves the device as it was:
no mutex call, no change of the permission table or of the max register, no
reconfiguration of the map. -/
theorem swc_cpld_set_regprops_invalid_offset (dev : device) (data : swc_cpld_data)
    (reg props : Nat) (hd : dev.drvdata = some data) (hreg : 255 < reg) :
    swc_cpld_set_regprops dev reg props = .ok (dev, -EINVAL) := by
  unfold swc_cpld_set_regprops
  rw [hd]
  simp only [if_pos (show reg > SWC_CPLD_REG_MAX from hreg)]

/-- Witness for C6: offset 256 on the freshly probed hub. -/
theorem swc_cpld_set_regprops_invalid_offset_witness :
    swc_cpld_set_regprops hub_fresh 256 7 = .ok (hub_fresh, -EINVAL) :=
  swc_cpld_set_regprops_invalid_offset hub_fresh hub_fresh_data 256 7 rfl (by decide)

/-- The slow path for offsets that have a table entry: the entry becomes `props`, the
other entries stay, the max register becomes the larger of the old one and the offset, the
map is reconfigured with it when attached, and `-ENODEV` is returned exactly when no map
is attached. -/
theorem swc_cpld_set_regprops_slow_effect (dev : device) (data : swc_cpld_data)
    (reg props : Nat) (hd : dev.drvdata = some data) (hfree : data.regmap_mutex = false)
    (hwf : data.wf) (hreg : reg < SWC_CPLD_REG_MAX)
    (hslow : ¬ (props = data.register_props.getD reg 0 ∧ reg < data.max_reg)) :
    ∃ dev1 data1 r, swc_cpld_set_regprops dev reg props = .ok (dev1, r) ∧
      dev1.drvdata = some data1 ∧
      data1.register_props.getD reg 0 = props ∧
      (∀ o, o ≠ reg → data1.register_props.getD o 0 = data.register_props.getD o 0) ∧
      data1.max_reg = max data.max_reg reg ∧
      (dev.regmap.isSome = true → r = 0 ∧ dev1.log = dev.log ++
        [.mutex_lock, .regmap_reinit_cache (hub_config (max data.max_reg reg)),
         .mutex_unlock]) ∧
      (r = -ENODEV ↔ dev.regmap.isSome = false) := by
  have hlen : reg < data.register_props.length := by rw [hwf]; exact hreg
  refine ⟨_, _, _,
    swc_cpld_set_regprops_slow dev data reg props hd hfree hlen (Nat.le_of_lt hreg) hslow,
    rfl, getD_set_self _ _ _ hlen, fun o ho => getD_set_other _ _ _ _ (Ne.symm ho), rfl, ?_, ?_⟩
  · intro hsome
    cases hm : dev.regmap with
    | none => rw [hm] at hsome; exact absurd hsome (by decide)
    | some m => exact ⟨rfl, rfl⟩
  · cases hm : dev.regmap with
    | none => simp
    | some m => simp [ENODEV]

/-- C7 (defect): the claim covers offset 255, which passes the guard but has no table
entry: on a hub without a map, the call for offset 255 with new props leaves defined
behaviour at the table access instead of recording the props and returning `-ENODEV`. -/
theorem swc_cpld_set_regprops_slow_path_255 :
    hub_used_data.wf ∧ hub_no_map.drvdata = some hub_used_data ∧
    ¬ (255 > SWC_CPLD_REG_MAX) ∧
    swc_cpld_set_regprops hub_no_map 255 (SWC_CPLD_READABLE ||| SWC_CPLD_WRITEABLE) =
      .error .out_of_bounds :=
  ⟨hub_used_data_wf, rfl, by decide,
    swc_cpld_set_regprops_oob hub_no_map hub_used_data 255 _ rfl rfl
      (Nat.le_of_eq (List.length_replicate _ _)) (by decide)⟩

/-! ## The hub lock -/

theorem swc_cpld_get_regmap_some (cpld : device) (hub : swc_cpld_data) (m : regmap)
    (hd : cpld.drvdata = some hub) (hfree : hub.regmap_mutex = false)
    (hm : cpld.regmap = some m) :
    swc_cpld_get_regmap cpld =
      .ok ({ drvdata := some { hub with regmap_mutex := true }, regmap := some m,
             log := cpld.log ++ [.mutex_lock] }, some m) := by
  obtain ⟨dd, dm, dl⟩ := cpld
  simp only at hd hm
  subst hd hm
  simp [swc_cpld_get_regmap, mutex_lock, hfree, bind, Except.bind]

theorem swc_cpld_get_regmap_none (cpld : device) (hub : swc_cpld_data)
    (hd : cpld.drvdata = some hub) (hfree : hub.regmap_mutex = false)
    (hm : cpld.regmap = none) :
    swc_cpld_get_regmap cpld =
      .ok ({ drvdata := some { hub with regmap_mutex := false }, regmap := none,
             log := cpld.log ++ [.mutex_lock, .mutex_unlock] }, none) := by
  obtain ⟨dd, dm, dl⟩ := cpld
  simp only at hd hm
  subst hd hm
  simp [swc_cpld_get_regmap, mutex_lock, mutex_unlock, hfree, bind, Except.bind]

theorem swc_cpld_register_get_unlocks (data : swc_cpld_register_data) (cpld : device)
    (hub : swc_cpld_data) (reg : Nat) (hd : cpld.drvdata = some hub)
    (hfree : hub.regmap_mutex = false) (hwf : data.wf)
    (hreg : reg < SWC_CPLD_REGISTER_MAX_OFFSETS) :
    ∃ d r out, swc_cpld_register_get data cpld reg = .ok (d, r, out) ∧
      d.lock_held = false := by
  obtain ⟨ho, hv, -, -, -, -, -, -⟩ := hwf
  have h1 : reg < data.offsets.length := by rw [ho]; exact hreg
  have h2 : reg < data.valid_masks.length := by rw [hv]; exact hreg
  unfold swc_cpld_register_get
  cases hm : cpld.regmap with
  | none =>
    rw [swc_cpld_get_regmap_none cpld hub hd hfree hm]
    exact ⟨_, _, _, rfl, rfl⟩
  | some m =>
    rw [swc_cpld_get_regmap_some cpld hub m hd hfree hm]
    simp only [bind, Except.bind, array_get_of_lt _ _ h1, array_get_of_lt _ _ h2, regmap_read,
      swc_cpld_put_regmap, mutex_unlock]
    split <;> exact ⟨_, _, _, rfl, rfl⟩

theorem swc_cpld_register_set_unlocks (data : swc_cpld_register_data) (cpld : device)
    (hub : swc_cpld_data) (reg : Nat) (val : Int) (hd : cpld.drvdata = some hub)
    (hfree : hub.regmap_mutex = false) (hwf : data.wf)
    (hreg : reg < SWC_CPLD_REGISTER_MAX_OFFSETS) :
    ∃ d r, swc_cpld_register_set data cpld reg val = .ok (d, r) ∧ d.lock_held = false := by
  obtain ⟨ho, hv, -, -, hw, -, -, -⟩ := hwf
  have h1 : reg < data.offsets.length := by rw [ho]; exact hreg
  have h2 : reg < data.valid_masks.length := by rw [hv]; exact hreg
  have h3 : reg < data.writable_masks.length := by rw [hw]; exact hreg
  have hfree0 : cpld.lock_held = false := by simp [device.lock_held, hd, hfree]
  unfold swc_cpld_register_set
  simp only [bind, Except.bind, array_get_of_lt _ _ h3]
  split
  · exact ⟨_, _, rfl, hfree0⟩
  · cases hm : cpld.regmap with
    | none =>
      rw [swc_cpld_get_regmap_none cpld hub hd hfree hm]
      exact ⟨_, _, rfl, rfl⟩
    | some m =>
      rw [swc_cpld_get_regmap_some cpld hub m hd hfree hm]
      simp only [array_get_of_lt _ _ h1, array_get_of_lt _ _ h2, regmap_write,
        swc_cpld_put_regmap, mutex_unlock]
      split <;> exact ⟨_, _, rfl, rfl⟩

theorem register_show_loop_unlocks (data : swc_cpld_register_data) (cpld : device)
    (hub : swc_cpld_data) (property_name : List Char) (hd : cpld.drvdata = some hub)
    (hfree : hub.regmap_mutex = false) (hwf : data.wf) :
    ∀ n reg, reg + n ≤ data.num_offsets →
      ∃ d r buf, register_show_loop data cpld property_name n reg = .ok (d, r, buf) ∧
        d.lock_held = false := by
  obtain ⟨ho, hv, -, -, -, -, hn, hnames⟩ := hwf
  have hfree0 : cpld.lock_held = false := by simp [device.lock_held, hd, hfree]
  intro n
  induction n with
  | zero => intro reg _; exact ⟨_, _, _, rfl, hfree0⟩
  | succ n ih =>
    intro reg hb
    have h1 : reg < data.offsets.length := by
      rw [ho]; simp only [SWC_CPLD_REGISTER_MAX_OFFSETS] at hn ⊢; omega
    have h2 : reg < data.valid_masks.length := by
      rw [hv]; simp only [SWC_CPLD_REGISTER_MAX_OFFSETS] at hn ⊢; omega
    have h3 : reg < data.names.length := by rw [hnames]; omega
    have hname : names_get data.names reg = .ok (data.names.get ⟨reg, h3⟩) := by
      simp [names_get, List.getElem?_eq_getElem h3]
    rw [register_show_loop, hname]
    simp only [bind, Except.bind]
    split
    · exact ih (reg + 1) (by omega)
    · cases hm : cpld.regmap with
      | none =>
        rw [swc_cpld_get_regmap_none cpld hub hd hfree hm]
        exact ⟨_, _, _, rfl, rfl⟩
      | some m =>
        rw [swc_cpld_get_regmap_some cpld hub m hd hfree hm]
        simp only [array_get_of_lt _ _ h1, array_get_of_lt _ _ h2, regmap_read,
          swc_cpld_put_regmap, mutex_unlock]
        split <;> exact ⟨_, _, _, rfl, rfl⟩

theorem pick_valid_positions (data : swc_cpld_gpio_data) (p : Nat) :
    pick (valid_positions data) p < 0 ∨
      ∃ idx : Nat, pick (valid_positions data) p = (idx : Int) ∧
        idx < data.num_offsets * 8 := by
  unfold pick
  cases h : (valid_positions data)[p]? with
  | none => left; simp [ENODEV]
  | some i =>
    right
    exact ⟨i, rfl, ((mem_valid_positions data i).mp (List.getElem?_mem h)).1⟩

theorem swc_cpld_gpio_get_unlocks (data : swc_cpld_gpio_data) (cpld : device)
    (hub : swc_cpld_data) (offset : Nat) (hd : cpld.drvdata = some hub)
    (hfree : hub.regmap_mutex = false) (hwf : data.wf) :
    ∃ d r, swc_cpld_gpio_get data cpld offset = .ok (d, r) ∧ d.lock_held = false := by
  have hfree0 : cpld.lock_held = false := by simp [device.lock_held, hd, hfree]
  unfold swc_cpld_gpio_get
  rw [gpio_to_offsets_bit_eq data hwf]
  simp only [bind, Except.bind]
  rcases pick_valid_positions data offset with hneg | ⟨idx, hidx, hlt⟩
  · rw [if_pos hneg]; exact ⟨_, _, rfl, hfree0⟩
  · rw [hidx, if_neg (by omega)]
    obtain ⟨ho, -, -, hn⟩ := hwf
    have h1 : idx / 8 < data.offsets.length := by
      rw [ho]; simp only [SWC_CPLD_GPIO_MAX_OFFSETS] at hn ⊢; omega
    cases hm : cpld.regmap with
    | none =>
      rw [swc_cpld_get_regmap_none cpld hub hd hfree hm]
      exact ⟨_, _, rfl, rfl⟩
    | some m =>
      rw [swc_cpld_get_regmap_some cpld hub m hd hfree hm]
      simp only [Int.toNat_ofNat, array_get_of_lt _ _ h1, regmap_read, swc_cpld_put_regmap,
        mutex_unlock]
      split <;> exact ⟨_, _, rfl, rfl⟩

theorem swc_cpld_gpio_set_unlocks (data : swc_cpld_gpio_data) (cpld : device)
    (hub : swc_cpld_data) (offset : Nat) (val : Int) (hd : cpld.drvdata = some hub)
    (hfree : hub.regmap_mutex = false) (hwf : data.wf) :
    ∃ d, swc_cpld_gpio_set data cpld offset val = .ok d ∧ d.lock_held = false := by
  have hfree0 : cpld.lock_held = false := by simp [device.lock_held, hd, hfree]
  unfold swc_cpld_gpio_set
  rw [gpio_to_offsets_bit_eq data hwf]
  simp only [bind, Except.bind]
  rcases pick_valid_positions data offset with hneg | ⟨idx, hidx, hlt⟩
  · rw [if_pos hneg]; exact ⟨_, rfl, hfree0⟩
  · rw [hidx, if_neg (by omega)]
    obtain ⟨ho, -, -, hn⟩ := hwf
    have h1 : idx / 8 < data.offsets.length := by
      rw [ho]; simp only [SWC_CPLD_GPIO_MAX_OFFSETS] at hn ⊢; omega
    cases hm : cpld.regmap with
    | none =>
      rw [swc_cpld_get_regmap_none cpld hub hd hfree hm]
      exact ⟨_, rfl, rfl⟩
    | some m =>
      rw [swc_cpld_get_regmap_some cpld hub m hd hfree hm]
      simp only [Int.toNat_ofNat, array_get_of_lt _ _ h1, regmap_update_bits,
        swc_cpld_put_regmap, mutex_unlock]
      exact ⟨_, rfl, rfl⟩

/-- C8: with the hub mutex as explicit state, `swc_cpld_get_regmap` returns with the mutex
held exactly when it returns a map, and `swc_cpld_set_regprops`, `swc_cpld_register_get`,
`swc_cpld_register_set`, `register_show`, `swc_cpld_gpio_get` and `swc_cpld_gpio_set`,
entered with the mutex free, all return with the mutex free, whether a map is attached or
not and whatever the transport answers. The executions covered are the defined ones:
offsets other than 255 for `swc_cpld_set_regprops` and register indexes inside the arrays of
the front end. -/
theorem hub_lock_released (cpld : device) (hub : swc_cpld_data)
    (rdata : swc_cpld_register_data) (gdata : swc_cpld_gpio_data) (reg props idx pin : Nat)
    (val v : Int) (attr_name : List Char)
    (hd : cpld.drvdata = some hub) (hfree : hub.regmap_mutex = false) (hwf : hub.wf)
    (hreg : reg ≠ SWC_CPLD_REG_MAX) (hr : rdata.wf) (hidx : idx < SWC_CPLD_REGISTER_MAX_OFFSETS)
    (hg : gdata.wf) :
    (∃ d m, swc_cpld_get_regmap cpld = .ok (d, m) ∧ m.isSome = cpld.regmap.isSome ∧
      (d.lock_held = true ↔ m.isSome = true)) ∧
    (∃ d r, swc_cpld_set_regprops cpld reg props = .ok (d, r) ∧ d.lock_held = false) ∧
    (∃ d r out, swc_cpld_register_get rdata cpld idx = .ok (d, r, out) ∧
      d.lock_held = false) ∧
    (∃ d r, swc_cpld_register_set rdata cpld idx val = .ok (d, r) ∧ d.lock_held = false) ∧
    (∃ d r buf, register_show rdata cpld attr_name = .ok (d, r, buf) ∧
      d.lock_held = false) ∧
    (∃ d r, swc_cpld_gpio_get gdata cpld pin = .ok (d, r) ∧ d.lock_held = false) ∧
    (∃ d, swc_cpld_gpio_set gdata cpld pin v = .ok d ∧ d.lock_held = false) := by
  refine ⟨?_, ?_, swc_cpld_register_get_unlocks rdata cpld hub idx hd hfree hr hidx,
    swc_cpld_register_set_unlocks rdata cpld hub idx val hd hfree hr hidx,
    register_show_loop_unlocks rdata cpld hub _ hd hfree hr _ 0 (by omega),
    swc_cpld_gpio_get_unlocks gdata cpld hub pin hd hfree hg,
    swc_cpld_gpio_set_unlocks gdata cpld hub pin v hd hfree hg⟩
  · cases hm : cpld.regmap with
    | none =>
      refine ⟨_, _, swc_cpld_get_regmap_none cpld hub hd hfree hm, rfl, ?_⟩
      simp [device.lock_held]
    | some m =>
      refine ⟨_, _, swc_cpld_get_regmap_some cpld hub m hd hfree hm, rfl, ?_⟩
      simp [device.lock_held]
  · obtain ⟨d, data1, r, hcall, hd1, hfree1, -, -, -⟩ :=
      swc_cpld_set_regprops_entry cpld hub reg props hd hfree hwf hreg
    exact ⟨d, r, hcall, by simp [device.lock_held, hd1, hfree1]⟩

/-- Witness for C8: the freshly probed hub with the example front ends. -/
theorem hub_lock_released_witness :
    (∃ d m, swc_cpld_get_regmap hub_fresh = .ok (d, m) ∧
      m.isSome = hub_fresh.regmap.isSome ∧ (d.lock_held = true ↔ m.isSome = true)) ∧
    (∃ d r, swc_cpld_set_regprops hub_fresh 0x30 5 = .ok (d, r) ∧ d.lock_held = false) ∧
    (∃ d r out, swc_cpld_register_get register_example hub_fresh 1 = .ok (d, r, out) ∧
      d.lock_held = false) ∧
    (∃ d r, swc_cpld_register_set register_example hub_fresh 1 0x1ff = .ok (d, r) ∧
      d.lock_held = false) ∧
    (∃ d r buf, register_show register_example hub_fresh led_ctl_attr = .ok (d, r, buf) ∧
      d.lock_held = false) ∧
    (∃ d r, swc_cpld_gpio_get gpio_example hub_fresh 4 = .ok (d, r) ∧ d.lock_held = false) ∧
    (∃ d, swc_cpld_gpio_set gpio_example hub_fresh 4 1 = .ok d ∧ d.lock_held = false) :=
  hub_lock_released hub_fresh hub_fresh_data register_example gpio_example 0x30 5 1 4
    0x1ff 1 led_ctl_attr rfl rfl hub_fresh_data_wf (by decide) (by decide) (by decide)
    (by decide)

/-! ## The I2C mux -/

theorem swc_cpld_i2c_mux_write_eq (client : i2c_client) (bus : List i2c_event)
    (reg val : Nat) :
    swc_cpld_i2c_mux_write client bus reg val =
      (bus ++ [match client.algo.master_xfer with
        | some _ => .master_xfer (i2c_msg.mk client.addr 0 2 [reg, val])
        | none => .smbus_xfer client.addr client.flags I2C_SMBUS_WRITE reg I2C_SMBUS_BYTE val],
       match client.algo.master_xfer with
        | some f => f bus (i2c_msg.mk client.addr 0 2 [reg, val])
        | none => client.algo.smbus_xfer bus client.addr client.flags I2C_SMBUS_WRITE reg
            I2C_SMBUS_BYTE val) := by
  unfold swc_cpld_i2c_mux_write
  cases client.algo.master_xfer <;> rfl

theorem swc_cpld_i2c_mux_select_chan_other (data : swc_cpld_i2c_mux_data) (cpld : i2c_client)
    (bus : List i2c_event) (chan : Nat) (hcpld : data.cpld = some cpld)
    (hne : chan % 256 ≠ data.last_chan) :
    swc_cpld_i2c_mux_select_chan (some data) bus chan =
      (some { data with
          last_chan := if (swc_cpld_i2c_mux_write cpld bus data.offset (chan % 256)).2 ≠ 0
            then data.deselect_value else chan % 256 },
        (swc_cpld_i2c_mux_write cpld bus data.offset (chan % 256)).1,
        (swc_cpld_i2c_mux_write cpld bus data.offset (chan % 256)).2) := by
  unfold swc_cpld_i2c_mux_select_chan
  simp only [hcpld, ne_eq, Ne.symm hne, not_false_eq_true, if_true]
  by_cases hr : (swc_cpld_i2c_mux_write cpld bus data.offset (chan % 256)).2 = 0
  · simp [hr]
  · simp [hr]

theorem swc_cpld_i2c_mux_select_chan_master (data : swc_cpld_i2c_mux_data)
    (cpld : i2c_client) (f : List i2c_event → i2c_msg → Int) (bus : List i2c_event) (c : Nat)
    (hcpld : data.cpld = some cpld) (hf : cpld.algo.master_xfer = some f) (hc : c < 256)
    (hne : c ≠ data.last_chan) :
    (i2c_event.master_xfer
      (i2c_msg.mk cpld.addr 0 2 [data.offset, c])).writes
        cpld.addr data.offset c ∧
    (f bus (i2c_msg.mk cpld.addr 0 2 [data.offset, c]) = 0 →
      swc_cpld_i2c_mux_select_chan (some data) bus c =
        (some { data with last_chan := c },
          bus ++ [.master_xfer (i2c_msg.mk cpld.addr 0 2 [data.offset, c])], 0)) ∧
    (f bus (i2c_msg.mk cpld.addr 0 2 [data.offset, c]) ≠ 0 →
      swc_cpld_i2c_mux_select_chan (some data) bus c =
        (some { data with last_chan := data.deselect_value },
          bus ++ [.master_xfer (i2c_msg.mk cpld.addr 0 2 [data.offset, c])],
          f bus (i2c_msg.mk cpld.addr 0 2 [data.offset, c]))) := by
  have hmod : c % 256 = c := Nat.mod_eq_of_lt hc
  have hsel := swc_cpld_i2c_mux_select_chan_other data cpld bus c hcpld
    (by rw [hmod]; exact hne)
  rw [hmod, swc_cpld_i2c_mux_write_eq, hf] at hsel
  simp only at hsel
  refine ⟨⟨rfl, rfl, rfl, rfl⟩, fun h0 => ?_, fun h1 => ?_⟩
  · rw [hsel]; simp [h0]
  · rw [hsel, if_pos h1]

theorem swc_cpld_i2c_mux_deselect_master (data : swc_cpld_i2c_mux_data)
    (cpld : i2c_client) (f : List i2c_event → i2c_msg → Int) (bus : List i2c_event)
    (chan : Nat) (hcpld : data.cpld = some cpld) (hf : cpld.algo.master_xfer = some f) :
    (i2c_event.master_xfer
      (i2c_msg.mk cpld.addr 0 2 [data.offset, data.deselect_value])).writes
        cpld.addr data.offset data.deselect_value ∧
    swc_cpld_i2c_mux_deselect (some data) bus chan =
      (some { data with last_chan := data.deselect_value },
        bus ++ [.master_xfer (i2c_msg.mk cpld.addr 0 2 [data.offset, data.deselect_value])],
        f bus (i2c_msg.mk cpld.addr 0 2 [data.offset, data.deselect_value])) := by
  refine ⟨⟨rfl, rfl, rfl, rfl⟩, ?_⟩
  unfold swc_cpld_i2c_mux_deselect
  simp only [hcpld, swc_cpld_i2c_mux_write_eq, hf]

/-- C10 (code defect): on the mux of the scenario, whose adapter has no `master_xfer`,
`select_channel(3)` makes one transfer, caches 3 and returns 0; the transfer is the SMBus
request with command 0x20 and size `I2C_SMBUS_BYTE`, a send-byte that carries the register
offset alone, and not a write of 3 to register 0x20, which is of size
`I2C_SMBUS_BYTE_DATA`. -/
theorem swc_cpld_i2c_mux_select_chan_send_byte :
    mux_example.last_chan ≠ 3 ∧
    swc_cpld_i2c_mux_select_chan (some mux_example) [] 3 =
      (some { mux_example with last_chan := 3 },
        [.smbus_xfer 0x33 0 I2C_SMBUS_WRITE 0x20 I2C_SMBUS_BYTE 3], 0) ∧
    I2C_SMBUS_BYTE ≠ I2C_SMBUS_BYTE_DATA ∧
    ¬ (i2c_event.smbus_xfer 0x33 0 I2C_SMBUS_WRITE 0x20 I2C_SMBUS_BYTE 3).writes
        0x33 0x20 3 :=
  ⟨by decide, rfl, by decide, fun h => absurd h.2.2.2.1 (by decide)⟩

/-- C11 (code defect): on the mux of the scenario behind an adapter whose `master_xfer`
succeeds, returning 1 for the one message transferred, `select_channel(3)` writes 3 to
register 0x20 and returns 1, and, taking the 1 for an error, leaves the deselect value 0xff
in the cache; the `select_channel(3)` that follows at once writes 3 to register 0x20 again
and returns 1 again. Two writes are made and neither call returns 0. -/
theorem swc_cpld_i2c_mux_select_chan_twice_writes_twice :
    swc_cpld_i2c_mux_select_chan (some mux_master) [] 3 =
      (some mux_master,
        [.master_xfer (i2c_msg.mk 0x33 0 2 [0x20, 3])], 1) ∧
    swc_cpld_i2c_mux_select_chan (some mux_master)
        [.master_xfer (i2c_msg.mk 0x33 0 2 [0x20, 3])] 3 =
      (some mux_master,
        [.master_xfer (i2c_msg.mk 0x33 0 2 [0x20, 3]),
         .master_xfer (i2c_msg.mk 0x33 0 2 [0x20, 3])], 1) ∧
    (i2c_event.master_xfer (i2c_msg.mk 0x33 0 2 [0x20, 3])).writes
      0x33 0x20 3 ∧
    mux_master.last_chan = 0xff :=
  ⟨rfl, rfl, ⟨rfl, rfl, rfl, rfl⟩, rfl⟩

/-- C12 (code defect): on the mux behind the failing adapter, which has no `master_xfer`
and answers `-EIO`, `swc_cpld_i2c_mux_deselect` with channel 1 cached makes one transfer,
caches the deselect value 0xff and returns the `-EIO` of the adapter; the transfer is the
SMBus request with command 0x20 and size `I2C_SMBUS_BYTE`, a send-byte that carries the
register offset alone, and not a write of 0xff to register 0x20, which is of size
`I2C_SMBUS_BYTE_DATA`. -/
theorem swc_cpld_i2c_mux_deselect_send_byte :
    mux_failing.last_chan = 1 ∧
    swc_cpld_i2c_mux_deselect (some mux_failing) [] 0 =
      (some { mux_failing with last_chan := 0xff },
        [.smbus_xfer 0x33 0 I2C_SMBUS_WRITE 0x20 I2C_SMBUS_BYTE 0xff],
        algo_failing.smbus_xfer [] 0x33 0 I2C_SMBUS_WRITE 0x20 I2C_SMBUS_BYTE 0xff) ∧
    algo_failing.smbus_xfer [] 0x33 0 I2C_SMBUS_WRITE 0x20 I2C_SMBUS_BYTE 0xff = -5 ∧
    I2C_SMBUS_BYTE ≠ I2C_SMBUS_BYTE_DATA ∧
    ¬ (i2c_event.smbus_xfer 0x33 0 I2C_SMBUS_WRITE 0x20 I2C_SMBUS_BYTE 0xff).writes
        0x33 0x20 0xff :=
  ⟨rfl, rfl, rfl, by decide, fun h => absurd h.2.2.2.1 (by decide)⟩

/-! ## GPIO pins -/

theorem gpio_to_offsets_bit_of_lt (data : swc_cpld_gpio_data) (hwf : data.wf) (p : Nat)
    (hp : p < total_valid_bits data) :
    ∃ idx : Nat, gpio_to_offsets_bit data p = .ok (idx : Int) ∧
      idx < data.num_offsets * 8 ∧ idx / 8 < SWC_CPLD_GPIO_MAX_OFFSETS := by
  have hlen : p < (valid_positions data).length := by
    rw [valid_positions_length]; exact hp
  have hmem : (valid_positions data).get ⟨p, hlen⟩ ∈ valid_positions data :=
    List.get_mem _ _ _
  rw [mem_valid_positions] at hmem
  refine ⟨(valid_positions data).get ⟨p, hlen⟩, ?_, hmem.1, ?_⟩
  · rw [gpio_to_offsets_bit_eq data hwf, pick_of_lt _ _ hlen]
  · obtain ⟨_, _, _, hn⟩ := hwf
    have := hmem.1
    simp only [SWC_CPLD_GPIO_MAX_OFFSETS] at hn ⊢
    omega

theorem gpio_to_offsets_bit_of_ge (data : swc_cpld_gpio_data) (hwf : data.wf) (p : Nat)
    (hp : total_valid_bits data ≤ p) :
    gpio_to_offsets_bit data p = .ok (-ENODEV) := by
  rw [gpio_to_offsets_bit_eq data hwf]
  unfold pick
  rw [List.getElem?_eq_none (by rw [valid_positions_length]; exact hp)]

theorem swc_cpld_gpio_get_dir_of_ge (data : swc_cpld_gpio_data) (cpld : device)
    (hwf : data.wf) (p : Nat) (hp : total_valid_bits data ≤ p) :
    swc_cpld_gpio_get_dir data cpld p = .ok (cpld, -EINVAL) := by
  unfold swc_cpld_gpio_get_dir
  rw [gpio_to_offsets_bit_of_ge data hwf p hp]
  simp [bind, Except.bind, ENODEV]

theorem swc_cpld_gpio_get_dir_of_idx (data : swc_cpld_gpio_data) (cpld : device)
    (hwf : data.wf) (p idx : Nat) (hres : gpio_to_offsets_bit data p = .ok (idx : Int))
    (hidx : idx / 8 < SWC_CPLD_GPIO_MAX_OFFSETS) :
    swc_cpld_gpio_get_dir data cpld p =
      .ok (cpld, if (data.direction_masks.getD (idx / 8) 0).testBit (idx % 8) = true
        then GPIOF_DIR_OUT else GPIOF_DIR_IN) := by
  obtain ⟨_, _, hd, _⟩ := hwf
  have h1 : idx / 8 < data.direction_masks.length := by rw [hd]; exact hidx
  unfold swc_cpld_gpio_get_dir
  rw [hres]
  simp only [bind, Except.bind, if_neg (show ¬ ((idx : Int) < 0) by omega), Int.toNat_ofNat,
    array_get_of_lt _ _ h1]
  by_cases hb : (data.direction_masks.getD (idx / 8) 0).testBit (idx % 8) = true
  · rw [if_pos ((and_BIT_ne_zero _ _).mpr hb), if_pos hb]
  · rw [if_neg (fun hc => hb ((and_BIT_ne_zero _ _).mp hc)), if_neg hb]

/-- C13: for a pin index at or above the number of valid bits the resolution fails, and
`swc_cpld_gpio_get`, `swc_cpld_gpio_get_dir` and `swc_cpld_gpio_dir_input` each return
`-EINVAL` and leave the CPLD as it was (no mutex or map call, no register access); for a pin
index below the number of valid bits the resolution yields a position. -/
theorem swc_cpld_gpio_no_such_pin (data : swc_cpld_gpio_data) (cpld : device) (p : Nat)
    (hwf : data.wf) :
    (total_valid_bits data ≤ p →
      (∃ e : Int, gpio_to_offsets_bit data p = .ok e ∧ e < 0) ∧
      swc_cpld_gpio_get data cpld p = .ok (cpld, -EINVAL) ∧
      swc_cpld_gpio_get_dir data cpld p = .ok (cpld, -EINVAL) ∧
      swc_cpld_gpio_dir_input data cpld p = .ok (cpld, -EINVAL)) ∧
    (p < total_valid_bits data →
      ∃ idx : Nat, gpio_to_offsets_bit data p = .ok (idx : Int) ∧
        idx < data.num_offsets * 8) := by
  constructor
  · intro hp
    have hres := gpio_to_offsets_bit_of_ge data hwf p hp
    refine ⟨⟨_, hres, by decide⟩, ?_, swc_cpld_gpio_get_dir_of_ge data cpld hwf p hp, ?_⟩
    · unfold swc_cpld_gpio_get
      rw [hres]
      simp [bind, Except.bind, ENODEV]
    · unfold swc_cpld_gpio_dir_input
      rw [swc_cpld_gpio_get_dir_of_ge data cpld hwf p hp]
      simp [bind, Except.bind, EINVAL, GPIOF_DIR_IN]
  · intro hp
    obtain ⟨idx, hres, hlt, _⟩ := gpio_to_offsets_bit_of_lt data hwf p hp
    exact ⟨idx, hres, hlt⟩

/-- Witness for C13: pin 6 of the example block, which has six pins. -/
theorem swc_cpld_gpio_no_such_pin_witness :
    (total_valid_bits gpio_example ≤ 6 →
      (∃ e : Int, gpio_to_offsets_bit gpio_example 6 = .ok e ∧ e < 0) ∧
      swc_cpld_gpio_get gpio_example hub_fresh 6 = .ok (hub_fresh, -EINVAL) ∧
      swc_cpld_gpio_get_dir gpio_example hub_fresh 6 = .ok (hub_fresh, -EINVAL) ∧
      swc_cpld_gpio_dir_input gpio_example hub_fresh 6 = .ok (hub_fresh, -EINVAL)) ∧
    (6 < total_valid_bits gpio_example →
      ∃ idx : Nat, gpio_to_offsets_bit gpio_example 6 = .ok (idx : Int) ∧
        idx < gpio_example.num_offsets * 8) :=
  swc_cpld_gpio_no_such_pin gpio_example hub_fresh 6 (by decide)

/-- For a pin index at or above the number of valid bits, `swc_cpld_gpio_dir_output` returns 0
and leaves the CPLD as it was. -/
theorem swc_cpld_gpio_dir_output_of_ge (data : swc_cpld_gpio_data) (cpld : device)
    (hwf : data.wf) (p : Nat) (val : Int) (hp : total_valid_bits data ≤ p) :
    swc_cpld_gpio_dir_output data cpld p val = .ok (cpld, 0) := by
  unfold swc_cpld_gpio_dir_output swc_cpld_gpio_set
  rw [swc_cpld_gpio_get_dir_of_ge data cpld hwf p hp, gpio_to_offsets_bit_of_ge data hwf p hp]
  simp [bind, Except.bind, EINVAL, ENODEV, GPIOF_DIR_IN]

/-- C14 (defect): on the example block, which has pins 0..5, a request to make pin 6 an
output with initial value 1 returns 0 and does nothing, while the sibling request to make
it an input returns `-EINVAL`: the error of `swc_cpld_gpio_get_dir` is only compared with
`GPIOF_DIR_IN`. -/
theorem swc_cpld_gpio_dir_output_no_such_pin_succeeds :
    total_valid_bits gpio_example = 6 ∧
    swc_cpld_gpio_get_dir gpio_example hub_fresh 6 = .ok (hub_fresh, -EINVAL) ∧
    swc_cpld_gpio_dir_output gpio_example hub_fresh 6 1 = .ok (hub_fresh, 0) ∧
    swc_cpld_gpio_dir_input gpio_example hub_fresh 6 = .ok (hub_fresh, -EINVAL) :=
  ⟨by decide, swc_cpld_gpio_get_dir_of_ge gpio_example hub_fresh (by decide) 6 (by decide),
    swc_cpld_gpio_dir_output_of_ge gpio_example hub_fresh (by decide) 6 1 (by decide),
    by
      unfold swc_cpld_gpio_dir_input
      rw [swc_cpld_gpio_get_dir_of_ge gpio_example hub_fresh (by decide) 6 (by decide)]
      simp [bind, Except.bind, EINVAL, GPIOF_DIR_IN]⟩

/-- C16: for an existing pin resolved to position `idx`, `swc_cpld_gpio_get` returns
`-ENODEV` when no map is attached; with a map attached it reads register
`offsets[idx / 8]` once and returns 1 or 0 according to bit `idx % 8` of the value read when
the read succeeds, and the error of the read when it fails. -/
theorem swc_cpld_gpio_get_spec (data : swc_cpld_gpio_data) (cpld : device)
    (hub : swc_cpld_data) (p : Nat) (hwf : data.wf) (hp : p < total_valid_bits data)
    (hd : cpld.drvdata = some hub) (hfree : hub.regmap_mutex = false) :
    ∃ idx : Nat, gpio_to_offsets_bit data p = .ok (idx : Int) ∧
      (cpld.regmap = none →
        ∃ d, swc_cpld_gpio_get data cpld p = .ok (d, -ENODEV) ∧
          d.log = cpld.log ++ [.mutex_lock, .mutex_unlock]) ∧
      (∀ map, cpld.regmap = some map →
        ∃ d r, swc_cpld_gpio_get data cpld p = .ok (d, r) ∧
          d.log = cpld.log ++
            [.mutex_lock, .regmap_read (data.offsets.getD (idx / 8) 0), .mutex_unlock] ∧
          ((map.read (cpld.log ++ [.mutex_lock]) (data.offsets.getD (idx / 8) 0)).1 = 0 →
            r = (if (map.read (cpld.log ++ [.mutex_lock])
                (data.offsets.getD (idx / 8) 0)).2.testBit (idx % 8) = true then 1 else 0) ∧
            (r = 0 ∨ r = 1)) ∧
          ((map.read (cpld.log ++ [.mutex_lock]) (data.offsets.getD (idx / 8) 0)).1 ≠ 0 →
            r = (map.read (cpld.log ++ [.mutex_lock])
              (data.offsets.getD (idx / 8) 0)).1)) := by
  obtain ⟨idx, hres, hlt, hidx⟩ := gpio_to_offsets_bit_of_lt data hwf p hp
  have h1 : idx / 8 < data.offsets.length := by rw [hwf.1]; exact hidx
  refine ⟨idx, hres, ?_, ?_⟩
  · intro hm
    unfold swc_cpld_gpio_get
    rw [hres]
    simp only [bind, Except.bind, if_neg (show ¬ ((idx : Int) < 0) by omega)]
    rw [swc_cpld_get_regmap_none cpld hub hd hfree hm]
    exact ⟨_, rfl, rfl⟩
  · intro map hm
    unfold swc_cpld_gpio_get
    rw [hres]
    simp only [bind, Except.bind, if_neg (show ¬ ((idx : Int) < 0) by omega)]
    rw [swc_cpld_get_regmap_some cpld hub map hd hfree hm]
    simp only [Int.toNat_ofNat, array_get_of_lt _ _ h1, regmap_read, swc_cpld_put_regmap,
      mutex_unlock]
    by_cases herr : (map.read (cpld.log ++ [.mutex_lock]) (data.offsets.getD (idx / 8) 0)).1 = 0
    · rw [if_neg (not_not.mpr herr)]
      refine ⟨_, _, rfl, by simp, fun _ => ⟨?_, ?_⟩, fun h => absurd herr h⟩
      · by_cases hb : (map.read (cpld.log ++ [.mutex_lock])
            (data.offsets.getD (idx / 8) 0)).2.testBit (idx % 8) = true
        · rw [if_pos ((and_BIT_ne_zero _ _).mpr hb), if_pos hb]
        · rw [if_neg (fun hc => hb ((and_BIT_ne_zero _ _).mp hc)), if_neg hb]
      · by_cases hb : (map.read (cpld.log ++ [.mutex_lock])
            (data.offsets.getD (idx / 8) 0)).2 &&& BIT (idx % 8) ≠ 0
        · right; rw [if_pos hb]
        · left; rw [if_neg hb]
    · rw [if_pos herr]
      exact ⟨_, _, rfl, by simp, fun h => absurd h herr, fun _ => rfl⟩

/-- Witness for C16: pin 1 of the example block on the freshly probed hub. -/
theorem swc_cpld_gpio_get_spec_witness :
    ∃ idx : Nat, gpio_to_offsets_bit gpio_example 1 = .ok (idx : Int) ∧
      (hub_fresh.regmap = none →
        ∃ d, swc_cpld_gpio_get gpio_example hub_fresh 1 = .ok (d, -ENODEV) ∧
          d.log = hub_fresh.log ++ [.mutex_lock, .mutex_unlock]) ∧
      (∀ map, hub_fresh.regmap = some map →
        ∃ d r, swc_cpld_gpio_get gpio_example hub_fresh 1 = .ok (d, r) ∧
          d.log = hub_fresh.log ++
            [.mutex_lock, .regmap_read (gpio_example.offsets.getD (idx / 8) 0),
             .mutex_unlock] ∧
          ((map.read (hub_fresh.log ++ [.mutex_lock])
              (gpio_example.offsets.getD (idx / 8) 0)).1 = 0 →
            r = (if (map.read (hub_fresh.log ++ [.mutex_lock])
                (gpio_example.offsets.getD (idx / 8) 0)).2.testBit (idx % 8) = true
              then 1 else 0) ∧
            (r = 0 ∨ r = 1)) ∧
          ((map.read (hub_fresh.log ++ [.mutex_lock])
              (gpio_example.offsets.getD (idx / 8) 0)).1 ≠ 0 →
            r = (map.read (hub_fresh.log ++ [.mutex_lock])
              (gpio_example.offsets.getD (idx / 8) 0)).1)) :=
  swc_cpld_gpio_get_spec gpio_example hub_fresh hub_fresh_data 1 (by decide) (by decide)
    rfl rfl

theorem gpio_to_offsets_bit_scenario (k : Nat) (hk : k < 4) :
    gpio_to_offsets_bit gpio_scenario k = .ok (k : Int) := by
  have h : k = 0 ∨ k = 1 ∨ k = 2 ∨ k = 3 := by omega
  rcases h with h | h | h | h <;> subst h <;> decide

/-- C17: for an existing pin resolved to position `idx`, `swc_cpld_gpio_get_dir` returns
`GPIOF_DIR_OUT` if bit `idx % 8` of `direction_masks[idx / 8]` is set and `GPIOF_DIR_IN`
otherwise, and leaves the CPLD as it was (no register access). In the scenario
offsets=[0x10], valid-masks=[0x0f], direction-masks=[0x0c] the probe counts 4 pins, pins 0
and 1 report input and pins 2 and 3 report output. -/
theorem swc_cpld_gpio_get_dir_spec (data : swc_cpld_gpio_data) (cpld : device) (p : Nat)
    (hwf : data.wf) (hp : p < total_valid_bits data) :
    (∃ idx : Nat, gpio_to_offsets_bit data p = .ok (idx : Int) ∧
      swc_cpld_gpio_get_dir data cpld p =
        .ok (cpld, if (data.direction_masks.getD (idx / 8) 0).testBit (idx % 8) = true
          then GPIOF_DIR_OUT else GPIOF_DIR_IN)) ∧
    (swc_cpld_gpio_probe_num_gpios gpio_scenario = .ok 4 ∧
      swc_cpld_gpio_get_dir gpio_scenario cpld 0 = .ok (cpld, GPIOF_DIR_IN) ∧
      swc_cpld_gpio_get_dir gpio_scenario cpld 1 = .ok (cpld, GPIOF_DIR_IN) ∧
      swc_cpld_gpio_get_dir gpio_scenario cpld 2 = .ok (cpld, GPIOF_DIR_OUT) ∧
      swc_cpld_gpio_get_dir gpio_scenario cpld 3 = .ok (cpld, GPIOF_DIR_OUT)) := by
  constructor
  · obtain ⟨idx, hres, _, hidx⟩ := gpio_to_offsets_bit_of_lt data hwf p hp
    exact ⟨idx, hres, swc_cpld_gpio_get_dir_of_idx data cpld hwf p idx hres hidx⟩
  · have hs : gpio_scenario.wf := by decide
    refine ⟨by decide, ?_, ?_, ?_, ?_⟩
    · rw [swc_cpld_gpio_get_dir_of_idx gpio_scenario cpld hs 0 0
        (gpio_to_offsets_bit_scenario 0 (by decide)) (by decide)]
      rfl
    · rw [swc_cpld_gpio_get_dir_of_idx gpio_scenario cpld hs 1 1
        (gpio_to_offsets_bit_scenario 1 (by decide)) (by decide)]
      rfl
    · rw [swc_cpld_gpio_get_dir_of_idx gpio_scenario cpld hs 2 2
        (gpio_to_offsets_bit_scenario 2 (by decide)) (by decide)]
      rfl
    · rw [swc_cpld_gpio_get_dir_of_idx gpio_scenario cpld hs 3 3
        (gpio_to_offsets_bit_scenario 3 (by decide)) (by decide)]
      rfl

/-- Witness for C17: pin 5 of the example block, an output. -/
theorem swc_cpld_gpio_get_dir_spec_witness :
    (∃ idx : Nat, gpio_to_offsets_bit gpio_example 5 = .ok (idx : Int) ∧
      swc_cpld_gpio_get_dir gpio_example hub_fresh 5 =
        .ok (hub_fresh,
          if (gpio_example.direction_masks.getD (idx / 8) 0).testBit (idx % 8) = true
          then GPIOF_DIR_OUT else GPIOF_DIR_IN)) ∧
    (swc_cpld_gpio_probe_num_gpios gpio_scenario = .ok 4 ∧
      swc_cpld_gpio_get_dir gpio_scenario hub_fresh 0 = .ok (hub_fresh, GPIOF_DIR_IN) ∧
      swc_cpld_gpio_get_dir gpio_scenario hub_fresh 1 = .ok (hub_fresh, GPIOF_DIR_IN) ∧
      swc_cpld_gpio_get_dir gpio_scenario hub_fresh 2 = .ok (hub_fresh, GPIOF_DIR_OUT) ∧
      swc_cpld_gpio_get_dir gpio_scenario hub_fresh 3 = .ok (hub_fresh, GPIOF_DIR_OUT)) :=
  swc_cpld_gpio_get_dir_spec gpio_example hub_fresh 5 (by decide) (by decide)

/-- C18: for an existing pin resolved to position `idx`, a direction request is accepted
exactly when it matches bit `idx % 8` of `direction_masks[idx / 8]`: with the bit clear
`swc_cpld_gpio_dir_input` returns 0 and `swc_cpld_gpio_dir_output` returns `-EINVAL`; with
the bit set `swc_cpld_gpio_dir_input` returns `-EINVAL` and `swc_cpld_gpio_dir_output`
returns 0. A rejected request, and an accepted input request, leave the CPLD as it was. -/
theorem swc_cpld_gpio_direction_requests (data : swc_cpld_gpio_data) (cpld : device)
    (hub : swc_cpld_data) (p : Nat) (v : Int) (hwf : data.wf)
    (hp : p < total_valid_bits data) (hd : cpld.drvdata = some hub)
    (hfree : hub.regmap_mutex = false) :
    ∃ idx : Nat, gpio_to_offsets_bit data p = .ok (idx : Int) ∧
      ((data.direction_masks.getD (idx / 8) 0).testBit (idx % 8) = false →
        swc_cpld_gpio_dir_input data cpld p = .ok (cpld, 0) ∧
        swc_cpld_gpio_dir_output data cpld p v = .ok (cpld, -EINVAL)) ∧
      ((data.direction_masks.getD (idx / 8) 0).testBit (idx % 8) = true →
        swc_cpld_gpio_dir_input data cpld p = .ok (cpld, -EINVAL) ∧
        ∃ d, swc_cpld_gpio_dir_output data cpld p v = .ok (d, 0)) := by
  obtain ⟨idx, hres, _, hidx⟩ := gpio_to_offsets_bit_of_lt data hwf p hp
  have hdir := swc_cpld_gpio_get_dir_of_idx data cpld hwf p idx hres hidx
  refine ⟨idx, hres, ?_, ?_⟩
  · intro hb
    rw [hb] at hdir
    unfold swc_cpld_gpio_dir_input swc_cpld_gpio_dir_output
    rw [hdir]
    simp [bind, Except.bind]
  · intro hb
    rw [hb] at hdir
    obtain ⟨d, hset, _⟩ := swc_cpld_gpio_set_unlocks data cpld hub p v hd hfree hwf
    unfold swc_cpld_gpio_dir_input swc_cpld_gpio_dir_output
    rw [hdir]
    simp [bind, Except.bind, GPIOF_DIR_OUT, GPIOF_DIR_IN, hset]

/-- Witness for C18: pin 2 of the scenario block, an output, on the freshly probed hub. -/
theorem swc_cpld_gpio_direction_requests_witness :
    ∃ idx : Nat, gpio_to_offsets_bit gpio_scenario 2 = .ok (idx : Int) ∧
      ((gpio_scenario.direction_masks.getD (idx / 8) 0).testBit (idx % 8) = false →
        swc_cpld_gpio_dir_input gpio_scenario hub_fresh 2 = .ok (hub_fresh, 0) ∧
        swc_cpld_gpio_dir_output gpio_scenario hub_fresh 2 1 = .ok (hub_fresh, -EINVAL)) ∧
      ((gpio_scenario.direction_masks.getD (idx / 8) 0).testBit (idx % 8) = true →
        swc_cpld_gpio_dir_input gpio_scenario hub_fresh 2 = .ok (hub_fresh, -EINVAL) ∧
        ∃ d, swc_cpld_gpio_dir_output gpio_scenario hub_fresh 2 1 = .ok (d, 0)) :=
  swc_cpld_gpio_direction_requests gpio_scenario hub_fresh hub_fresh_data 2 1 (by decide)
    (by decide) rfl rfl

/-! ## Register writes -/

theorem testBit_of_lt_two_pow_32 (m j : Nat) (hm : m < 2 ^ 32) (hj : ¬ j < 32) :
    m.testBit j = false :=
  Nat.testBit_lt_two_pow (Nat.lt_of_lt_of_le hm (Nat.pow_le_pow_right (by decide)
    (Nat.le_of_not_lt hj)))

/-- The model of the C expression `val & mask` agrees with the two's-complement bitwise and of
the integers. -/
theorem int_and_u8_eq_land (val : Int) (mask : Nat) (hm : mask < 2 ^ 32) :
    ((int_and_u8 val mask : Nat) : Int) = Int.land val (mask : Int) := by
  unfold int_and_u8
  cases val with
  | ofNat n =>
    show (((Int.ofNat n % 2 ^ 32).toNat &&& mask : Nat) : Int) = ((n &&& mask : Nat) : Int)
    have h1 : (Int.ofNat n % 2 ^ 32).toNat = n % 2 ^ 32 := by
      simp only [Int.ofNat_eq_coe]; omega
    rw [h1]
    refine congrArg (fun x : Nat => (x : Int)) ?_
    apply Nat.eq_of_testBit_eq
    intro j
    rw [Nat.testBit_and, Nat.testBit_and, Nat.testBit_mod_two_pow]
    by_cases hj : j < 32
    · simp [hj]
    · simp [testBit_of_lt_two_pow_32 mask j hm hj]
  | negSucc n =>
    show (((Int.negSucc n % 2 ^ 32).toNat &&& mask : Nat) : Int) = ((Nat.ldiff mask n : Nat) : Int)
    have h1 : (Int.negSucc n % 2 ^ 32).toNat = 2 ^ 32 - (n % 2 ^ 32 + 1) := by
      rw [Int.negSucc_eq]; omega
    rw [h1]
    refine congrArg (fun x : Nat => (x : Int)) ?_
    apply Nat.eq_of_testBit_eq
    intro j
    rw [Nat.testBit_and, Nat.testBit_ldiff,
      Nat.testBit_two_pow_sub_succ (Nat.mod_lt _ (by decide)), Nat.testBit_mod_two_pow]
    by_cases hj : j < 32
    · simp [hj, Bool.and_comm]
    · simp [testBit_of_lt_two_pow_32 mask j hm hj]

theorem int_and_u8_bits (val : Int) (mask j : Nat)
    (h : (int_and_u8 val mask).testBit j = true) : mask.testBit j = true := by
  unfold int_and_u8 at h
  rw [Nat.testBit_and] at h
  simp only [Bool.and_eq_true] at h
  exact h.2

theorem int_and_u8_le (val : Int) (mask : Nat) : int_and_u8 val mask ≤ mask := by
  unfold int_and_u8
  exact Nat.and_le_right

/-- C19: for a register index inside the arrays whose writable mask is not 0xff,
`swc_cpld_register_set` returns `-EINVAL` and leaves the CPLD as it was: the map is not
acquired and nothing is written. -/
theorem swc_cpld_register_set_partial_mask (data : swc_cpld_register_data) (cpld : device)
    (reg : Nat) (val : Int) (hwf : data.wf) (hreg : reg < SWC_CPLD_REGISTER_MAX_OFFSETS)
    (hw : data.writable_masks.getD reg 0 ≠ 0xff) :
    swc_cpld_register_set data cpld reg val = .ok (cpld, -EINVAL) := by
  obtain ⟨-, -, -, -, hwl, -, -, -⟩ := hwf
  have h3 : reg < data.writable_masks.length := by rw [hwl]; exact hreg
  unfold swc_cpld_register_set
  simp only [bind, Except.bind, array_get_of_lt _ _ h3, if_pos hw]

/-- Witness for C19: register 0 of the example front end, whose writable mask is 0. -/
theorem swc_cpld_register_set_partial_mask_witness :
    swc_cpld_register_set register_example hub_fresh 0 0x7f = .ok (hub_fresh, -EINVAL) :=
  swc_cpld_register_set_partial_mask register_example hub_fresh 0 0x7f (by decide)
    (by decide) (by decide)

/-- C20: for a register index inside the arrays whose writable mask is 0xff, with a map
attached and any `int` value, `swc_cpld_register_set` performs exactly one write, to
register `offsets[reg]`, of `val & valid_masks[reg]`; that value is within 0..255, has no
bit outside `valid_masks[reg]`, and the call returns what the write returns. -/
theorem swc_cpld_register_set_full_mask (data : swc_cpld_register_data) (cpld : device)
    (hub : swc_cpld_data) (map : regmap) (reg : Nat) (val : Int) (hwf : data.wf)
    (hreg : reg < SWC_CPLD_REGISTER_MAX_OFFSETS)
    (hu8 : data.valid_masks.getD reg 0 < 256)
    (hw : data.writable_masks.getD reg 0 = 0xff)
    (hd : cpld.drvdata = some hub) (hfree : hub.regmap_mutex = false)
    (hmap : cpld.regmap = some map) :
    ∃ (d : device) (w : Nat),
      ((w : Nat) : Int) = Int.land val ((data.valid_masks.getD reg 0 : Nat) : Int) ∧
      swc_cpld_register_set data cpld reg val =
        .ok (d, map.write (cpld.log ++ [.mutex_lock]) (data.offsets.getD reg 0) w) ∧
      d.log = cpld.log ++
        [.mutex_lock, .regmap_write (data.offsets.getD reg 0) w, .mutex_unlock] ∧
      w < 256 ∧
      ∀ j, w.testBit j = true → (data.valid_masks.getD reg 0).testBit j = true := by
  obtain ⟨ho, hv, -, -, hwl, -, -, -⟩ := hwf
  have h1 : reg < data.offsets.length := by rw [ho]; exact hreg
  have h2 : reg < data.valid_masks.length := by rw [hv]; exact hreg
  have h3 : reg < data.writable_masks.length := by rw [hwl]; exact hreg
  have hcall : ∃ d, swc_cpld_register_set data cpld reg val =
      .ok (d, map.write (cpld.log ++ [.mutex_lock]) (data.offsets.getD reg 0)
        (int_and_u8 val (data.valid_masks.getD reg 0))) ∧
      d.log = cpld.log ++ [.mutex_lock,
        .regmap_write (data.offsets.getD reg 0) (int_and_u8 val (data.valid_masks.getD reg 0)),
        .mutex_unlock] := by
    unfold swc_cpld_register_set
    simp only [bind, Except.bind, array_get_of_lt _ _ h3, hw, ne_eq, not_true_eq_false,
      if_false]
    rw [swc_cpld_get_regmap_some cpld hub map hd hfree hmap]
    simp only [array_get_of_lt _ _ h1, array_get_of_lt _ _ h2, regmap_write,
      swc_cpld_put_regmap, mutex_unlock]
    split
    · exact ⟨_, rfl, by simp⟩
    · rename_i herr
      rw [not_not] at herr
      rw [herr]
      exact ⟨_, rfl, by simp⟩
  obtain ⟨d, hd1, hd2⟩ := hcall
  exact ⟨d, int_and_u8 val (data.valid_masks.getD reg 0),
    int_and_u8_eq_land val _ (Nat.lt_trans hu8 (by decide)), hd1, hd2,
    Nat.lt_of_le_of_lt (int_and_u8_le val _) hu8, fun j hj => int_and_u8_bits val _ j hj⟩

/-- Witness for C20: the value -1 written to register 1 of the example front end. -/
theorem swc_cpld_register_set_full_mask_witness :
    ∃ (d : device) (w : Nat),
      ((w : Nat) : Int) = Int.land (-1) ((register_example.valid_masks.getD 1 0 : Nat) : Int) ∧
      swc_cpld_register_set register_example hub_fresh 1 (-1) =
        .ok (d, regmap_ok.write (hub_fresh.log ++ [.mutex_lock])
          (register_example.offsets.getD 1 0) w) ∧
      d.log = hub_fresh.log ++
        [.mutex_lock, .regmap_write (register_example.offsets.getD 1 0) w, .mutex_unlock] ∧
      w < 256 ∧
      ∀ j, w.testBit j = true → (register_example.valid_masks.getD 1 0).testBit j = true :=
  swc_cpld_register_set_full_mask register_example hub_fresh hub_fresh_data regmap_ok 1 (-1)
    (by decide) (by decide) (by decide) (by decide) rfl rfl rfl

/-! ## Register reads -/

/-- C21: for a register index inside the arrays, `swc_cpld_register_get` returns `-ENODEV`
and stores nothing when no map is attached; with a map attached it reads register
`offsets[reg]` once, and returns 0 storing `r & valid_masks[reg]` when the read succeeds
with value `r`, and returns the error of the read, storing nothing, when it fails. -/
theorem swc_cpld_register_get_spec (data : swc_cpld_register_data) (cpld : device)
    (hub : swc_cpld_data) (reg : Nat) (hwf : data.wf)
    (hreg : reg < SWC_CPLD_REGISTER_MAX_OFFSETS) (hd : cpld.drvdata = some hub)
    (hfree : hub.regmap_mutex = false) :
    (cpld.regmap = none →
      ∃ d, swc_cpld_register_get data cpld reg = .ok (d, -ENODEV, none) ∧
        d.log = cpld.log ++ [.mutex_lock, .mutex_unlock]) ∧
    (∀ map, cpld.regmap = some map →
      ∃ d ret out, swc_cpld_register_get data cpld reg = .ok (d, ret, out) ∧
        d.log = cpld.log ++
          [.mutex_lock, .regmap_read (data.offsets.getD reg 0), .mutex_unlock] ∧
        ((map.read (cpld.log ++ [.mutex_lock]) (data.offsets.getD reg 0)).1 = 0 →
          ret = 0 ∧
          out = some ((map.read (cpld.log ++ [.mutex_lock]) (data.offsets.getD reg 0)).2 &&&
            data.valid_masks.getD reg 0) ∧
          ∀ v j, out = some v → v.testBit j = true →
            (data.valid_masks.getD reg 0).testBit j = true) ∧
        ((map.read (cpld.log ++ [.mutex_lock]) (data.offsets.getD reg 0)).1 ≠ 0 →
          ret = (map.read (cpld.log ++ [.mutex_lock]) (data.offsets.getD reg 0)).1 ∧
          out = none)) := by
  obtain ⟨ho, hv, -, -, -, -, -, -⟩ := hwf
  have h1 : reg < data.offsets.length := by rw [ho]; exact hreg
  have h2 : reg < data.valid_masks.length := by rw [hv]; exact hreg
  constructor
  · intro hm
    unfold swc_cpld_register_get
    rw [swc_cpld_get_regmap_none cpld hub hd hfree hm]
    exact ⟨_, rfl, rfl⟩
  · intro map hm
    unfold swc_cpld_register_get
    rw [swc_cpld_get_regmap_some cpld hub map hd hfree hm]
    simp only [bind, Except.bind, array_get_of_lt _ _ h1, array_get_of_lt _ _ h2, regmap_read,
      swc_cpld_put_regmap, mutex_unlock]
    by_cases herr : (map.read (cpld.log ++ [.mutex_lock]) (data.offsets.getD reg 0)).1 = 0
    · rw [if_neg (not_not.mpr herr)]
      refine ⟨_, _, _, rfl, by simp, fun _ => ⟨rfl, rfl, ?_⟩, fun h => absurd herr h⟩
      intro v j hv1 hj
      have hv2 := Option.some.inj hv1
      rw [← hv2, Nat.testBit_and] at hj
      simp only [Bool.and_eq_true] at hj
      exact hj.2
    · rw [if_pos herr]
      exact ⟨_, _, _, rfl, by simp, fun h => absurd h herr, fun _ => ⟨rfl, rfl⟩⟩

/-- Witness for C21: register 0 of the example front end on the freshly probed hub. -/
theorem swc_cpld_register_get_spec_witness :
    (hub_fresh.regmap = none →
      ∃ d, swc_cpld_register_get register_example hub_fresh 0 = .ok (d, -ENODEV, none) ∧
        d.log = hub_fresh.log ++ [.mutex_lock, .mutex_unlock]) ∧
    (∀ map, hub_fresh.regmap = some map →
      ∃ d ret out, swc_cpld_register_get register_example hub_fresh 0 = .ok (d, ret, out) ∧
        d.log = hub_fresh.log ++
          [.mutex_lock, .regmap_read (register_example.offsets.getD 0 0), .mutex_unlock] ∧
        ((map.read (hub_fresh.log ++ [.mutex_lock])
            (register_example.offsets.getD 0 0)).1 = 0 →
          ret = 0 ∧
          out = some ((map.read (hub_fresh.log ++ [.mutex_lock])
            (register_example.offsets.getD 0 0)).2 &&&
            register_example.valid_masks.getD 0 0) ∧
          ∀ v j, out = some v → v.testBit j = true →
            (register_example.valid_masks.getD 0 0).testBit j = true) ∧
        ((map.read (hub_fresh.log ++ [.mutex_lock])
            (register_example.offsets.getD 0 0)).1 ≠ 0 →
          ret = (map.read (hub_fresh.log ++ [.mutex_lock])
            (register_example.offsets.getD 0 0)).1 ∧
          out = none)) :=
  swc_cpld_register_get_spec register_example hub_fresh hub_fresh_data 0 (by decide)
    (by decide) rfl rfl

/-! ## Name transliteration -/

theorem size_t_pred_of_pos (len : Nat) (h1 : 1 ≤ len) (h2 : len < 2 ^ 64) :
    size_t_pred len = len - 1 := by
  unfold size_t_pred
  omega

theorem swc_fw_util_sysfs_to_property_fits (src : List Char) (len : Nat)
    (hlen : src.length < len) (h64 : len < 2 ^ 64) :
    swc_fw_util_sysfs_to_property src len =
      (src.map (fun c => if c = '_' then '-' else c), src.length) := by
  unfold swc_fw_util_sysfs_to_property
  rw [size_t_pred_of_pos len (by omega) h64]
  have hmin : min src.length (len - 1) = src.length := by omega
  simp only [hmin, List.take_length]

theorem swc_fw_util_property_to_sysfs_fits (src : List Char) (len : Nat)
    (hlen : src.length < len) (h64 : len < 2 ^ 64) :
    swc_fw_util_property_to_sysfs src len =
      (src.map (fun c => if c = '-' then '_' else c), src.length) := by
  unfold swc_fw_util_property_to_sysfs
  rw [size_t_pred_of_pos len (by omega) h64]
  have hmin : min src.length (len - 1) = src.length := by omega
  simp only [hmin, List.take_length]

theorem map_hyphen_underscore (x : List Char) (h : '_' ∉ x) :
    (x.map (fun c => if c = '-' then '_' else c)).map (fun c => if c = '_' then '-' else c) =
      x := by
  rw [List.map_map]
  have hid : x.map ((fun c => if c = '_' then '-' else c) ∘
      (fun c => if c = '-' then '_' else c)) = x.map id := by
    apply List.map_congr_left
    intro c hc
    have hne : c ≠ '_' := fun he => h (he ▸ hc)
    by_cases h1 : c = '-'
    · simp [h1]
    · simp [Function.comp, h1, hne]
  rw [hid, List.map_id]

theorem map_underscore_hyphen (x : List Char) (h : '-' ∉ x) :
    (x.map (fun c => if c = '_' then '-' else c)).map (fun c => if c = '-' then '_' else c) =
      x := by
  rw [List.map_map]
  have hid : x.map ((fun c => if c = '-' then '_' else c) ∘
      (fun c => if c = '_' then '-' else c)) = x.map id := by
    apply List.map_congr_left
    intro c hc
    have hne : c ≠ '-' := fun he => h (he ▸ hc)
    by_cases h1 : c = '_'
    · simp [h1]
    · simp [Function.comp, h1, hne]
  rw [hid, List.map_id]

/-- C22 (as stated, refuted): the name `a-b` consists of alphanumerics and a hyphen and
fits the buffer, but converting it to property style and back to attribute style gives
`a_b`; likewise `a_b` comes back from the other composition as `a-b`. -/
theorem swc_fw_util_round_trip_fails :
    (swc_fw_util_property_to_sysfs
      (swc_fw_util_sysfs_to_property ['a', '-', 'b'] 128).1 128).1 = ['a', '_', 'b'] ∧
    (swc_fw_util_sysfs_to_property
      (swc_fw_util_property_to_sysfs ['a', '_', 'b'] 128).1 128).1 = ['a', '-', 'b'] := by
  decide

/-- C22 (amended): with a destination buffer longer than the name,
`property_to_sysfs (sysfs_to_property x) = x` for every name without a hyphen, and
`sysfs_to_property (property_to_sysfs x) = x` for every name without an underscore. -/
theorem swc_fw_util_round_trip (x : List Char) (len : Nat) (hlen : x.length < len)
    (h64 : len < 2 ^ 64) :
    ('-' ∉ x →
      (swc_fw_util_property_to_sysfs (swc_fw_util_sysfs_to_property x len).1 len).1 = x) ∧
    ('_' ∉ x →
      (swc_fw_util_sysfs_to_property (swc_fw_util_property_to_sysfs x len).1 len).1 = x) := by
  constructor
  · intro h
    rw [swc_fw_util_sysfs_to_property_fits x len hlen h64,
      swc_fw_util_property_to_sysfs_fits _ len (by simpa using hlen) h64]
    exact map_underscore_hyphen x h
  · intro h
    rw [swc_fw_util_property_to_sysfs_fits x len hlen h64,
      swc_fw_util_sysfs_to_property_fits _ len (by simpa using hlen) h64]
    exact map_hyphen_underscore x h

/-- Witness for the amended C22: the attribute name `led_ctl` in a 128-byte buffer. -/
theorem swc_fw_util_round_trip_witness :
    ('-' ∉ led_ctl_attr →
      (swc_fw_util_property_to_sysfs
        (swc_fw_util_sysfs_to_property led_ctl_attr 128).1 128).1 = led_ctl_attr) ∧
    ('_' ∉ led_ctl_attr →
      (swc_fw_util_sysfs_to_property
        (swc_fw_util_property_to_sysfs led_ctl_attr 128).1 128).1 = led_ctl_attr) :=
  swc_fw_util_round_trip led_ctl_attr 128 (by decide) (by decide)

/-- For a destination of at least one byte the copy stays inside it: the value returned is
`min (strlen src) (len - 1)`, one more byte is stored for the NUL, and the string stored is
the prefix of `src` of that length with the characters replaced. -/
theorem swc_fw_util_copy_bounded (src : List Char) (len : Nat) (h1 : 1 ≤ len)
    (h64 : len < 2 ^ 64) :
    (swc_fw_util_sysfs_to_property src len).2 = min src.length (len - 1) ∧
    (swc_fw_util_sysfs_to_property src len).2 + 1 ≤ len ∧
    (swc_fw_util_sysfs_to_property src len).1 =
      (src.take (min src.length (len - 1))).map (fun c => if c = '_' then '-' else c) ∧
    (swc_fw_util_property_to_sysfs src len).2 = min src.length (len - 1) ∧
    (swc_fw_util_property_to_sysfs src len).2 + 1 ≤ len ∧
    (swc_fw_util_property_to_sysfs src len).1 =
      (src.take (min src.length (len - 1))).map (fun c => if c = '-' then '_' else c) := by
  unfold swc_fw_util_sysfs_to_property swc_fw_util_property_to_sysfs
  rw [size_t_pred_of_pos len h1 h64]
  refine ⟨rfl, ?_, rfl, rfl, ?_, rfl⟩ <;> simp only <;> omega

/-- C28 (defect): with `len = 0` the bound `len - 1` wraps to the largest `size_t`, so for the
source `a_b` both functions return 3 and store its three characters and the NUL, four
bytes, into a destination of zero bytes. -/
theorem swc_fw_util_len_zero_overflow :
    size_t_pred 0 = 2 ^ 64 - 1 ∧
    swc_fw_util_sysfs_to_property ['a', '_', 'b'] 0 = (['a', '-', 'b'], 3) ∧
    swc_fw_util_property_to_sysfs ['a', '-', 'b'] 0 = (['a', '_', 'b'], 3) ∧
    ¬ ((swc_fw_util_sysfs_to_property ['a', '_', 'b'] 0).2 + 1 ≤ 0) := by
  decide

/-! ## Errors of `swc_cpld_set_regprops` -/

/-- C27 (as stated, refuted): on a hub whose map cannot be fetched, the call for offset 0x50
returns `-ENODEV`, yet the table entry of 0x50 and the max register have changed. -/
theorem swc_cpld_set_regprops_enodev_not_atomic :
    ∃ d data1, swc_cpld_set_regprops hub_no_map 0x50 3 = .ok (d, -ENODEV) ∧
      d.drvdata = some data1 ∧
      hub_used_data.register_props.getD 0x50 0 = 1 ∧ data1.register_props.getD 0x50 0 = 3 ∧
      hub_used_data.max_reg = 0x40 ∧ data1.max_reg = 0x50 := by
  have hlen : 0x50 < hub_used_data.register_props.length := by
    rw [hub_used_data_wf]; decide
  refine ⟨_, _, swc_cpld_set_regprops_slow hub_no_map hub_used_data 0x50 3 rfl rfl hlen
    (by decide) (fun h => absurd h.2 (by decide)), rfl, ?_, getD_set_self _ _ _ hlen, rfl, rfl⟩
  simp only [hub_used_data, List.getD_eq_getElem?_getD, List.getElem?_replicate]
  decide

/-- C27 (amended): a call on an offset other than 255 returns 0, `-EINVAL` or `-ENODEV`.
When it returns `-EINVAL` the device is as before. When it returns `-ENODEV` no map is
attached and the call has already recorded its arguments: the table entry of the offset
is `props`, the other entries are unchanged and the max register is the larger of the
old one and the offset. -/
theorem swc_cpld_set_regprops_errors (dev : device) (data : swc_cpld_data) (reg props : Nat)
    (hd : dev.drvdata = some data) (hfree : data.regmap_mutex = false) (hwf : data.wf)
    (hreg : reg ≠ SWC_CPLD_REG_MAX) :
    ∃ d r, swc_cpld_set_regprops dev reg props = .ok (d, r) ∧
      (r = 0 ∨ r = -EINVAL ∨ r = -ENODEV) ∧
      (r = -EINVAL → d = dev) ∧
      (r = -ENODEV → dev.regmap.isSome = false ∧
        d.drvdata = some { regmap_mutex := false, max_reg := max data.max_reg reg,
                           register_props := data.register_props.set reg props }) := by
  by_cases hbig : reg > SWC_CPLD_REG_MAX
  · refine ⟨dev, -EINVAL, ?_, Or.inr (Or.inl rfl), fun _ => rfl,
      fun h => absurd h (by decide)⟩
    unfold swc_cpld_set_regprops
    rw [hd]
    simp only [if_pos hbig]
  · have hlt : reg < SWC_CPLD_REG_MAX := by omega
    have hlen : reg < data.register_props.length := by rw [hwf]; exact hlt
    have hmax : reg ≤ SWC_CPLD_REG_MAX := Nat.le_of_lt hlt
    by_cases hfast : props = data.register_props.getD reg 0 ∧ reg < data.max_reg
    · exact ⟨_, _, swc_cpld_set_regprops_fast dev data reg props hd hfree hlen hmax hfast,
        Or.inl rfl, fun h => absurd h (by decide), fun h => absurd h (by decide)⟩
    · have hslow := swc_cpld_set_regprops_slow dev data reg props hd hfree hlen hmax hfast
      cases hm : dev.regmap with
      | none =>
        rw [hm] at hslow
        exact ⟨_, -ENODEV, hslow, Or.inr (Or.inr rfl), fun h => absurd h (by decide),
          fun _ => ⟨rfl, rfl⟩⟩
      | some m =>
        rw [hm] at hslow
        exact ⟨_, 0, hslow, Or.inl rfl, fun h => absurd h (by decide),
          fun h => absurd h (by decide)⟩

/-- Witness for the amended C27: offset 0x50 on the hub whose map cannot be fetched. -/
theorem swc_cpld_set_regprops_errors_witness :
    ∃ d r, swc_cpld_set_regprops hub_no_map 0x50 3 = .ok (d, r) ∧
      (r = 0 ∨ r = -EINVAL ∨ r = -ENODEV) ∧
      (r = -EINVAL → d = hub_no_map) ∧
      (r = -ENODEV → hub_no_map.regmap.isSome = false ∧
        d.drvdata = some { regmap_mutex := false, max_reg := max hub_used_data.max_reg 0x50,
                           register_props := hub_used_data.register_props.set 0x50 3 }) :=
  swc_cpld_set_regprops_errors hub_no_map hub_used_data 0x50 3 rfl rfl hub_used_data_wf
    (by decide)

/-! ## Fan PWM -/

/-- C30 (as stated, refuted): for the range 0..2, state 1 becomes pwm 127, which converts
back to state 0. -/
theorem pwm_round_trip_loses_state :
    state_to_pwm 0 2 1 = 127 ∧ pwm_to_state 0 2 (state_to_pwm 0 2 1) = 0 := by
  decide

/-- C30 (amended): for `0 ≤ min ≤ max`, `1 ≤ max ≤ 255` and `min ≤ s ≤ max`, converting the
state to a pwm value and back yields `s` or `s - 1`; it yields `s` whenever `max` divides
`255 * s` (so for `s = max` and `s = 0`) and whenever `s = min`. -/
theorem pwm_round_trip (min max s : Int) (h0 : 0 ≤ min) (_hmm : min ≤ max) (h1 : 1 ≤ max)
    (h255 : max ≤ 255) (hs1 : min ≤ s) (_hs2 : s ≤ max) :
    (pwm_to_state min max (state_to_pwm min max s) = s ∨
      pwm_to_state min max (state_to_pwm min max s) = s - 1) ∧
    ((255 * s) % max = 0 → pwm_to_state min max (state_to_pwm min max s) = s) ∧
    (s = min → pwm_to_state min max (state_to_pwm min max s) = s) := by
  have hs0 : 0 ≤ s := le_trans h0 hs1
  have hmax0 : 0 < max := by omega
  have hp0 : 0 ≤ (255 * s) / max := Int.ediv_nonneg (by omega) (by omega)
  have hle : (255 * s) / max * max ≤ 255 * s := Int.ediv_mul_le _ (by omega)
  have hgt : 255 * s < ((255 * s) / max + 1) * max := Int.lt_ediv_add_one_mul_self _ hmax0
  have hprod0 : 0 ≤ (255 * s) / max * max := Int.mul_nonneg hp0 (by omega)
  have hstp : state_to_pwm min max s = (255 * s) / max := by
    unfold state_to_pwm
    exact Int.tdiv_eq_ediv (by omega) (by omega)
  have hpts : pwm_to_state min max ((255 * s) / max) =
      if (255 * s) / max * max / 255 < min then min else (255 * s) / max * max / 255 := by
    unfold pwm_to_state
    simp only [Int.tdiv_eq_ediv hprod0 (by decide : (0 : Int) ≤ 255)]
  rw [hstp, hpts]
  have hexp : ((255 * s) / max + 1) * max = (255 * s) / max * max + max := by ring
  rw [hexp] at hgt
  refine ⟨?_, ?_, ?_⟩
  · split <;> omega
  · intro hdiv
    have hexact : (255 * s) / max * max = 255 * s := Int.ediv_mul_cancel (Int.dvd_of_emod_eq_zero hdiv)
    rw [hexact]
    split <;> omega
  · intro hsm
    split <;> omega

/-- Witness for the amended C30: state 50 of the range 10..100. -/
theorem pwm_round_trip_witness :
    (pwm_to_state 10 100 (state_to_pwm 10 100 50) = 50 ∨
      pwm_to_state 10 100 (state_to_pwm 10 100 50) = 50 - 1) ∧
    (((255 : Int) * 50) % 100 = 0 → pwm_to_state 10 100 (state_to_pwm 10 100 50) = 50) ∧
    ((50 : Int) = 10 → pwm_to_state 10 100 (state_to_pwm 10 100 50) = 50) :=
  pwm_round_trip 10 100 50 (by decide) (by decide) (by decide) (by decide) (by decide)
    (by decide)

/-! ## Registration of access properties by the front ends -/

theorem device.ready_step (dev : device) (reg props : Nat) (hready : dev.ready)
    (hreg : reg ≠ SWC_CPLD_REG_MAX) :
    ∃ d r, swc_cpld_set_regprops dev reg props = .ok (d, r) ∧ d.ready ∧
      d.regmap = dev.regmap ∧
      ∀ o, o < SWC_CPLD_REG_MAX → d.entry o = if reg = o then props else dev.entry o := by
  obtain ⟨data, hd, hfree, hwf⟩ := hready
  obtain ⟨d, data1, r, hcall, hd1, hfree1, hwf1, hmap, hent⟩ :=
    swc_cpld_set_regprops_entry dev data reg props hd hfree hwf hreg
  refine ⟨d, r, hcall, ⟨data1, hd1, hfree1, hwf1⟩, hmap, ?_⟩
  intro o ho
  simp only [device.entry, hd1, hd]
  exact hent o ho

theorem swc_cpld_register_regprops_eq (data : swc_cpld_register_data) (hwf : data.wf)
    (i : Nat) (hi : i < SWC_CPLD_REGISTER_MAX_OFFSETS) :
    swc_cpld_register_regprops data i = .ok (register_regprops_value data i) := by
  obtain ⟨-, hv, -, -, hw, hvo, -, -⟩ := hwf
  unfold swc_cpld_register_regprops register_regprops_value
  simp only [bind, Except.bind, array_get_of_lt _ _ (show i < data.valid_masks.length by omega),
    array_get_of_lt _ _ (show i < data.writable_masks.length by omega),
    array_get_of_lt _ _ (show i < data.volatile_masks.length by omega)]

theorem swc_cpld_gpio_regprops_eq (data : swc_cpld_gpio_data) (hwf : data.wf)
    (i : Nat) (hi : i < SWC_CPLD_GPIO_MAX_OFFSETS) :
    swc_cpld_gpio_regprops data i = .ok (gpio_regprops_value data i) := by
  obtain ⟨-, hv, hdm, -⟩ := hwf
  unfold swc_cpld_gpio_regprops gpio_regprops_value
  simp only [bind, Except.bind, array_get_of_lt _ _ (show i < data.valid_masks.length by omega),
    array_get_of_lt _ _ (show i < data.direction_masks.length by omega)]

theorem swc_cpld_set_regprops_seq_cons (dev d : device) (r : Int) (c : Nat × Nat)
    (rest : List (Nat × Nat)) (h : swc_cpld_set_regprops dev c.1 c.2 = .ok (d, r)) :
    swc_cpld_set_regprops_seq dev (c :: rest) = swc_cpld_set_regprops_seq d rest := by
  simp only [swc_cpld_set_regprops_seq, h, bind, Except.bind]


theorem register_calls_succ (data : swc_cpld_register_data) (num k : Nat) :
    register_calls data num (k + 1) =
      (data.offsets.getD num 0, register_regprops_value data num) ::
        register_calls data (num + 1) k := by
  simp [register_calls, List.range'_succ]

theorem swc_cpld_register_probe_loop_spec (env : register_probe_env)
    (data : swc_cpld_register_data) (hwf : data.wf)
    (hoff : ∀ i, i < data.num_offsets → data.offsets.getD i 0 ≠ SWC_CPLD_REG_MAX) :
    ∀ n num (st : register_probe_state), num + n ≤ data.num_offsets → st.cpld.ready →
      ∃ st1 r k, swc_cpld_register_probe_loop env data n num st = .ok (st1, r) ∧
        st1.cpld.ready ∧ st1.cpld.regmap = st.cpld.regmap ∧ k ≤ n ∧
        (r = 0 → k = n) ∧ (r ≠ 0 → 1 ≤ k) ∧
        st1.registered = st.registered ++ register_calls data num k ∧
        swc_cpld_set_regprops_seq st.cpld (register_calls data num k) = .ok st1.cpld := by
  intro n
  induction n with
  | zero =>
    intro num st _ hready
    exact ⟨st, 0, 0, rfl, hready, rfl, Nat.le_refl _, fun _ => rfl,
      fun h => absurd rfl h, by simp [register_calls], rfl⟩
  | succ n ih =>
    intro num st hb hready
    have hn8 : data.num_offsets ≤ SWC_CPLD_REGISTER_MAX_OFFSETS := hwf.2.2.2.2.2.2.1
    have hnum : num < SWC_CPLD_REGISTER_MAX_OFFSETS := by omega
    have ho : num < data.offsets.length := by rw [hwf.1]; exact hnum
    have hnm : num < data.names.length := by rw [hwf.2.2.2.2.2.2.2]; omega
    have hname : names_get data.names num = .ok (data.names.get ⟨num, hnm⟩) := by
      simp [names_get, List.getElem?_eq_getElem hnm]
    obtain ⟨d, r0, hcall, hready1, hmap1, -⟩ :=
      device.ready_step st.cpld (data.offsets.getD num 0) (register_regprops_value data num)
        hready (hoff num (by omega))
    have hseq1 : ∀ rest, swc_cpld_set_regprops_seq st.cpld
        ((data.offsets.getD num 0, register_regprops_value data num) :: rest) =
        swc_cpld_set_regprops_seq d rest :=
      fun rest => swc_cpld_set_regprops_seq_cons st.cpld d r0 _ rest hcall
    rw [swc_cpld_register_probe_loop]
    simp only [bind, Except.bind, swc_cpld_register_regprops_eq data hwf num hnum,
      array_get_of_lt _ _ ho, hcall, hname]
    by_cases hr0 : r0 = 0
    · rw [if_neg (not_not.mpr hr0)]
      by_cases halloc : env.name_alloc_ok num = true
      · rw [if_neg (not_not.mpr halloc)]
        by_cases hcreate : env.sysfs_create_file num = 0
        · simp only [hcreate, ne_eq, not_true_eq_false, if_false]
          obtain ⟨st1, r, k, hloop, hrd, hmp, hk, hr1, hr2, hreg, hseq⟩ :=
            ih (num + 1)
              { cpld := d,
                attrs := st.attrs.set num (some (swc_fw_util_property_to_sysfs
                  (data.names.get ⟨num, hnm⟩) ((data.names.get ⟨num, hnm⟩).length + 1)).1),
                files := st.files ++ [(swc_fw_util_property_to_sysfs
                  (data.names.get ⟨num, hnm⟩) ((data.names.get ⟨num, hnm⟩).length + 1)).1],
                registered := st.registered ++
                  [(data.offsets.getD num 0, register_regprops_value data num)] }
              (by omega) hready1
          refine ⟨st1, r, k + 1, hloop, hrd, hmp.trans hmap1, by omega,
            fun h => by rw [hr1 h], fun _ => by omega, ?_, ?_⟩
          · rw [hreg, register_calls_succ]
            simp
          · rw [register_calls_succ, hseq1]
            exact hseq
        · simp only [ne_eq, hcreate, not_false_eq_true, if_true]
          refine ⟨_, _, 1, rfl, hready1, hmap1, by omega, fun h => absurd h hcreate,
            fun _ => Nat.le_refl _, ?_, ?_⟩
          · simp [register_calls]
          · rw [register_calls_succ, hseq1]
            simp [register_calls, swc_cpld_set_regprops_seq]
      · rw [if_pos halloc]
        refine ⟨_, _, 1, rfl, hready1, hmap1, by omega, fun h => absurd h (by decide),
          fun _ => Nat.le_refl _, ?_, ?_⟩
        · simp [register_calls]
        · rw [register_calls_succ, hseq1]
          simp [register_calls, swc_cpld_set_regprops_seq]
    · rw [if_pos hr0]
      refine ⟨_, _, 1, rfl, hready1, hmap1, by omega, fun h => absurd h hr0,
        fun _ => Nat.le_refl _, ?_, ?_⟩
      · simp [register_calls]
      · rw [register_calls_succ, hseq1]
        simp [register_calls, swc_cpld_set_regprops_seq]

theorem swc_cpld_get_property_n_spec (prop : Option (List Nat)) (arr : List Nat) (num : Nat)
    (h : (swc_cpld_get_property_n prop arr num).1 = 0) :
    ∃ l, prop = some l ∧ num ≤ l.length ∧
      (swc_cpld_get_property_n prop arr num).2 = l.take num ++ arr.drop num := by
  unfold swc_cpld_get_property_n device_property_read_u8_array at h ⊢
  cases prop with
  | none => simp [EINVAL] at h
  | some l =>
    by_cases hl : l.length < num
    · simp [hl, EOVERFLOW] at h
    · exact ⟨l, rfl, by omega, by simp [hl]⟩

theorem swc_cpld_get_property_some (l arr : List Nat) (size : Nat) :
    swc_cpld_get_property (some l) arr size =
      if l.length = 0 then (0, arr)
      else if l.length > size then (-EINVAL, arr)
      else ((l.length : Int), l ++ arr.drop l.length) := by
  unfold swc_cpld_get_property device_property_count_u8 device_property_read_u8_array
  by_cases h0 : l.length = 0
  · simp [h0]
  · have h1 : ¬ ((l.length : Int) < 1) := by omega
    by_cases h2 : l.length > size
    · simp [h0, h1, h2]
    · simp [h0, h1, h2]

theorem swc_cpld_get_property_spec (prop : Option (List Nat)) (arr : List Nat) (size : Nat)
    (h : 0 ≤ (swc_cpld_get_property prop arr size).1) :
    ∃ l, prop = some l ∧ l.length ≤ size ∧
      (swc_cpld_get_property prop arr size).1 = (l.length : Int) ∧
      (swc_cpld_get_property prop arr size).2 = l ++ arr.drop l.length := by
  cases prop with
  | none =>
    simp [swc_cpld_get_property, device_property_count_u8, EINVAL] at h
  | some l =>
    rw [swc_cpld_get_property_some] at h ⊢
    by_cases h0 : l.length = 0
    · have hl : l = [] := List.length_eq_zero.mp h0
      subst hl
      exact ⟨[], rfl, by simp, by simp, by simp⟩
    · by_cases h2 : l.length > size
      · simp [h0, h2, EINVAL] at h
      · exact ⟨l, rfl, by omega, by simp [h0, h2], by simp [h0, h2]⟩

theorem getD_take_append (l arr : List Nat) (num i : Nat) (hi : i < num)
    (hnum : num ≤ l.length) : (l.take num ++ arr.drop num).getD i 0 = l.getD i 0 := by
  have h1 : i < (l.take num).length := by simp; omega
  rw [List.getD_eq_getElem?_getD, List.getElem?_append_left h1, List.getElem?_take_of_lt hi,
    ← List.getD_eq_getElem?_getD]

theorem length_take_append (l arr : List Nat) (num : Nat) (hnum : num ≤ l.length)
    (harr : num ≤ arr.length) : (l.take num ++ arr.drop num).length = arr.length := by
  simp
  omega


/-- The mask of offset index `i` that an optional property yields: its element when the
property is present, the default otherwise. -/
theorem optional_mask_spec (prop : Option (List Nat)) (dflt num : Nat) (e : Int)
    (arr : List Nat) (hnum : num ≤ SWC_CPLD_REGISTER_MAX_OFFSETS)
    (h : (if prop.isSome then
            swc_cpld_get_property_n prop (List.replicate SWC_CPLD_REGISTER_MAX_OFFSETS dflt) num
          else (0, List.replicate SWC_CPLD_REGISTER_MAX_OFFSETS dflt)) = (e, arr))
    (he : e = 0) :
    arr.length = SWC_CPLD_REGISTER_MAX_OFFSETS ∧
    ∀ i, i < num → (prop = none → arr.getD i 0 = dflt) ∧
      (∀ l, prop = some l → arr.getD i 0 = l.getD i 0) := by
  subst he
  cases prop with
  | none =>
    simp only [Option.isSome_none, Bool.false_eq_true, if_false] at h
    have ha := (Prod.mk.inj h).2
    subst ha
    refine ⟨List.length_replicate _ _, ?_⟩
    intro i hi
    refine ⟨fun _ => ?_, fun l hl => Option.noConfusion hl⟩
    simp only [List.getD_eq_getElem?_getD, List.getElem?_replicate]
    rw [if_pos (by omega)]
    rfl
  | some l =>
    simp only [Option.isSome_some, if_true] at h
    have h1 : (swc_cpld_get_property_n (some l)
        (List.replicate SWC_CPLD_REGISTER_MAX_OFFSETS dflt) num).1 = 0 := by rw [h]
    obtain ⟨l1, hl1, hlen, hval⟩ := swc_cpld_get_property_n_spec _ _ _ h1
    have hl : l = l1 := Option.some.inj hl1
    subst hl
    rw [h] at hval
    simp only at hval
    subst hval
    refine ⟨length_take_append _ _ _ hlen (by rw [List.length_replicate]; exact hnum), ?_⟩
    intro i hi
    refine ⟨fun hn => Option.noConfusion hn, fun l2 hl2 => ?_⟩
    have hl3 : l = l2 := Option.some.inj hl2
    subst hl3
    exact getD_take_append _ _ _ _ hi hlen

theorem swc_cpld_register_probe_data_ok (props : register_properties)
    (data : swc_cpld_register_data) (h : swc_cpld_register_probe_data props = (0, data)) :
    data.wf ∧
    ∃ offs valid names, props.offsets = some offs ∧ props.valid_masks = some valid ∧
      props.names = some names ∧ data.num_offsets = offs.length ∧ data.names = names ∧
      ∀ i, i < data.num_offsets →
        data.offsets.getD i 0 = offs.getD i 0 ∧
        data.valid_masks.getD i 0 = valid.getD i 0 ∧
        data.writable_masks.getD i 0 =
          (match props.writable_masks with
           | none => 0
           | some w => w.getD i 0) ∧
        data.volatile_masks.getD i 0 =
          (match props.volatile_masks with
           | none => 0xff
           | some v => v.getD i 0) := by
  unfold swc_cpld_register_probe_data at h
  simp only [swc_cpld_register_data_zero] at h
  rcases hgp : swc_cpld_get_property props.offsets
    (List.replicate SWC_CPLD_REGISTER_MAX_OFFSETS 0) SWC_CPLD_REGISTER_MAX_OFFSETS
    with ⟨num, offsets⟩
  rw [hgp] at h
  simp only at h
  by_cases hneg : num < 0
  · rw [if_pos hneg] at h
    have := (Prod.mk.inj h).1
    omega
  rw [if_neg hneg] at h
  obtain ⟨offs, hoffs, hsize, hnumeq, hoffsets⟩ := swc_cpld_get_property_spec props.offsets
    (List.replicate SWC_CPLD_REGISTER_MAX_OFFSETS 0) SWC_CPLD_REGISTER_MAX_OFFSETS
    (by rw [hgp]; omega)
  rw [hgp] at hnumeq hoffsets
  simp only at hnumeq hoffsets
  subst hnumeq
  simp only [Int.toNat_ofNat] at h
  rcases hvm : swc_cpld_get_property_n props.valid_masks
    (List.replicate SWC_CPLD_REGISTER_MAX_OFFSETS 0) offs.length with ⟨e1, valid_masks⟩
  rw [hvm] at h
  simp only at h
  by_cases he1 : e1 = 0
  swap
  · rw [if_pos he1] at h
    exact absurd (Prod.mk.inj h).1 he1
  rw [if_neg (not_not.mpr he1)] at h
  obtain ⟨valid, hvalid, hvlen, hvval⟩ := swc_cpld_get_property_n_spec props.valid_masks
    (List.replicate SWC_CPLD_REGISTER_MAX_OFFSETS 0) offs.length (by rw [hvm]; exact he1)
  rw [hvm] at hvval
  simp only at hvval
  rcases hrm : (if props.readable_masks.isSome then
      swc_cpld_get_property_n props.readable_masks
        (List.replicate SWC_CPLD_REGISTER_MAX_OFFSETS 0xff) offs.length
    else (0, List.replicate SWC_CPLD_REGISTER_MAX_OFFSETS 0xff)) with ⟨e2, readable_masks⟩
  rw [hrm] at h
  simp only at h
  by_cases he2 : e2 = 0
  swap
  · rw [if_pos he2] at h
    exact absurd (Prod.mk.inj h).1 he2
  rw [if_neg (not_not.mpr he2)] at h
  rcases hwm : (if props.writable_masks.isSome then
      swc_cpld_get_property_n props.writable_masks
        (List.replicate SWC_CPLD_REGISTER_MAX_OFFSETS 0) offs.length
    else (0, List.replicate SWC_CPLD_REGISTER_MAX_OFFSETS 0)) with ⟨e3, writable_masks⟩
  rw [hwm] at h
  simp only at h
  by_cases he3 : e3 = 0
  swap
  · rw [if_pos he3] at h
    exact absurd (Prod.mk.inj h).1 he3
  rw [if_neg (not_not.mpr he3)] at h
  rcases hvol : (if props.volatile_masks.isSome then
      swc_cpld_get_property_n props.volatile_masks
        (List.replicate SWC_CPLD_REGISTER_MAX_OFFSETS 0xff) offs.length
    else (0, List.replicate SWC_CPLD_REGISTER_MAX_OFFSETS 0xff)) with ⟨e4, volatile_masks⟩
  rw [hvol] at h
  simp only at h
  by_cases he4 : e4 = 0
  swap
  · rw [if_pos he4] at h
    exact absurd (Prod.mk.inj h).1 he4
  rw [if_neg (not_not.mpr he4)] at h
  obtain ⟨hrlen, -⟩ := optional_mask_spec props.readable_masks 0xff offs.length e2
    readable_masks hsize hrm he2
  obtain ⟨hwlen, hwval⟩ := optional_mask_spec props.writable_masks 0 offs.length e3
    writable_masks hsize hwm he3
  obtain ⟨hvolen, hvoval⟩ := optional_mask_spec props.volatile_masks 0xff offs.length e4
    volatile_masks hsize hvol he4
  cases hnames : props.names with
  | none =>
    rw [hnames] at h
    exact absurd (Prod.mk.inj h).1 (by decide)
  | some names =>
    rw [hnames] at h
    simp only at h
    by_cases hcount : names.length = offs.length
    swap
    · rw [if_neg hcount] at h
      exact absurd (Prod.mk.inj h).1 (by decide)
    rw [if_pos hcount] at h
    have hdata := (Prod.mk.inj h).2
    subst hdata
    have hrep : (List.replicate SWC_CPLD_REGISTER_MAX_OFFSETS 0).length =
        SWC_CPLD_REGISTER_MAX_OFFSETS := List.length_replicate _ _
    refine ⟨⟨?_, ?_, hrep, hrlen, hwlen, hvolen, hsize, hcount⟩,
      offs, valid, names, hoffs, hvalid, rfl, rfl, rfl, ?_⟩
    · show offsets.length = _
      rw [hoffsets]
      simp only [List.length_append, List.length_drop, hrep]
      omega
    · show valid_masks.length = _
      rw [hvval]
      exact length_take_append _ _ _ hvlen (by rw [hrep]; exact hsize)
    · intro i hi
      refine ⟨?_, ?_, ?_, ?_⟩
      · show offsets.getD i 0 = _
        rw [hoffsets, List.getD_eq_getElem?_getD, List.getElem?_append_left hi,
          ← List.getD_eq_getElem?_getD]
      · show valid_masks.getD i 0 = _
        rw [hvval]
        exact getD_take_append _ _ _ _ hi hvlen
      · show writable_masks.getD i 0 = _
        cases hpw : props.writable_masks with
        | none => exact (hwval i hi).1 hpw
        | some w => exact (hwval i hi).2 w hpw
      · show volatile_masks.getD i 0 = _
        cases hpv : props.volatile_masks with
        | none => exact (hvoval i hi).1 hpv
        | some v => exact (hvoval i hi).2 v hpv

theorem register_regprops_value_bits (data : swc_cpld_register_data) (i : Nat) :
    (register_regprops_value data i &&& SWC_CPLD_READABLE ≠ 0 ↔
      data.valid_masks.getD i 0 ≠ 0) ∧
    (register_regprops_value data i &&& SWC_CPLD_WRITEABLE ≠ 0 ↔
      data.writable_masks.getD i 0 ≠ 0) ∧
    (register_regprops_value data i &&& SWC_CPLD_VOLATILE ≠ 0 ↔
      data.volatile_masks.getD i 0 ≠ 0) := by
  unfold register_regprops_value
  by_cases h1 : data.valid_masks.getD i 0 ≠ 0 <;>
  by_cases h2 : data.writable_masks.getD i 0 ≠ 0 <;>
  by_cases h3 : data.volatile_masks.getD i 0 ≠ 0 <;>
  simp only [if_pos, if_neg, h1, h2, h3, not_true_eq_false, not_false_eq_true, ne_eq] <;>
  decide

theorem register_calls_getElem (data : swc_cpld_register_data) (k i : Nat) (hi : i < k) :
    (register_calls data 0 k)[i]? =
      some (data.offsets.getD i 0, register_regprops_value data i) := by
  unfold register_calls
  rw [List.getElem?_map, List.getElem?_range' 0 1 hi]
  simp

theorem register_calls_length (data : swc_cpld_register_data) (num k : Nat) :
    (register_calls data num k).length = k := by
  simp [register_calls]

theorem swc_cpld_register_probe_body_spec (env : register_probe_env)
    (data : swc_cpld_register_data) (hwf : data.wf)
    (hoff : ∀ i, i < data.num_offsets → data.offsets.getD i 0 ≠ SWC_CPLD_REG_MAX)
    (st : register_probe_state) (hready : st.cpld.ready) :
    ∃ st1 r k, swc_cpld_register_probe_body env data st = .ok (st1, r) ∧
      st1.cpld.ready ∧ k ≤ data.num_offsets ∧
      (r = 0 → k = data.num_offsets) ∧ (r ≠ 0 → 1 ≤ k) ∧
      st1.registered = st.registered ++ register_calls data 0 k ∧
      swc_cpld_set_regprops_seq st.cpld (register_calls data 0 k) = .ok st1.cpld := by
  obtain ⟨st1, r, k, hloop, hrd, -, hk, hr1, hr2, hreg, hseq⟩ :=
    swc_cpld_register_probe_loop_spec env data hwf hoff data.num_offsets 0 st (by omega) hready
  unfold swc_cpld_register_probe_body
  simp only [bind, Except.bind, hloop]
  by_cases hr : r = 0
  · rw [if_pos hr]
    exact ⟨st1, 0, k, rfl, hrd, hk, fun _ => hr1 hr, fun h => absurd rfl h, hreg, hseq⟩
  · rw [if_neg hr]
    exact ⟨_, r, k, rfl, hrd, hk, hr1, hr2, hreg, hseq⟩

theorem swc_cpld_register_probe_spec (env : register_probe_env) (props : register_properties)
    (cpld : device) (files : List (List Char)) (data : swc_cpld_register_data)
    (hready : cpld.ready) (halloc : env.data_alloc_ok = true)
    (hdata : swc_cpld_register_probe_data props = (0, data))
    (hoff : ∀ i, i < data.num_offsets → data.offsets.getD i 0 ≠ SWC_CPLD_REG_MAX) :
    ∃ res st k, swc_cpld_register_probe env props (some cpld) files = .ok res ∧
      res.bound = some (data, st) ∧ st.cpld.ready ∧ k ≤ data.num_offsets ∧
      (res.ret = 0 → k = data.num_offsets) ∧ (res.ret ≠ 0 → 1 ≤ k) ∧
      st.registered = register_calls data 0 k ∧
      swc_cpld_set_regprops_seq cpld st.registered = .ok st.cpld := by
  obtain ⟨hwf, -⟩ := swc_cpld_register_probe_data_ok props data hdata
  obtain ⟨st1, r, k, hbody, hrd, hk, hr1, hr2, hreg, hseq⟩ :=
    swc_cpld_register_probe_body_spec env data hwf hoff
      { cpld := cpld, attrs := List.replicate SWC_CPLD_REGISTER_MAX_OFFSETS none,
        files := files, registered := [] } hready
  unfold swc_cpld_register_probe
  simp only [halloc, not_true_eq_false, if_false, hdata, ne_eq, bind, Except.bind, hbody]
  rw [List.nil_append] at hreg
  refine ⟨_, st1, k, rfl, rfl, hrd, hk, hr1, hr2, hreg, ?_⟩
  rw [hreg]
  exact hseq


theorem hub_fresh_ready : hub_fresh.ready :=
  ⟨hub_fresh_data, rfl, rfl, hub_fresh_data_wf⟩

theorem register_props_example_data :
    swc_cpld_register_probe_data register_props_example = (0, register_example) := by
  decide

theorem mem_of_getD_ne (l : List Nat) (i : Nat) (hi : i < l.length) : l.getD i 0 ∈ l := by
  rw [List.getD_eq_getElem _ _ hi]
  exact List.getElem_mem _

theorem device.ready_step_max (dev : device) (reg props : Nat) (hready : dev.ready)
    (hreg : reg ≠ SWC_CPLD_REG_MAX) :
    ∃ d r, swc_cpld_set_regprops dev reg props = .ok (d, r) ∧
      d.max_reg = if reg > SWC_CPLD_REG_MAX then dev.max_reg else max dev.max_reg reg := by
  obtain ⟨data, hd, hfree, hwf⟩ := hready
  by_cases hbig : reg > SWC_CPLD_REG_MAX
  · refine ⟨dev, -EINVAL, ?_, ?_⟩
    · unfold swc_cpld_set_regprops
      rw [hd]
      simp only [if_pos hbig]
    · rw [if_pos hbig]
  · have hlt : reg < SWC_CPLD_REG_MAX := by omega
    have hlen : reg < data.register_props.length := by rw [hwf]; exact hlt
    rw [if_neg hbig]
    by_cases hfast : props = data.register_props.getD reg 0 ∧ reg < data.max_reg
    · refine ⟨_, _, swc_cpld_set_regprops_fast dev data reg props hd hfree hlen
        (Nat.le_of_lt hlt) hfast, ?_⟩
      simp only [device.max_reg, hd]
      omega
    · refine ⟨_, _, swc_cpld_set_regprops_slow dev data reg props hd hfree hlen
        (Nat.le_of_lt hlt) hfast, ?_⟩
      simp only [device.max_reg, hd]

theorem swc_cpld_set_regprops_seq_entry (calls : List (Nat × Nat)) :
    ∀ dev : device, dev.ready → (∀ c ∈ calls, c.1 ≠ SWC_CPLD_REG_MAX) →
      ∃ d, swc_cpld_set_regprops_seq dev calls = .ok d ∧ d.ready ∧
        d.max_reg = max_reg_after calls dev.max_reg ∧
        ∀ o, o < SWC_CPLD_REG_MAX → d.entry o = last_props calls o (dev.entry o) := by
  induction calls with
  | nil => intro dev hready _; exact ⟨dev, rfl, hready, rfl, fun _ _ => rfl⟩
  | cons c rest ih =>
    intro dev hready hcalls
    have hc := hcalls c (List.mem_cons_self _ _)
    obtain ⟨d1, r, hcall, hready1, -, hent⟩ := device.ready_step dev c.1 c.2 hready hc
    obtain ⟨d1x, rx, hcallx, hmax⟩ := device.ready_step_max dev c.1 c.2 hready hc
    rw [hcall] at hcallx
    obtain ⟨rfl, rfl⟩ : d1 = d1x ∧ r = rx := by
      injection hcallx with h
      exact ⟨congrArg Prod.fst h, congrArg Prod.snd h⟩
    obtain ⟨d2, hseq, hready2, hmax2, hent2⟩ :=
      ih d1 hready1 (fun c1 hc1 => hcalls c1 (List.mem_cons_of_mem _ hc1))
    refine ⟨d2, ?_, hready2, ?_, ?_⟩
    · rw [swc_cpld_set_regprops_seq_cons dev d1 r c rest hcall]
      exact hseq
    · rw [hmax2, hmax]
      simp only [max_reg_after, List.foldl_cons]
    · intro o ho
      rw [hent2 o ho, hent o ho]
      simp only [last_props, List.foldl_cons]

theorem device.ready_step_ret (dev : device) (map : Swc.regmap) (reg props : Nat)
    (hready : dev.ready) (hmap : dev.regmap = some map) (hreg : reg < SWC_CPLD_REG_MAX) :
    ∃ d, swc_cpld_set_regprops dev reg props = .ok (d, 0) := by
  obtain ⟨data, hd, hfree, hwf⟩ := hready
  have hlen : reg < data.register_props.length := by rw [hwf]; exact hreg
  by_cases hfast : props = data.register_props.getD reg 0 ∧ reg < data.max_reg
  · exact ⟨_, swc_cpld_set_regprops_fast dev data reg props hd hfree hlen
      (Nat.le_of_lt hreg) hfast⟩
  · have h := swc_cpld_set_regprops_slow dev data reg props hd hfree hlen
      (Nat.le_of_lt hreg) hfast
    rw [hmap] at h
    exact ⟨_, h⟩

theorem last_props_no_match (calls : List (Nat × Nat)) (o : Nat)
    (h : ∀ c ∈ calls, c.1 ≠ o) : ∀ init, last_props calls o init = init := by
  induction calls with
  | nil => intro init; rfl
  | cons c rest ih =>
    intro init
    simp only [last_props, List.foldl_cons, if_neg (h c (List.mem_cons_self _ _))]
    exact ih (fun c1 hc1 => h c1 (List.mem_cons_of_mem _ hc1)) init

theorem last_props_of_last (calls : List (Nat × Nat)) (o p : Nat) :
    ∀ (i init : Nat), calls[i]? = some (o, p) →
      (∀ (j : Nat) (c : Nat × Nat), i < j → calls[j]? = some c → c.1 ≠ o) →
      last_props calls o init = p := by
  induction calls with
  | nil => intro i init h _; simp at h
  | cons c rest ih =>
    intro i init hget hlater
    cases i with
    | zero =>
      have hc : c = (o, p) := by simpa using hget
      subst hc
      simp only [last_props, List.foldl_cons, if_true]
      apply last_props_no_match
      intro c1 hc1
      obtain ⟨j, hj⟩ := List.mem_iff_getElem?.mp hc1
      exact hlater (j + 1) c1 (by omega) (by simpa using hj)
    | succ i =>
      simp only [last_props, List.foldl_cons]
      exact ih i _ (by simpa using hget)
        (fun j c1 hij hj => hlater (j + 1) c1 (by omega) (by simpa using hj))

theorem last_props_mem (calls : List (Nat × Nat)) (o : Nat) :
    ∀ init, (∃ c ∈ calls, c.1 = o) → ∃ c ∈ calls, c.1 = o ∧ last_props calls o init = c.2 := by
  induction calls using List.reverseRecOn with
  | nil => intro init ⟨c, hc, _⟩; exact absurd hc (List.not_mem_nil c)
  | append_singleton l a ih =>
    intro init ⟨c, hc, hco⟩
    by_cases ha : a.1 = o
    · refine ⟨a, by simp, ha, ?_⟩
      simp only [last_props, List.foldl_append, List.foldl_cons, List.foldl_nil, if_pos ha]
    · have hcl : c ∈ l := by
        rcases List.mem_append.mp hc with h | h
        · exact h
        · rw [List.mem_singleton] at h
          rw [h] at hco
          exact absurd hco ha
      obtain ⟨c1, hc1, hc1o, hlast⟩ := ih init ⟨c, hcl, hco⟩
      refine ⟨c1, List.mem_append_left _ hc1, hc1o, ?_⟩
      simp only [last_props, List.foldl_append, List.foldl_cons, List.foldl_nil, if_neg ha]
      exact hlast

theorem device.entry_reg_has (dev : device) (hready : dev.ready) (reg flag : Nat)
    (hreg : reg < SWC_CPLD_REG_MAX) :
    swc_cpld_reg_has dev reg flag = .ok (decide (dev.entry reg &&& flag ≠ 0)) := by
  obtain ⟨data, hd, -, hwf⟩ := hready
  rw [swc_cpld_reg_has_of_lt dev data reg flag hd (by rw [hwf]; exact hreg)
    (Nat.le_of_lt hreg)]
  simp only [device.entry, hd]

theorem swc_cpld_register_probe_data_offsets (props : register_properties)
    (data : swc_cpld_register_data)
    (hdata : swc_cpld_register_probe_data props = (0, data))
    (hoff : ∀ offs, props.offsets = some offs → SWC_CPLD_REG_MAX ∉ offs) :
    ∀ i, i < data.num_offsets → data.offsets.getD i 0 ≠ SWC_CPLD_REG_MAX := by
  obtain ⟨-, offs, valid, names, hoffs, -, -, hnum, -, hfields⟩ :=
    swc_cpld_register_probe_data_ok props data hdata
  intro i hi heq
  rw [(hfields i hi).1] at heq
  exact hoff offs hoffs (heq ▸ mem_of_getD_ne offs i (by omega))

theorem register_calls_offset_ne (data : swc_cpld_register_data) (k : Nat)
    (hk : k ≤ data.num_offsets)
    (hoff : ∀ i, i < data.num_offsets → data.offsets.getD i 0 ≠ SWC_CPLD_REG_MAX) :
    ∀ c ∈ register_calls data 0 k, c.1 ≠ SWC_CPLD_REG_MAX := by
  intro c hc
  simp only [register_calls, List.mem_map, List.mem_range'_1] at hc
  obtain ⟨i, ⟨-, hi⟩, rfl⟩ := hc
  exact hoff i (by omega)

theorem register_calls_getElem_ge (data : swc_cpld_register_data) (k i : Nat) (hi : k ≤ i) :
    (register_calls data 0 k)[i]? = none := by
  apply List.getElem?_eq_none
  simp [register_calls, hi]

theorem swc_cpld_register_probe_loop_ok (env : register_probe_env)
    (data : swc_cpld_register_data) (hwf : data.wf) (map : regmap)
    (hnames : ∀ i, env.name_alloc_ok i = true) (hsysfs : ∀ i, env.sysfs_create_file i = 0)
    (hoff : ∀ i, i < data.num_offsets → data.offsets.getD i 0 < SWC_CPLD_REG_MAX) :
    ∀ n num (st : register_probe_state), num + n ≤ data.num_offsets → st.cpld.ready →
      st.cpld.regmap = some map →
      ∃ st1, swc_cpld_register_probe_loop env data n num st = .ok (st1, 0) := by
  intro n
  induction n with
  | zero => intro num st _ _ _; exact ⟨st, rfl⟩
  | succ n ih =>
    intro num st hb hready hmap
    have hn8 : data.num_offsets ≤ SWC_CPLD_REGISTER_MAX_OFFSETS := hwf.2.2.2.2.2.2.1
    have hnum : num < SWC_CPLD_REGISTER_MAX_OFFSETS := by omega
    have ho : num < data.offsets.length := by rw [hwf.1]; exact hnum
    have hnm : num < data.names.length := by rw [hwf.2.2.2.2.2.2.2]; omega
    have hname : names_get data.names num = .ok (data.names.get ⟨num, hnm⟩) := by
      simp [names_get, List.getElem?_eq_getElem hnm]
    have hlt := hoff num (by omega)
    obtain ⟨d, r0, hcall, hready1, hmap1, -⟩ :=
      device.ready_step st.cpld (data.offsets.getD num 0) (register_regprops_value data num)
        hready (Nat.ne_of_lt hlt)
    obtain ⟨d0, hcall0⟩ := device.ready_step_ret st.cpld map (data.offsets.getD num 0)
      (register_regprops_value data num) hready hmap hlt
    rw [hcall] at hcall0
    obtain ⟨rfl, rfl⟩ : d = d0 ∧ r0 = 0 := by
      injection hcall0 with h
      exact ⟨congrArg Prod.fst h, congrArg Prod.snd h⟩
    rw [swc_cpld_register_probe_loop]
    simp only [bind, Except.bind, swc_cpld_register_regprops_eq data hwf num hnum,
      array_get_of_lt _ _ ho, hcall, hname, ne_eq, not_true_eq_false, if_false, hnames num,
      hsysfs num]
    exact ih (num + 1) _ (by omega) hready1 (hmap1.trans hmap)

theorem swc_cpld_register_probe_ok (env : register_probe_env) (props : register_properties)
    (cpld : device) (files : List (List Char)) (data : swc_cpld_register_data)
    (map : regmap) (hready : cpld.ready) (hmap : cpld.regmap = some map)
    (halloc : env.data_alloc_ok = true)
    (hnames : ∀ i, env.name_alloc_ok i = true) (hsysfs : ∀ i, env.sysfs_create_file i = 0)
    (hdata : swc_cpld_register_probe_data props = (0, data))
    (hoff : ∀ i, i < data.num_offsets → data.offsets.getD i 0 < SWC_CPLD_REG_MAX) :
    ∃ st, swc_cpld_register_probe env props (some cpld) files =
      .ok { ret := 0, bound := some (data, st) } := by
  obtain ⟨hwf, -⟩ := swc_cpld_register_probe_data_ok props data hdata
  obtain ⟨st1, hloop⟩ := swc_cpld_register_probe_loop_ok env data hwf map hnames hsysfs hoff
    data.num_offsets 0
    { cpld := cpld, attrs := List.replicate SWC_CPLD_REGISTER_MAX_OFFSETS none,
      files := files, registered := [] } (by omega) hready hmap
  have hbody : swc_cpld_register_probe_body env data
      { cpld := cpld, attrs := List.replicate SWC_CPLD_REGISTER_MAX_OFFSETS none,
        files := files, registered := [] } = .ok (st1, 0) := by
    unfold swc_cpld_register_probe_body
    simp only [bind, Except.bind, hloop, if_true]
  unfold swc_cpld_register_probe
  simp only [halloc, not_true_eq_false, if_false, hdata, ne_eq, bind, Except.bind, hbody]
  exact ⟨st1, rfl⟩

/-- C23: for a register device whose properties are accepted (offsets below 255), probed
on a ready hub with its map attached while every allocation and every sysfs call succeeds,
`swc_cpld_register_probe` returns 0 after it has called `swc_cpld_set_regprops` once for
every offset index in turn: the hub afterwards is the hub after these calls, and the call
of index `i` is on `offsets[i]` with Readable set iff `valid_masks[i] ≠ 0`, Writable set
iff the writable mask is not 0 and Volatile set iff the volatile mask is not 0, where an
absent `writable-masks` property gives the mask 0 and an absent `volatile-masks` property
gives 0xff; with neither property present an offset with a non-zero valid mask is
registered as Readable and Volatile only. Where no later index has the same offset, the
entry of the hub afterwards is the props of index `i` and the three predicates of the hub
answer by the three masks. -/
theorem swc_cpld_register_probe_regprops (env : register_probe_env)
    (props : register_properties) (cpld : device) (files : List (List Char))
    (data : swc_cpld_register_data) (map : regmap) (hready : cpld.ready)
    (hmap : cpld.regmap = some map) (halloc : env.data_alloc_ok = true)
    (hnames : ∀ i, env.name_alloc_ok i = true) (hsysfs : ∀ i, env.sysfs_create_file i = 0)
    (hdata : swc_cpld_register_probe_data props = (0, data))
    (hoff : ∀ offs, props.offsets = some offs → ∀ o ∈ offs, o < SWC_CPLD_REG_MAX) :
    ∃ res st offs valid,
      swc_cpld_register_probe env props (some cpld) files = .ok res ∧
      res.ret = 0 ∧ res.bound = some (data, st) ∧
      props.offsets = some offs ∧ props.valid_masks = some valid ∧
      st.registered.length = offs.length ∧
      swc_cpld_set_regprops_seq cpld st.registered = .ok st.cpld ∧
      ∀ i, i < offs.length →
        ∃ p, st.registered[i]? = some (offs.getD i 0, p) ∧
          (p &&& SWC_CPLD_READABLE ≠ 0 ↔ valid.getD i 0 ≠ 0) ∧
          (p &&& SWC_CPLD_WRITEABLE ≠ 0 ↔
            (match props.writable_masks with
             | none => 0
             | some w => w.getD i 0) ≠ 0) ∧
          (p &&& SWC_CPLD_VOLATILE ≠ 0 ↔
            (match props.volatile_masks with
             | none => 0xff
             | some v => v.getD i 0) ≠ 0) ∧
          (props.writable_masks = none → props.volatile_masks = none →
            valid.getD i 0 ≠ 0 → p = SWC_CPLD_READABLE ||| SWC_CPLD_VOLATILE) ∧
          ((∀ j, i < j → j < offs.length → offs.getD j 0 ≠ offs.getD i 0) →
            st.cpld.entry (offs.getD i 0) = p ∧
            swc_cpld_readable_reg st.cpld (offs.getD i 0) =
              .ok (decide (valid.getD i 0 ≠ 0)) ∧
            swc_cpld_writeable_reg st.cpld (offs.getD i 0) =
              .ok (decide ((match props.writable_masks with
                | none => 0
                | some w => w.getD i 0) ≠ 0)) ∧
            swc_cpld_volatile_reg st.cpld (offs.getD i 0) =
              .ok (decide ((match props.volatile_masks with
                | none => 0xff
                | some v => v.getD i 0) ≠ 0))) := by
  obtain ⟨hwf, offs, valid, names, hoffs, hvalid, -, hnum, -, hfields⟩ :=
    swc_cpld_register_probe_data_ok props data hdata
  have hoff2 : ∀ i, i < data.num_offsets → data.offsets.getD i 0 < SWC_CPLD_REG_MAX := by
    intro i hi
    rw [(hfields i hi).1]
    exact hoff offs hoffs _ (mem_of_getD_ne offs i (by omega))
  have hoff1 : ∀ i, i < data.num_offsets → data.offsets.getD i 0 ≠ SWC_CPLD_REG_MAX :=
    fun i hi => Nat.ne_of_lt (hoff2 i hi)
  obtain ⟨res, st, k, hprobe, hbound, hrd, hk, hr1, -, hreg, hseq⟩ :=
    swc_cpld_register_probe_spec env props cpld files data hready halloc hdata hoff1
  obtain ⟨st0, hprobe0⟩ := swc_cpld_register_probe_ok env props cpld files data map hready
    hmap halloc hnames hsysfs hdata hoff2
  rw [hprobe] at hprobe0
  have hres : res = { ret := 0, bound := some (data, st0) } := by injection hprobe0
  have hret : res.ret = 0 := by rw [hres]
  have hkn : k = data.num_offsets := hr1 hret
  subst hkn
  obtain ⟨d, hseq1, -, -, hent⟩ := swc_cpld_set_regprops_seq_entry st.registered cpld hready
    (by rw [hreg]; exact register_calls_offset_ne data _ (Nat.le_refl _) hoff1)
  rw [hseq] at hseq1
  have hd : st.cpld = d := by injection hseq1
  rw [← hd] at hent
  refine ⟨res, st, offs, valid, hprobe, hret, hbound, hoffs, hvalid,
    by rw [hreg, register_calls_length, hnum], hseq, ?_⟩
  intro i hi
  rw [← hnum] at hi
  obtain ⟨hfo, hfv, hfw, hfvo⟩ := hfields i hi
  obtain ⟨hb1, hb2, hb3⟩ := register_regprops_value_bits data i
  have hget := register_calls_getElem data data.num_offsets i hi
  have holt := hoff2 i hi
  rw [hfv] at hb1
  rw [hfw] at hb2
  rw [hfvo] at hb3
  refine ⟨register_regprops_value data i, ?_, hb1, hb2, hb3, ?_, ?_⟩
  · rw [hreg, hget, hfo]
  · intro hw hv hne
    rw [hw] at hfw
    rw [hv] at hfvo
    rw [← hfv] at hne
    unfold register_regprops_value
    simp only [hfw, hfvo, ne_eq, not_true_eq_false, if_false, if_pos hne]
    decide
  · intro hlast
    rw [← hfo]
    have hentry : st.cpld.entry (data.offsets.getD i 0) = register_regprops_value data i := by
      rw [hent _ holt, hreg]
      apply last_props_of_last _ _ _ i _ hget
      intro j c hij hj
      by_cases hjn : j < data.num_offsets
      · rw [register_calls_getElem data data.num_offsets j hjn] at hj
        rw [← Option.some.inj hj]
        show data.offsets.getD j 0 ≠ data.offsets.getD i 0
        rw [(hfields j hjn).1, hfo]
        exact hlast j hij (by omega)
      · rw [register_calls_getElem_ge data data.num_offsets j (by omega)] at hj
        exact absurd hj (by simp)
    refine ⟨hentry, ?_, ?_, ?_⟩
    · unfold swc_cpld_readable_reg
      rw [device.entry_reg_has st.cpld hrd _ _ holt, hentry]
      exact congrArg Except.ok (decide_eq_decide.mpr hb1)
    · unfold swc_cpld_writeable_reg
      rw [device.entry_reg_has st.cpld hrd _ _ holt, hentry]
      exact congrArg Except.ok (decide_eq_decide.mpr hb2)
    · unfold swc_cpld_volatile_reg
      rw [device.entry_reg_has st.cpld hrd _ _ holt, hentry]
      exact congrArg Except.ok (decide_eq_decide.mpr hb3)

/-- Witness for C23: the example register device on the freshly probed hub. -/
theorem swc_cpld_register_probe_regprops_witness :
    ∃ res st offs valid,
      swc_cpld_register_probe probe_env_ok register_props_example (some hub_fresh) [] =
        .ok res ∧
      res.ret = 0 ∧ res.bound = some (register_example, st) ∧
      register_props_example.offsets = some offs ∧
      register_props_example.valid_masks = some valid ∧
      st.registered.length = offs.length ∧
      swc_cpld_set_regprops_seq hub_fresh st.registered = .ok st.cpld ∧
      ∀ i, i < offs.length →
        ∃ p, st.registered[i]? = some (offs.getD i 0, p) ∧
          (p &&& SWC_CPLD_READABLE ≠ 0 ↔ valid.getD i 0 ≠ 0) ∧
          (p &&& SWC_CPLD_WRITEABLE ≠ 0 ↔
            (match register_props_example.writable_masks with
             | none => 0
             | some w => w.getD i 0) ≠ 0) ∧
          (p &&& SWC_CPLD_VOLATILE ≠ 0 ↔
            (match register_props_example.volatile_masks with
             | none => 0xff
             | some v => v.getD i 0) ≠ 0) ∧
          (register_props_example.writable_masks = none →
            register_props_example.volatile_masks = none →
            valid.getD i 0 ≠ 0 → p = SWC_CPLD_READABLE ||| SWC_CPLD_VOLATILE) ∧
          ((∀ j, i < j → j < offs.length → offs.getD j 0 ≠ offs.getD i 0) →
            st.cpld.entry (offs.getD i 0) = p ∧
            swc_cpld_readable_reg st.cpld (offs.getD i 0) =
              .ok (decide (valid.getD i 0 ≠ 0)) ∧
            swc_cpld_writeable_reg st.cpld (offs.getD i 0) =
              .ok (decide ((match register_props_example.writable_masks with
                | none => 0
                | some w => w.getD i 0) ≠ 0)) ∧
            swc_cpld_volatile_reg st.cpld (offs.getD i 0) =
              .ok (decide ((match register_props_example.volatile_masks with
                | none => 0xff
                | some v => v.getD i 0) ≠ 0))) :=
  swc_cpld_register_probe_regprops probe_env_ok register_props_example hub_fresh []
    register_example regmap_ok hub_fresh_ready rfl rfl (fun _ => rfl) (fun _ => rfl)
    register_props_example_data (by decide)

theorem getD_set_attr (l : List (Option (List Char))) (i j : Nat) (x : Option (List Char)) :
    (l.set i x).getD j none = if i = j ∧ i < l.length then x else l.getD j none := by
  simp only [List.getD_eq_getElem?_getD, List.getElem?_set]
  by_cases hij : i = j
  · subst hij
    by_cases hl : i < l.length
    · simp [hl]
    · simp [hl, List.getElem?_eq_none (Nat.le_of_not_lt hl)]
  · simp [hij]

theorem register_attr_names_succ (data : swc_cpld_register_data) (num m : Nat) :
    register_attr_names data num (m + 1) =
      register_attr_name data num :: register_attr_names data (num + 1) m := by
  simp [register_attr_names, List.range'_succ]

theorem swc_cpld_register_probe_loop_files (env : register_probe_env)
    (data : swc_cpld_register_data) (hwf : data.wf)
    (hoff : ∀ i, i < data.num_offsets → data.offsets.getD i 0 ≠ SWC_CPLD_REG_MAX) :
    ∀ n num (st : register_probe_state), num + n ≤ data.num_offsets → st.cpld.ready →
      st.attrs.length = SWC_CPLD_REGISTER_MAX_OFFSETS →
      (∀ j, num ≤ j → st.attrs.getD j none = none) →
      ∃ st1 r m, swc_cpld_register_probe_loop env data n num st = .ok (st1, r) ∧
        m ≤ n ∧ (r = 0 → m = n) ∧ (r ≠ 0 → m < n) ∧
        st1.files = st.files ++ register_attr_names data num m ∧
        st1.attrs.length = SWC_CPLD_REGISTER_MAX_OFFSETS ∧
        (∀ j, j < num → st1.attrs.getD j none = st.attrs.getD j none) ∧
        (∀ j, num ≤ j → j < num + m →
          st1.attrs.getD j none = some (register_attr_name data j)) ∧
        (∀ j, num + m ≤ j → st1.attrs.getD j none = none) := by
  intro n
  induction n with
  | zero =>
    intro num st _ _ hlen hnone
    exact ⟨st, 0, 0, rfl, Nat.le_refl _, fun _ => rfl, fun h => absurd rfl h,
      by simp [register_attr_names], hlen, fun _ _ => rfl, fun j h1 h2 => by omega,
      fun j hj => hnone j (by omega)⟩
  | succ n ih =>
    intro num st hb hready hlen hnone
    have hn8 : data.num_offsets ≤ SWC_CPLD_REGISTER_MAX_OFFSETS := hwf.2.2.2.2.2.2.1
    have hnum : num < SWC_CPLD_REGISTER_MAX_OFFSETS := by omega
    have ho : num < data.offsets.length := by rw [hwf.1]; exact hnum
    have hnm : num < data.names.length := by rw [hwf.2.2.2.2.2.2.2]; omega
    have hname : names_get data.names num = .ok (data.names.getD num []) := by
      simp [names_get, List.getElem?_eq_getElem hnm, List.getD_eq_getElem _ _ hnm]
    have hnl : num < st.attrs.length := by rw [hlen]; exact hnum
    obtain ⟨d, r0, hcall, hready1, -, -⟩ :=
      device.ready_step st.cpld (data.offsets.getD num 0) (register_regprops_value data num)
        hready (hoff num (by omega))
    rw [swc_cpld_register_probe_loop]
    simp only [bind, Except.bind, swc_cpld_register_regprops_eq data hwf num hnum,
      array_get_of_lt _ _ ho, hcall, hname]
    by_cases hr0 : r0 = 0
    · rw [if_neg (not_not.mpr hr0)]
      by_cases halloc : env.name_alloc_ok num = true
      · rw [if_neg (not_not.mpr halloc)]
        by_cases hcreate : env.sysfs_create_file num = 0
        · simp only [hcreate, ne_eq, not_true_eq_false, if_false]
          obtain ⟨st1, r, m, hloop, hm, hr1, hr2, hfiles, hlen1, hlow, hmid, hhigh⟩ :=
            ih (num + 1)
              { cpld := d,
                attrs := st.attrs.set num (some (register_attr_name data num)),
                files := st.files ++ [register_attr_name data num],
                registered := st.registered ++
                  [(data.offsets.getD num 0, register_regprops_value data num)] }
              (by omega) hready1 (by simpa using hlen)
              (fun j hj => by
                show (st.attrs.set num (some (register_attr_name data num))).getD j none = none
                rw [getD_set_attr, if_neg (by omega)]
                exact hnone j (by omega))
          refine ⟨st1, r, m + 1, hloop, by omega, fun h => by rw [hr1 h],
            fun h => by have := hr2 h; omega, ?_, hlen1, ?_, ?_, ?_⟩
          · rw [hfiles, register_attr_names_succ]
            simp
          · intro j hj
            rw [hlow j (by omega)]
            show (st.attrs.set num (some (register_attr_name data num))).getD j none = _
            rw [getD_set_attr, if_neg (by omega)]
          · intro j h1 h2
            by_cases hj : j = num
            · subst hj
              rw [hlow j (by omega)]
              show (st.attrs.set j (some (register_attr_name data j))).getD j none = _
              rw [getD_set_attr, if_pos ⟨rfl, hnl⟩]
            · exact hmid j (by omega) (by omega)
          · intro j hj
            exact hhigh j (by omega)
        · simp only [ne_eq, hcreate, not_false_eq_true, if_true]
          refine ⟨_, _, 0, rfl, by omega, fun h => absurd h hcreate, fun _ => by omega,
            by simp [register_attr_names], by simpa using hlen, ?_, fun j h1 h2 => by omega,
            ?_⟩
          · intro j hj
            show ((st.attrs.set num (some (register_attr_name data num))).set num none).getD
              j none = _
            rw [getD_set_attr, if_neg (by omega), getD_set_attr, if_neg (by omega)]
          · intro j hj
            show ((st.attrs.set num (some (register_attr_name data num))).set num none).getD
              j none = _
            rw [getD_set_attr]
            by_cases hjn : num = j
            · rw [if_pos ⟨hjn, by simpa using hnl⟩]
            · rw [if_neg (fun h => hjn h.1), getD_set_attr, if_neg (fun h => hjn h.1)]
              exact hnone j (by omega)
      · rw [if_pos halloc]
        exact ⟨_, _, 0, rfl, by omega, fun h => absurd h (by decide), fun _ => by omega,
          by simp [register_attr_names], hlen, fun _ _ => rfl, fun j h1 h2 => by omega,
          fun j hj => hnone j (by omega)⟩
    · rw [if_pos hr0]
      exact ⟨_, _, 0, rfl, by omega, fun h => absurd h hr0, fun _ => by omega,
        by simp [register_attr_names], hlen, fun _ _ => rfl, fun j h1 h2 => by omega,
        fun j hj => hnone j (by omega)⟩

theorem swc_cpld_register_probe_fail_attrs_spec (attrs : List (Option (List Char)))
    (nm : Nat → List Char) (files0 : List (List Char)) :
    ∀ m n num, m ≤ n →
      (∀ j, num ≤ j → j < num + m → attrs.getD j none = some (nm j)) →
      (m < n → attrs.getD (num + m) none = none) →
      (∀ j, num ≤ j → j < num + m → nm j ∉ files0) →
      swc_cpld_register_probe_fail_attrs attrs n num
        (files0 ++ (List.range' num m).map nm) = files0 := by
  intro m
  induction m with
  | zero =>
    intro n num _ _ hstop _
    cases n with
    | zero => simp [swc_cpld_register_probe_fail_attrs]
    | succ n =>
      have h := hstop (by omega)
      rw [Nat.add_zero] at h
      rw [swc_cpld_register_probe_fail_attrs, h]
      simp
  | succ m ih =>
    intro n num hmn hsome hstop hfresh
    cases n with
    | zero => omega
    | succ n =>
      rw [swc_cpld_register_probe_fail_attrs, hsome num (Nat.le_refl _) (by omega)]
      simp only
      have herase : (files0 ++ (List.range' num (m + 1)).map nm).erase (nm num) =
          files0 ++ (List.range' (num + 1) m).map nm := by
        rw [List.erase_append_right _ (hfresh num (Nat.le_refl _) (by omega))]
        simp [List.range'_succ]
      rw [herase]
      exact ih n (num + 1) (by omega) (fun j h1 h2 => hsome j (by omega) (by omega))
        (fun h => by
          have := hstop (by omega)
          rw [show num + 1 + m = num + (m + 1) by omega]
          exact this)
        (fun j h1 h2 => hfresh j (by omega) (by omega))

theorem swc_cpld_register_probe_files (env : register_probe_env)
    (props : register_properties) (cpld : device) (files : List (List Char))
    (data : swc_cpld_register_data) (hready : cpld.ready)
    (halloc : env.data_alloc_ok = true)
    (hdata : swc_cpld_register_probe_data props = (0, data))
    (hoff : ∀ i, i < data.num_offsets → data.offsets.getD i 0 ≠ SWC_CPLD_REG_MAX)
    (hfresh : ∀ j, j < data.num_offsets → register_attr_name data j ∉ files) :
    ∃ st r, swc_cpld_register_probe env props (some cpld) files =
        .ok { ret := r, bound := some (data, st) } ∧
      (r ≠ 0 → st.files = files) ∧
      (r = 0 → st.files = files ++ register_attr_names data 0 data.num_offsets) := by
  obtain ⟨hwf, -⟩ := swc_cpld_register_probe_data_ok props data hdata
  obtain ⟨st1, r, m, hloop, hm, hr1, hr2, hfiles, -, -, hmid, hhigh⟩ :=
    swc_cpld_register_probe_loop_files env data hwf hoff data.num_offsets 0
      { cpld := cpld, attrs := List.replicate SWC_CPLD_REGISTER_MAX_OFFSETS none,
        files := files, registered := [] } (by omega) hready (List.length_replicate _ _)
      (fun j _ => by
        simp only [List.getD_eq_getElem?_getD, List.getElem?_replicate]
        split <;> rfl)
  simp only at hfiles
  unfold swc_cpld_register_probe
  simp only [halloc, not_true_eq_false, if_false, hdata, ne_eq, bind, Except.bind]
  unfold swc_cpld_register_probe_body
  simp only [bind, Except.bind, hloop]
  by_cases hr : r = 0
  · rw [if_pos hr]
    refine ⟨st1, 0, rfl, fun h => absurd rfl h, fun _ => ?_⟩
    rw [hfiles, hr1 hr]
  · rw [if_neg hr]
    refine ⟨_, r, rfl, fun _ => ?_, fun h => absurd h hr⟩
    show swc_cpld_register_probe_fail_attrs st1.attrs data.num_offsets 0 st1.files = files
    rw [hfiles]
    exact swc_cpld_register_probe_fail_attrs_spec st1.attrs (register_attr_name data) files
      m data.num_offsets 0 hm (fun j h1 h2 => hmid j h1 h2)
      (fun _ => hhigh (0 + m) (Nat.le_refl _))
      (fun j _ h2 => hfresh j (by omega))

set_option maxRecDepth 8192 in
theorem swc_cpld_register_probe_no_names :
    swc_cpld_register_probe probe_env_no_names register_props_example (some hub_fresh) [] =
      .ok { ret := -ENOMEM, bound := some (register_example, register_probe_no_names_state) } := by
  have hlen : 0x30 < hub_fresh_data.register_props.length := by
    rw [hub_fresh_data_wf]; decide
  have hcall := swc_cpld_set_regprops_slow hub_fresh hub_fresh_data 0x30 5 rfl rfl hlen
    (by decide) (fun h => absurd h.2 (by decide))
  have hprops : swc_cpld_register_regprops register_example 0 = .ok 5 := by decide
  have hoffset : array_get register_example.offsets 0 = .ok 0x30 := by decide
  have hname : names_get register_example.names 0 =
      .ok ['b', 'o', 'a', 'r', 'd', '-', 'r', 'e', 'v'] := by decide
  have hloop : swc_cpld_register_probe_loop probe_env_no_names register_example 2 0
      { cpld := hub_fresh, attrs := List.replicate SWC_CPLD_REGISTER_MAX_OFFSETS none,
        files := [], registered := [] } =
      .ok (register_probe_no_names_state, -ENOMEM) := by
    rw [swc_cpld_register_probe_loop]
    simp only [bind, Except.bind, hprops, hoffset, hcall, hname]
    rfl
  have hbody : swc_cpld_register_probe_body probe_env_no_names register_example
      { cpld := hub_fresh, attrs := List.replicate SWC_CPLD_REGISTER_MAX_OFFSETS none,
        files := [], registered := [] } =
      .ok (register_probe_no_names_state, -ENOMEM) := by
    unfold swc_cpld_register_probe_body
    rw [show register_example.num_offsets = 2 from rfl, hloop]
    rfl
  unfold swc_cpld_register_probe
  simp only [show probe_env_no_names.data_alloc_ok = true from rfl, not_true_eq_false,
    if_false, register_props_example_data, ne_eq, bind, Except.bind, hbody]

set_option maxRecDepth 100000 in
theorem swc_cpld_register_probe_one_name :
    ∃ st, swc_cpld_register_probe probe_env_one_name register_props_example (some hub_fresh)
        [] = .ok { ret := -ENOMEM, bound := some (register_example, st) } ∧
      st.attrs.getD 0 none = some ['b', 'o', 'a', 'r', 'd', '_', 'r', 'e', 'v'] ∧
      st.attrs.getD 1 none = none ∧
      st.files = [] ∧
      st.registered = [(0x30, 5), (0x31, 7)] ∧
      st.cpld.entry 0x30 = 5 ∧ st.cpld.entry 0x31 = 7 ∧ st.cpld.max_reg = 0x31 :=
  ⟨_, rfl, rfl, rfl, rfl, rfl, rfl, rfl, rfl⟩

/-- C24 (as stated, refuted): the probe of the example register device on the freshly
probed hub fails with `-ENOMEM` when the name of its first attribute cannot be allocated;
by then offset 0x30 has been registered, and after the failed probe its table entry is 5
instead of 0 and the max register is 0x30 instead of 0. -/
theorem swc_cpld_register_probe_failure_keeps_entry :
    ∃ res st,
      swc_cpld_register_probe probe_env_no_names register_props_example (some hub_fresh) [] =
        .ok res ∧
      res.ret = -ENOMEM ∧ res.bound = some (register_example, st) ∧
      hub_fresh.entry 0x30 = 0 ∧ hub_fresh.max_reg = 0 ∧
      st.cpld.entry 0x30 = 5 ∧ st.cpld.max_reg = 0x30 := by
  have hlen : 0x30 < hub_fresh_data.register_props.length := by
    rw [hub_fresh_data_wf]; decide
  refine ⟨_, _, swc_cpld_register_probe_no_names, rfl, rfl, ?_, rfl,
    getD_set_self _ _ _ hlen, rfl⟩
  simp only [device.entry, hub_fresh, hub_fresh_data, List.getD_eq_getElem?_getD,
    List.getElem?_replicate]
  decide

/-- C24 (amended): a probe of a register device on a ready hub (offset 255 not used, no
sysfs file of the device yet with the name of one of its attributes) leaves on the hub
every permission it has registered, whether it succeeds or fails: the calls made are those
of the first `k` offset indexes, with `1 ≤ k` when the probe fails after the data was read;
afterwards the table entry of each offset below 255 is the props of the latest of these
calls on it, or its value before the probe if there was none, and the max register is the
one before the probe raised to every registered offset. What a failing probe rolls back is
the sysfs files: after it the files of the device are those before the probe, while a probe
that returns 0 has added the attribute file of every offset index. -/
theorem swc_cpld_register_probe_keeps_permissions (env : register_probe_env)
    (props : register_properties) (cpld : device) (files : List (List Char))
    (data : swc_cpld_register_data) (hready : cpld.ready)
    (halloc : env.data_alloc_ok = true)
    (hdata : swc_cpld_register_probe_data props = (0, data))
    (hoff : ∀ offs, props.offsets = some offs → SWC_CPLD_REG_MAX ∉ offs)
    (hfresh : ∀ j, j < data.num_offsets → register_attr_name data j ∉ files) :
    ∃ res st k,
      swc_cpld_register_probe env props (some cpld) files = .ok res ∧
      res.bound = some (data, st) ∧
      k ≤ data.num_offsets ∧ (res.ret ≠ 0 → 1 ≤ k) ∧
      st.registered = register_calls data 0 k ∧
      st.cpld.max_reg = max_reg_after st.registered cpld.max_reg ∧
      (∀ o, o < SWC_CPLD_REG_MAX →
        st.cpld.entry o = last_props st.registered o (cpld.entry o)) ∧
      (res.ret ≠ 0 → st.files = files) ∧
      (res.ret = 0 → st.files = files ++ register_attr_names data 0 data.num_offsets) := by
  have hoff1 := swc_cpld_register_probe_data_offsets props data hdata hoff
  obtain ⟨res, st, k, hprobe, hbound, -, hk, -, hr2, hreg, hseq⟩ :=
    swc_cpld_register_probe_spec env props cpld files data hready halloc hdata hoff1
  obtain ⟨d, hseq1, -, hmax, hent⟩ := swc_cpld_set_regprops_seq_entry st.registered cpld hready
    (by rw [hreg]; exact register_calls_offset_ne data k hk hoff1)
  rw [hseq] at hseq1
  obtain rfl : st.cpld = d := by injection hseq1
  obtain ⟨st0, r0, hprobe0, hf1, hf2⟩ := swc_cpld_register_probe_files env props cpld files
    data hready halloc hdata hoff1 hfresh
  rw [hprobe] at hprobe0
  have hres : res = { ret := r0, bound := some (data, st0) } := by injection hprobe0
  have hst : st = st0 := by
    rw [hres] at hbound
    exact ((Prod.mk.inj (Option.some.inj hbound)).2).symm
  have hret : res.ret = r0 := by rw [hres]
  rw [← hst] at hf1 hf2
  rw [← hret] at hf1 hf2
  exact ⟨res, st, k, hprobe, hbound, hk, hr2, hreg, hmax, hent, hf1, hf2⟩

/-- Witness for C24 (amended): the example register device on the freshly probed hub, with
the name of the first attribute alone allocated. The probe creates the file `board_rev`,
registers offsets 0x30 and 0x31 and fails with `-ENOMEM`; afterwards the file is gone and
the two entries of the hub are still 5 and 7. -/
theorem swc_cpld_register_probe_keeps_permissions_witness :
    (∃ st, swc_cpld_register_probe probe_env_one_name register_props_example (some hub_fresh)
        [] = .ok { ret := -ENOMEM, bound := some (register_example, st) } ∧
      st.attrs.getD 0 none = some ['b', 'o', 'a', 'r', 'd', '_', 'r', 'e', 'v'] ∧
      st.attrs.getD 1 none = none ∧
      st.files = [] ∧
      st.registered = [(0x30, 5), (0x31, 7)] ∧
      st.cpld.entry 0x30 = 5 ∧ st.cpld.entry 0x31 = 7 ∧ st.cpld.max_reg = 0x31) ∧
    ∃ res st k,
      swc_cpld_register_probe probe_env_one_name register_props_example (some hub_fresh) [] =
        .ok res ∧
      res.bound = some (register_example, st) ∧
      k ≤ register_example.num_offsets ∧ (res.ret ≠ 0 → 1 ≤ k) ∧
      st.registered = register_calls register_example 0 k ∧
      st.cpld.max_reg = max_reg_after st.registered hub_fresh.max_reg ∧
      (∀ o, o < SWC_CPLD_REG_MAX →
        st.cpld.entry o = last_props st.registered o (hub_fresh.entry o)) ∧
      (res.ret ≠ 0 → st.files = []) ∧
      (res.ret = 0 →
        st.files = [] ++ register_attr_names register_example 0 register_example.num_offsets) :=
  ⟨swc_cpld_register_probe_one_name,
    swc_cpld_register_probe_keeps_permissions probe_env_one_name register_props_example
      hub_fresh [] register_example hub_fresh_ready rfl register_props_example_data
      (by decide) (fun _ _ h => absurd h (List.not_mem_nil _))⟩


/-! ## Mux probe -/

/-- C26 (code defect): for a mux node whose `offset` is present and whose `encoding` is
present with the value `bitmask`, `swc_cpld_i2c_mux_probe` returns 0: the branch that rejects
the encoding returns `err`, which still holds the 0 of the successful property read. No mux
data is bound, no transfer is made and the hub is untouched. -/
theorem swc_cpld_i2c_mux_probe_bad_encoding_returns_zero :
    mux_props_bitmask.encoding ≠ some ['i', 'n', 'd', 'e', 'x'] ∧
    ∃ res, swc_cpld_i2c_mux_probe mux_probe_env_ok mux_props_bitmask (some hub_fresh) [] =
        .ok res ∧
      res.ret = 0 ∧ res.data = none ∧ res.bus = [] ∧ res.hub = some hub_fresh ∧
      res.count = 0 :=
  ⟨by decide, _, rfl, rfl, rfl, rfl, rfl, rfl⟩


/-! ## Registration by the GPIO front end -/

theorem gpio_calls_succ (data : swc_cpld_gpio_data) (num k : Nat) :
    gpio_calls data num (k + 1) =
      (data.offsets.getD num 0, gpio_regprops_value data num) ::
        gpio_calls data (num + 1) k := by
  simp [gpio_calls, List.range'_succ]

theorem gpio_calls_getElem (data : swc_cpld_gpio_data) (k i : Nat) (hi : i < k) :
    (gpio_calls data 0 k)[i]? =
      some (data.offsets.getD i 0, gpio_regprops_value data i) := by
  unfold gpio_calls
  rw [List.getElem?_map, List.getElem?_range' 0 1 hi]
  simp

theorem gpio_calls_getElem_ge (data : swc_cpld_gpio_data) (k i : Nat) (hi : k ≤ i) :
    (gpio_calls data 0 k)[i]? = none := by
  apply List.getElem?_eq_none
  simp [gpio_calls, hi]

theorem gpio_regprops_value_bits (data : swc_cpld_gpio_data) (i : Nat) :
    (gpio_regprops_value data i &&& SWC_CPLD_READABLE ≠ 0 ↔
      data.valid_masks.getD i 0 ≠ 0) ∧
    (gpio_regprops_value data i &&& SWC_CPLD_WRITEABLE ≠ 0 ↔
      data.direction_masks.getD i 0 ≠ 0) ∧
    gpio_regprops_value data i &&& SWC_CPLD_VOLATILE = 0 := by
  unfold gpio_regprops_value
  by_cases h1 : data.valid_masks.getD i 0 ≠ 0 <;>
  by_cases h2 : data.direction_masks.getD i 0 ≠ 0 <;>
  simp only [if_pos, if_neg, h1, h2, not_true_eq_false, not_false_eq_true, ne_eq] <;>
  decide

theorem swc_cpld_gpio_probe_register_loop_spec (data : swc_cpld_gpio_data) (hwf : data.wf)
    (hoff : ∀ i, i < data.num_offsets → data.offsets.getD i 0 ≠ SWC_CPLD_REG_MAX) :
    ∀ n num (st : device × List (Nat × Nat)), num + n ≤ data.num_offsets → st.1.ready →
      ∃ st1 r k, swc_cpld_gpio_probe_register_loop data n num st = .ok (st1, r) ∧
        st1.1.ready ∧ k ≤ n ∧ (r = 0 → k = n) ∧
        st1.2 = st.2 ++ gpio_calls data num k ∧
        swc_cpld_set_regprops_seq st.1 (gpio_calls data num k) = .ok st1.1 := by
  intro n
  induction n with
  | zero =>
    intro num st _ hready
    exact ⟨st, 0, 0, rfl, hready, Nat.le_refl _, fun _ => rfl, by simp [gpio_calls], rfl⟩
  | succ n ih =>
    intro num st hb hready
    have hn8 : data.num_offsets ≤ SWC_CPLD_GPIO_MAX_OFFSETS := hwf.2.2.2
    have hnum : num < SWC_CPLD_GPIO_MAX_OFFSETS := by omega
    have ho : num < data.offsets.length := by rw [hwf.1]; exact hnum
    obtain ⟨d, r0, hcall, hready1, -, -⟩ :=
      device.ready_step st.1 (data.offsets.getD num 0) (gpio_regprops_value data num)
        hready (hoff num (by omega))
    have hseq1 : ∀ rest, swc_cpld_set_regprops_seq st.1
        ((data.offsets.getD num 0, gpio_regprops_value data num) :: rest) =
        swc_cpld_set_regprops_seq d rest :=
      fun rest => swc_cpld_set_regprops_seq_cons st.1 d r0 _ rest hcall
    rw [swc_cpld_gpio_probe_register_loop]
    simp only [bind, Except.bind, swc_cpld_gpio_regprops_eq data hwf num hnum,
      array_get_of_lt _ _ ho, hcall]
    by_cases hr0 : r0 = 0
    · rw [if_neg (not_not.mpr hr0)]
      obtain ⟨st1, r, k, hloop, hrd, hk, hr1, hreg, hseq⟩ :=
        ih (num + 1)
          (d, st.2 ++ [(data.offsets.getD num 0, gpio_regprops_value data num)])
          (by omega) hready1
      refine ⟨st1, r, k + 1, hloop, hrd, by omega, fun h => by rw [hr1 h], ?_, ?_⟩
      · rw [hreg, gpio_calls_succ]
        simp
      · rw [gpio_calls_succ, hseq1]
        exact hseq
    · rw [if_pos hr0]
      refine ⟨_, _, 1, rfl, hready1, by omega, fun h => absurd h hr0, ?_, ?_⟩
      · simp [gpio_calls]
      · rw [gpio_calls_succ, hseq1]
        simp [gpio_calls, swc_cpld_set_regprops_seq]

theorem swc_cpld_gpio_probe_register_loop_ok (data : swc_cpld_gpio_data) (hwf : data.wf)
    (map : regmap)
    (hoff : ∀ i, i < data.num_offsets → data.offsets.getD i 0 < SWC_CPLD_REG_MAX) :
    ∀ n num (st : device × List (Nat × Nat)), num + n ≤ data.num_offsets → st.1.ready →
      st.1.regmap = some map →
      ∃ st1, swc_cpld_gpio_probe_register_loop data n num st = .ok (st1, 0) := by
  intro n
  induction n with
  | zero => intro num st _ _ _; exact ⟨st, rfl⟩
  | succ n ih =>
    intro num st hb hready hmap
    have hn8 : data.num_offsets ≤ SWC_CPLD_GPIO_MAX_OFFSETS := hwf.2.2.2
    have hnum : num < SWC_CPLD_GPIO_MAX_OFFSETS := by omega
    have ho : num < data.offsets.length := by rw [hwf.1]; exact hnum
    have hlt := hoff num (by omega)
    obtain ⟨d, r0, hcall, hready1, hmap1, -⟩ :=
      device.ready_step st.1 (data.offsets.getD num 0) (gpio_regprops_value data num)
        hready (Nat.ne_of_lt hlt)
    obtain ⟨d0, hcall0⟩ := device.ready_step_ret st.1 map (data.offsets.getD num 0)
      (gpio_regprops_value data num) hready hmap hlt
    rw [hcall] at hcall0
    obtain ⟨rfl, rfl⟩ : d = d0 ∧ r0 = 0 := by
      injection hcall0 with h
      exact ⟨congrArg Prod.fst h, congrArg Prod.snd h⟩
    rw [swc_cpld_gpio_probe_register_loop]
    simp only [bind, Except.bind, swc_cpld_gpio_regprops_eq data hwf num hnum,
      array_get_of_lt _ _ ho, hcall, ne_eq, not_true_eq_false, if_false]
    exact ih (num + 1) _ (by omega) hready1 (hmap1.trans hmap)

theorem gpio_calls_offset_ne (data : swc_cpld_gpio_data) (k : Nat)
    (hk : k ≤ data.num_offsets)
    (hoff : ∀ i, i < data.num_offsets → data.offsets.getD i 0 ≠ SWC_CPLD_REG_MAX) :
    ∀ c ∈ gpio_calls data 0 k, c.1 ≠ SWC_CPLD_REG_MAX := by
  intro c hc
  simp only [gpio_calls, List.mem_map, List.mem_range'_1] at hc
  obtain ⟨i, ⟨-, hi⟩, rfl⟩ := hc
  exact hoff i (by omega)

/-- C29: on a ready hub with its map attached and any permission table, the registration
loop of the GPIO probe (offsets below 255) returns 0 after it has called
`swc_cpld_set_regprops` once for every offset index in turn: the hub afterwards is the hub
after these calls, and the call of index `i` is on `offsets[i]` with Readable set iff
`valid_masks[i] ≠ 0`, Writable set iff `direction_masks[i] ≠ 0` and Volatile not set.
Afterwards `swc_cpld_volatile_reg` of the hub answers false for every `offsets[i]`, whatever
the entry was before, and where no later index has the same offset the entry of the hub is
the props of index `i` and the hub answers Readable and Writable by the two masks. -/
theorem swc_cpld_gpio_probe_regprops (data : swc_cpld_gpio_data) (hwf : data.wf)
    (hub : device) (map : regmap) (hready : hub.ready) (hmap : hub.regmap = some map)
    (hoff : ∀ i, i < data.num_offsets → data.offsets.getD i 0 < SWC_CPLD_REG_MAX) :
    ∃ hub1 calls,
      swc_cpld_gpio_probe_register_loop data data.num_offsets 0 (hub, []) =
        .ok ((hub1, calls), 0) ∧
      calls.length = data.num_offsets ∧
      swc_cpld_set_regprops_seq hub calls = .ok hub1 ∧
      ∀ i, i < data.num_offsets →
        ∃ p, calls[i]? = some (data.offsets.getD i 0, p) ∧
          (p &&& SWC_CPLD_READABLE ≠ 0 ↔ data.valid_masks.getD i 0 ≠ 0) ∧
          (p &&& SWC_CPLD_WRITEABLE ≠ 0 ↔ data.direction_masks.getD i 0 ≠ 0) ∧
          p &&& SWC_CPLD_VOLATILE = 0 ∧
          swc_cpld_volatile_reg hub1 (data.offsets.getD i 0) = .ok false ∧
          ((∀ j, i < j → j < data.num_offsets →
              data.offsets.getD j 0 ≠ data.offsets.getD i 0) →
            hub1.entry (data.offsets.getD i 0) = p ∧
            swc_cpld_readable_reg hub1 (data.offsets.getD i 0) =
              .ok (decide (data.valid_masks.getD i 0 ≠ 0)) ∧
            swc_cpld_writeable_reg hub1 (data.offsets.getD i 0) =
              .ok (decide (data.direction_masks.getD i 0 ≠ 0))) := by
  have hoff1 : ∀ i, i < data.num_offsets → data.offsets.getD i 0 ≠ SWC_CPLD_REG_MAX :=
    fun i hi => Nat.ne_of_lt (hoff i hi)
  obtain ⟨st, r, k, hloop, hrd, hk, hr1, hreg, hseq⟩ :=
    swc_cpld_gpio_probe_register_loop_spec data hwf hoff1 data.num_offsets 0 (hub, [])
      (by omega) hready
  obtain ⟨st0, hloop0⟩ := swc_cpld_gpio_probe_register_loop_ok data hwf map hoff
    data.num_offsets 0 (hub, []) (by omega) hready hmap
  rw [hloop] at hloop0
  obtain ⟨-, rfl⟩ : st = st0 ∧ r = 0 := by
    injection hloop0 with h
    exact ⟨congrArg Prod.fst h, congrArg Prod.snd h⟩
  have hkn : k = data.num_offsets := hr1 rfl
  subst hkn
  simp only [List.nil_append] at hreg
  simp only at hseq
  obtain ⟨hub1, calls⟩ := st
  simp only at hreg hseq hrd
  subst hreg
  obtain ⟨d, hseq1, -, -, hent⟩ := swc_cpld_set_regprops_seq_entry
    (gpio_calls data 0 data.num_offsets) hub hready
    (gpio_calls_offset_ne data data.num_offsets (Nat.le_refl _) hoff1)
  rw [hseq] at hseq1
  obtain rfl : hub1 = d := by injection hseq1
  refine ⟨hub1, _, hloop, by simp [gpio_calls], hseq, ?_⟩
  intro i hi
  obtain ⟨hb1, hb2, hb3⟩ := gpio_regprops_value_bits data i
  have hget := gpio_calls_getElem data data.num_offsets i hi
  have holt := hoff i hi
  refine ⟨gpio_regprops_value data i, hget, hb1, hb2, hb3, ?_, ?_⟩
  · obtain ⟨c, hc, -, hlast⟩ := last_props_mem (gpio_calls data 0 data.num_offsets)
      (data.offsets.getD i 0) (hub.entry (data.offsets.getD i 0))
      ⟨_, (List.mem_iff_getElem?.mpr ⟨i, hget⟩), rfl⟩
    have hcv : c.2 &&& SWC_CPLD_VOLATILE = 0 := by
      simp only [gpio_calls, List.mem_map] at hc
      obtain ⟨j, -, rfl⟩ := hc
      exact (gpio_regprops_value_bits data j).2.2
    unfold swc_cpld_volatile_reg
    rw [device.entry_reg_has hub1 hrd _ _ holt, hent _ holt, hlast, hcv]
    rfl
  · intro hlast
    have hentry : hub1.entry (data.offsets.getD i 0) = gpio_regprops_value data i := by
      rw [hent _ holt]
      apply last_props_of_last _ _ _ i _ hget
      intro j c hij hj
      by_cases hjn : j < data.num_offsets
      · rw [gpio_calls_getElem data data.num_offsets j hjn] at hj
        rw [← Option.some.inj hj]
        exact hlast j hij hjn
      · rw [gpio_calls_getElem_ge data data.num_offsets j (by omega)] at hj
        exact absurd hj (by simp)
    refine ⟨hentry, ?_, ?_⟩
    · unfold swc_cpld_readable_reg
      rw [device.entry_reg_has hub1 hrd _ _ holt, hentry]
      exact congrArg Except.ok (decide_eq_decide.mpr hb1)
    · unfold swc_cpld_writeable_reg
      rw [device.entry_reg_has hub1 hrd _ _ holt, hentry]
      exact congrArg Except.ok (decide_eq_decide.mpr hb2)

/-- Witness for C29: the example GPIO block on a hub whose table marks every register as
Volatile; before the loop the hub answers Volatile for offset 0x10. -/
theorem swc_cpld_gpio_probe_regprops_witness :
    swc_cpld_volatile_reg hub_volatile 0x10 = .ok true ∧
    ∃ hub1 calls,
      swc_cpld_gpio_probe_register_loop gpio_example 2 0 (hub_volatile, []) =
        .ok ((hub1, calls), 0) ∧
      calls.length = 2 ∧
      swc_cpld_set_regprops_seq hub_volatile calls = .ok hub1 ∧
      ∀ i, i < 2 →
        ∃ p, calls[i]? = some (gpio_example.offsets.getD i 0, p) ∧
          (p &&& SWC_CPLD_READABLE ≠ 0 ↔ gpio_example.valid_masks.getD i 0 ≠ 0) ∧
          (p &&& SWC_CPLD_WRITEABLE ≠ 0 ↔ gpio_example.direction_masks.getD i 0 ≠ 0) ∧
          p &&& SWC_CPLD_VOLATILE = 0 ∧
          swc_cpld_volatile_reg hub1 (gpio_example.offsets.getD i 0) = .ok false ∧
          ((∀ j, i < j → j < 2 →
              gpio_example.offsets.getD j 0 ≠ gpio_example.offsets.getD i 0) →
            hub1.entry (gpio_example.offsets.getD i 0) = p ∧
            swc_cpld_readable_reg hub1 (gpio_example.offsets.getD i 0) =
              .ok (decide (gpio_example.valid_masks.getD i 0 ≠ 0)) ∧
            swc_cpld_writeable_reg hub1 (gpio_example.offsets.getD i 0) =
              .ok (decide (gpio_example.direction_masks.getD i 0 ≠ 0))) := by
  have hlen : (List.replicate 255 5).length = 255 := List.length_replicate _ _
  refine ⟨?_, swc_cpld_gpio_probe_regprops gpio_example (by decide) hub_volatile regmap_ok
    ⟨_, rfl, rfl, hlen⟩ rfl (by decide)⟩
  unfold swc_cpld_volatile_reg
  rw [swc_cpld_reg_has_of_lt hub_volatile _ 0x10 _ rfl (by rw [hlen]; decide) (by decide)]
  simp only [List.getD_eq_getElem?_getD, List.getElem?_replicate]
  decide

/-! ## Attribute reads by name -/

theorem register_show_loop_skip (data : swc_cpld_register_data) (cpld : device)
    (property_name : List Char) :
    ∀ k reg n,
      (∀ j, reg ≤ j → j < reg + k →
        ∃ name, data.names[j]? = some name ∧ name ≠ property_name) →
      register_show_loop data cpld property_name (k + n) reg =
        register_show_loop data cpld property_name n (reg + k) := by
  intro k
  induction k with
  | zero => intro reg n _; rw [Nat.zero_add, Nat.add_zero]
  | succ k ih =>
    intro reg n h
    obtain ⟨name, hname, hne⟩ := h reg (Nat.le_refl _) (by omega)
    rw [show k + 1 + n = (k + n) + 1 by omega, register_show_loop]
    simp only [names_get, hname, bind, Except.bind, if_pos (Ne.symm hne)]
    rw [ih (reg + 1) n (fun j h1 h2 => h j (by omega) (by omega))]
    rw [show reg + 1 + k = reg + (k + 1) by omega]

/-- C25 (as stated, refuted): the only register of `register_underscore` is called
`led_ctl`; the attribute created for it is called `led_ctl` too, and `register_show` on it,
on the freshly probed hub, looks for `led-ctl` and answers `-ENODEV` without any read. And
the attribute of the declared name `led-ctl` of the example device answers `-ENODEV` on a
hub whose map cannot be fetched. -/
theorem register_show_declared_name_enodev :
    register_underscore.names[0]? = some ['l', 'e', 'd', '_', 'c', 't', 'l'] ∧
    register_show register_underscore hub_fresh
      (swc_fw_util_property_to_sysfs ['l', 'e', 'd', '_', 'c', 't', 'l'] 8).1 =
        .ok (hub_fresh, -ENODEV, none) ∧
    register_example.names[1]? = some ['l', 'e', 'd', '-', 'c', 't', 'l'] ∧
    ∃ d, register_show register_example hub_no_map
      (swc_fw_util_property_to_sysfs ['l', 'e', 'd', '-', 'c', 't', 'l'] 8).1 =
        .ok (d, -ENODEV, none) := by
  refine ⟨rfl, rfl, rfl, ?_⟩
  have hskip := register_show_loop_skip register_example hub_no_map
    ['l', 'e', 'd', '-', 'c', 't', 'l'] 1 0 1
    (fun j h1 h2 => by
      have hj : j = 0 := by omega
      subst hj
      exact ⟨_, rfl, by decide⟩)
  have hattr : (swc_fw_util_sysfs_to_property
      (swc_fw_util_property_to_sysfs ['l', 'e', 'd', '-', 'c', 't', 'l'] 8).1 128).1 =
      ['l', 'e', 'd', '-', 'c', 't', 'l'] := by decide
  unfold register_show
  rw [hattr, show register_example.num_offsets = 1 + 1 from rfl, hskip, register_show_loop]
  simp only [names_get, show register_example.names[0 + 1]? =
    some ['l', 'e', 'd', '-', 'c', 't', 'l'] from rfl, bind, Except.bind, ne_eq,
    not_true_eq_false, if_false,
    swc_cpld_get_regmap_none hub_no_map hub_used_data rfl rfl rfl]
  exact ⟨_, rfl⟩

theorem attr_lookup_name_eq (n : List Char) (hlen : n.length < 128) :
    (swc_fw_util_sysfs_to_property
      (swc_fw_util_property_to_sysfs n (n.length + 1)).1 128).1 = attr_lookup_name n := by
  rw [swc_fw_util_property_to_sysfs_fits n (n.length + 1) (by omega) (by omega)]
  simp only
  rw [swc_fw_util_sysfs_to_property_fits _ 128 (by rw [List.length_map]; exact hlen)
    (by decide)]
  simp only [attr_lookup_name, List.map_map]
  apply List.map_congr_left
  intro c _
  by_cases h1 : c = '-'
  · simp [h1]
  · simp [Function.comp, h1]

theorem attr_lookup_name_of_no_underscore (n : List Char) (h : '_' ∉ n) :
    attr_lookup_name n = n := by
  unfold attr_lookup_name
  have hid : n.map (fun c => if c = '_' then '-' else c) = n.map id := by
    apply List.map_congr_left
    intro c hc
    have hne : c ≠ '_' := fun he => h (he ▸ hc)
    simp [hne]
  rw [hid, List.map_id]

/-- C25 (amended): on a hub with its mutex free, `register_show` on the attribute created
for a declared name `n` shorter than 128 characters looks up `n` with every underscore
replaced by a hyphen, which is `n` itself when `n` has no underscore. When no declared name
equals the name looked up it answers `-ENODEV` without touching the hub. Otherwise, with
`i` the first index whose declared name equals it: with no map attached it answers
`-ENODEV`; with a map attached it reads register `offsets[i]` once, and when the read
succeeds with value `r` it reports the text of `r & valid_masks[i]` and returns its
length, a positive number, and when the read fails it returns the error of the read and
reports nothing. -/
theorem register_show_declared_name (data : swc_cpld_register_data) (cpld : device)
    (hub : swc_cpld_data) (n : List Char) (hwf : data.wf)
    (hd : cpld.drvdata = some hub) (hfree : hub.regmap_mutex = false)
    (hlen : n.length < 128) :
    ('_' ∉ n → attr_lookup_name n = n) ∧
    ((∀ j, j < data.num_offsets → data.names[j]? ≠ some (attr_lookup_name n)) →
      register_show data cpld (swc_fw_util_property_to_sysfs n (n.length + 1)).1 =
        .ok (cpld, -ENODEV, none)) ∧
    ∀ i, i < data.num_offsets → data.names[i]? = some (attr_lookup_name n) →
      (∀ j, j < i → data.names[j]? ≠ some (attr_lookup_name n)) →
      (cpld.regmap = none →
        ∃ d, register_show data cpld (swc_fw_util_property_to_sysfs n (n.length + 1)).1 =
            .ok (d, -ENODEV, none) ∧
          d.log = cpld.log ++ [.mutex_lock, .mutex_unlock]) ∧
      ∀ map, cpld.regmap = some map →
        ∃ d ret out,
          register_show data cpld (swc_fw_util_property_to_sysfs n (n.length + 1)).1 =
            .ok (d, ret, out) ∧
          d.log = cpld.log ++
            [.mutex_lock, .regmap_read (data.offsets.getD i 0), .mutex_unlock] ∧
          ((map.read (cpld.log ++ [.mutex_lock]) (data.offsets.getD i 0)).1 = 0 →
            out = some (sprintf_hex
              ((map.read (cpld.log ++ [.mutex_lock]) (data.offsets.getD i 0)).2 &&&
                data.valid_masks.getD i 0)) ∧
            (∀ text, out = some text → ret = (text.length : Int)) ∧ 0 < ret) ∧
          ((map.read (cpld.log ++ [.mutex_lock]) (data.offsets.getD i 0)).1 ≠ 0 →
            ret = (map.read (cpld.log ++ [.mutex_lock]) (data.offsets.getD i 0)).1 ∧
            out = none) := by
  obtain ⟨ho, hv, -, -, -, -, hn8, hnames⟩ := hwf
  have hattr := attr_lookup_name_eq n hlen
  have hother : ∀ j, j < data.num_offsets →
      data.names[j]? ≠ some (attr_lookup_name n) →
      ∃ name, data.names[j]? = some name ∧ name ≠ attr_lookup_name n := by
    intro j hj hne
    have hjl : j < data.names.length := by rw [hnames]; exact hj
    refine ⟨data.names.get ⟨j, hjl⟩, List.getElem?_eq_getElem hjl, ?_⟩
    intro heq
    apply hne
    rw [List.getElem?_eq_getElem hjl, ← heq]
    rfl
  refine ⟨attr_lookup_name_of_no_underscore n, ?_, ?_⟩
  · intro hnone
    have hskip := register_show_loop_skip data cpld (attr_lookup_name n) data.num_offsets 0 0
      (fun j _ h2 => hother j (by omega) (hnone j (by omega)))
    unfold register_show
    rw [hattr]
    rw [Nat.add_zero] at hskip
    rw [hskip]
    rfl
  · intro i hi hname hfirst
    have h1 : i < data.offsets.length := by rw [ho]; omega
    have h2 : i < data.valid_masks.length := by rw [hv]; omega
    obtain ⟨m, hm⟩ : ∃ m, data.num_offsets = i + (m + 1) :=
      ⟨data.num_offsets - i - 1, by omega⟩
    have hskip := register_show_loop_skip data cpld (attr_lookup_name n) i 0 (m + 1)
      (fun j _ h2 => hother j (by omega) (hfirst j (by omega)))
    have hloop : register_show data cpld (swc_fw_util_property_to_sysfs n (n.length + 1)).1 =
        register_show_loop data cpld (attr_lookup_name n) (m + 1) i := by
      unfold register_show
      rw [hattr, hm, hskip, Nat.zero_add]
    rw [hloop, register_show_loop]
    constructor
    · intro hm
      simp only [names_get, hname, bind, Except.bind, ne_eq, not_true_eq_false, if_false,
        swc_cpld_get_regmap_none cpld hub hd hfree hm]
      exact ⟨_, rfl, rfl⟩
    · intro map hm
      simp only [names_get, hname, bind, Except.bind, ne_eq, not_true_eq_false,
        if_false, swc_cpld_get_regmap_some cpld hub map hd hfree hm, array_get_of_lt _ _ h1,
        array_get_of_lt _ _ h2, regmap_read, swc_cpld_put_regmap, mutex_unlock]
      by_cases herr : (map.read (cpld.log ++ [.mutex_lock]) (data.offsets.getD i 0)).1 = 0
      · rw [if_neg (not_not.mpr herr)]
        refine ⟨_, _, _, rfl, by simp, fun _ => ⟨rfl, ?_, ?_⟩, fun h => absurd herr h⟩
        · intro text ht
          rw [← Option.some.inj ht]
        · simp [sprintf_hex]
          omega
      · rw [if_pos herr]
        exact ⟨_, _, _, rfl, by simp, fun h => absurd h herr, fun _ => ⟨rfl, rfl⟩⟩

/-- Witness for C25 (amended): the attribute `led_ctl` of the example register device, of
the declared name `led-ctl` at index 1, on the freshly probed hub with its map; and the
attribute of the name `a_b`, declared at index 0 of a device whose index 1 is called `a-b`:
the look-up is for `a-b` and the register read is the one of index 1. -/
theorem register_show_declared_name_witness :
    (∃ d ret out,
      register_show register_example hub_fresh
        (swc_fw_util_property_to_sysfs ['l', 'e', 'd', '-', 'c', 't', 'l'] 8).1 =
          .ok (d, ret, out) ∧
      d.log = hub_fresh.log ++
        [.mutex_lock, .regmap_read (register_example.offsets.getD 1 0), .mutex_unlock] ∧
      ((regmap_ok.read (hub_fresh.log ++ [.mutex_lock])
          (register_example.offsets.getD 1 0)).1 = 0 →
        out = some (sprintf_hex
          ((regmap_ok.read (hub_fresh.log ++ [.mutex_lock])
            (register_example.offsets.getD 1 0)).2 &&&
            register_example.valid_masks.getD 1 0)) ∧
        (∀ text, out = some text → ret = (text.length : Int)) ∧ 0 < ret) ∧
      ((regmap_ok.read (hub_fresh.log ++ [.mutex_lock])
          (register_example.offsets.getD 1 0)).1 ≠ 0 →
        ret = (regmap_ok.read (hub_fresh.log ++ [.mutex_lock])
          (register_example.offsets.getD 1 0)).1 ∧
        out = none)) ∧
    register_clash.names[0]? = some ['a', '_', 'b'] ∧
    ∃ d ret out,
      register_show register_clash hub_fresh
        (swc_fw_util_property_to_sysfs ['a', '_', 'b'] 4).1 = .ok (d, ret, out) ∧
      d.log = hub_fresh.log ++ [.mutex_lock, .regmap_read 0x31, .mutex_unlock] :=
  ⟨((register_show_declared_name register_example hub_fresh hub_fresh_data
      ['l', 'e', 'd', '-', 'c', 't', 'l'] (by decide) rfl rfl (by decide)).2.2 1 (by decide)
      rfl (by decide)).2 regmap_ok rfl,
    rfl,
    by
      obtain ⟨d, ret, out, h, hlog, -, -⟩ :=
        ((register_show_declared_name register_clash hub_fresh hub_fresh_data
          ['a', '_', 'b'] (by decide) rfl rfl (by decide)).2.2 1 (by decide)
          rfl (by decide)).2 regmap_ok rfl
      exact ⟨d, ret, out, h, hlog⟩⟩

end Swc
